import Mathlib

/-!
# SID settings engine: binary record codec, change-hash cache, field validator,
legacy migration, remote ID and learned IR keys

A shallow embedding of `sid_settings.cpp`.  Bytes are `Fin 256`, C `int`s are
`Int`/`Nat`, 16- and 32-bit registers are `Nat` reduced modulo `2^16`/`2^32`
where the C code wraps.  The two storage media (flash file system `MYNVS`
and the SD card `SD`) are library objects; they are modelled by `Medium`.
Heap allocation (`malloc`) is taken to succeed.  The ArduinoJson library is a
parameter: `ser` for serialization, `JsonLib` for parsing and conversions.
A result `none` of an `Option`-valued function is a memory access through a
null pointer or outside a buffer.
-/

namespace SID

/-- One `uint8_t`. -/
abbrev Byte := Fin 256

/-! ## Storage media -/

/-- A stored file: its contents, and whether opening or reading it fails. -/
structure FileEnt where
  data : List Byte
  ioErr : Bool := false
deriving DecidableEq, Repr

/-- A storage medium as seen through the Arduino `FS` interface.
`openW` tells whether `open(fn, FILE_WRITE)` yields a valid handle, `room`
is the number of bytes one `write` call accepts, and `wlog` records the
write requests the medium received (oldest first). -/
structure Medium where
  files : List (String × FileEnt) := []
  openW : Bool := true
  room : Nat := 1000000
  wlog : List (String × List Byte) := []
deriving DecidableEq, Repr

/-- Look a file up by name. -/
def lookupFile : List (String × FileEnt) → String → Option FileEnt
  | [], _ => none
  | (n, e) :: rest, fn => if n = fn then some e else lookupFile rest fn

/-- Remove a file by name. -/
def eraseFile : List (String × FileEnt) → String → List (String × FileEnt)
  | [], _ => []
  | (n, e) :: rest, fn => if n = fn then eraseFile rest fn else (n, e) :: eraseFile rest fn

/-- Create or replace a file. -/
def putFile (fs : List (String × FileEnt)) (fn : String) (e : FileEnt) :
    List (String × FileEnt) :=
  (fn, e) :: eraseFile fs fn

/-- Result of `m.exists(fn)`. -/
def Medium.fexists (m : Medium) (fn : String) : Bool :=
  (lookupFile m.files fn).isSome

/-- Result of `m.remove(fn)`. -/
def Medium.remove (m : Medium) (fn : String) : Medium :=
  { m with files := eraseFile m.files fn }

/-- `readFileU` on `m.open(fn, FILE_READ)`: the file contents when the handle
is valid and `read` delivers all `size()` bytes, else `none` (return `false`). -/
def readFileU (m : Medium) (fn : String) : Option (List Byte) :=
  match lookupFile m.files fn with
  | some e => if e.ioErr then none else some e.data
  | none => none

/-- `writeFile` on `m.open(fn, FILE_WRITE)`: the handle may be invalid; a valid
handle truncates the file and `write` accepts `min len room` bytes; the result
is `bytesw == len`. -/
def writeFile (m : Medium) (fn : String) (buf : List Byte) : Medium × Bool :=
  let m1 := { m with wlog := m.wlog ++ [(fn, buf)] }
  if m.openW then
    let bytesw := min buf.length m.room
    ({ m1 with files := putFile m.files fn { data := buf.take bytesw } },
      bytesw == buf.length)
  else (m1, false)

/-! ## Checksum and hash -/

/-- The loop `while(len--) s += *buf++` on a `uint16_t` accumulator. -/
def cfSum : List Byte → Nat → Nat
  | [], s => s
  | b :: bs, s => cfSum bs ((s + b.val) % 65536)

/-- The tail of `cfChkSum`: `s = (s >> 8) + (s & 0xff); s += (s >> 8);
return (uint8_t)(~s)`. -/
def cfFold (s : Nat) : Byte :=
  let s1 := (s / 256 + s % 256) % 65536
  let s2 := (s1 + s1 / 256) % 65536
  ⟨(65535 - s2) % 256, Nat.mod_lt _ (by decide)⟩

/-- Function `cfChkSum(buf, len)`, on the `len` bytes starting at `buf`. -/
def cfChkSum (bytes : List Byte) : Byte :=
  cfFold (cfSum bytes 0)

/-- Function `calcHash(buf, len)`: 32-bit FNV-1a. -/
def calcHash (bytes : List Byte) : Nat :=
  bytes.foldl (fun hash b => ((hash ^^^ b.val) * 16777619) % 4294967296) 2166136261

/-! ## Program state -/

/-- The packed struct `secSettings` (8 bytes). -/
structure SecSettings where
  brightness : Fin 65536
  irLocked : Byte
  strictMode : Byte
  SApeaks : Byte
  irShowPosFBDisplay : Byte
  irShowCmdFBDisplay : Byte
  showUpdAvail : Byte
deriving DecidableEq, Repr

/-- Memory image `(uint8_t *)&secSettings`, `sizeof(secSettings)` bytes
(little-endian target). -/
def SecSettings.bytes (s : SecSettings) : List Byte :=
  [⟨s.brightness.val % 256, Nat.mod_lt _ (by decide)⟩,
   ⟨s.brightness.val / 256 % 256, Nat.mod_lt _ (by decide)⟩,
   s.irLocked, s.strictMode, s.SApeaks, s.irShowPosFBDisplay,
   s.irShowCmdFBDisplay, s.showUpdAvail]

/-- The packed struct `terSettings` (2 bytes). -/
structure TerSettings where
  bootMode : Byte
  idleMode : Byte
deriving DecidableEq, Repr

/-- Memory image `(uint8_t *)&terSettings`. -/
def TerSettings.bytes (s : TerSettings) : List Byte :=
  [s.bootMode, s.idleMode]

/-- The struct `ipsettings`: four character arrays, `ip` first. -/
structure IPSettings where
  ip : List Byte
  gateway : List Byte
  netmask : List Byte
  dns : List Byte
deriving DecidableEq, Repr

/-- Memory image `(uint8_t *)&ipsettings`. -/
def IPSettings.bytes (s : IPSettings) : List Byte :=
  s.ip ++ s.gateway ++ s.netmask ++ s.dns

/-- The struct `settings`: one character array per field of the main
configuration. -/
structure Settings where
  ssid : List Byte
  pass : List Byte
  hostName : List Byte
  wifiConRetries : List Byte
  wifiConTimeout : List Byte
  systemID : List Byte
  appw : List Byte
  apChnl : List Byte
  wifiAPOffDelay : List Byte
  skipTTAnim : List Byte
  ssTimer : List Byte
  tcdIP : List Byte
  useGPSS : List Byte
  useNM : List Byte
  useFPO : List Byte
  bttfnTT : List Byte
  ssClock : List Byte
  ssClockOffNM : List Byte
  TCDpresent : List Byte
  noETTOLead : List Byte
  CfgOnSD : List Byte
  sdFreq : List Byte
  disDIR : List Byte
  useMQTT : List Byte
  mqttServer : List Byte
  mqttVers : List Byte
  mqttUser : List Byte
deriving DecidableEq, Repr

/-- The file-scope state of `sid_settings.cpp` together with both media, and
the globals of other modules the settings code reads and writes: `myRemID`,
`irLocked`, `strictMode`, `doPeaks`, the two IR feedback flags,
`showUpdAvail`, the brightness kept by the display object `sid`, and the
learned-key array of the IR module. -/
structure World where
  haveFS : Bool
  haveSD : Bool
  configOnSD : Bool
  FlashROMode : Bool
  fs : Medium
  sd : Medium
  secSettings : SecSettings
  terSettings : TerSettings
  ipsettings : IPSettings
  settings : Settings
  secSettingsHash : Nat
  terSettingsHash : Nat
  mainConfigHash : Nat
  ipHash : Nat
  haveSecSettings : Bool
  myRemID : Nat
  irLocked : Bool
  sidBrightness : Nat
  irKeysLearned : List Nat
  strictMode : Bool
  doPeaks : Bool
  irShowPosFBDisplay : Bool
  irShowCmdFBDisplay : Bool
  showUpdAvail : Bool
  haveTerSettings : Bool
  secSetValidBytes : Nat
  terSetValidBytes : Nat
deriving DecidableEq, Repr

def cfgName : String := "/sidconfig.json"
def ipCfgName : String := "/sidipcfg"
def idName : String := "/sidid"
def irCfgName : String := "/sidirkeys.json"
def secCfgName : String := "/sid2cfg"
def terCfgName : String := "/sid3cfg"

/-! ## Generic file readers and writers -/

/-- Function `readFileFromSDU`. -/
def readFileFromSDU (w : World) (fn : String) : Option (List Byte) :=
  if !w.haveSD then none else readFileU w.sd fn

/-- Function `readFileFromFSU`. -/
def readFileFromFSU (w : World) (fn : String) : Option (List Byte) :=
  if !w.haveFS || !w.fs.fexists fn then none else readFileU w.fs fn

/-- Function `writeFileToSD`. -/
def writeFileToSD (w : World) (fn : String) (buf : List Byte) : World × Bool :=
  if !w.haveSD then (w, false)
  else
    let r := writeFile w.sd fn buf
    ({ w with sd := r.1 }, r.2)

/-- Function `writeFileToFS`. -/
def writeFileToFS (w : World) (fn : String) (buf : List Byte) : World × Bool :=
  if !w.haveFS then (w, false)
  else
    let r := writeFile w.fs fn buf
    ({ w with fs := r.1 }, r.2)

/-! ## Binary record codec -/

/-- The condition `(!forcefs && configOnSD) || forcefs > 0 ||
(forcefs < 0 && FlashROMode)` shared by `loadConfigFile` and
`saveConfigFile`. -/
def sdSelected (w : World) (forcefs : Int) : Bool :=
  (forcefs == 0 && w.configOnSD) || decide (forcefs > 0) ||
    (decide (forcefs < 0) && w.FlashROMode)

/-- Read `mem[i]`; `none` is an access outside the allocation. -/
def peek (mem : List Byte) (i : Int) : Option Byte :=
  if i < 0 then none else mem[i.toNat]?

/-- Source range of `memcpy(dst, mem + off, n)`; `none` is an access outside
the allocation. -/
def memRead (mem : List Byte) (off n : Nat) : Option (List Byte) :=
  if n = 0 ∨ off + n ≤ mem.length then some ((mem.drop off).take n) else none

/-- The call `cfChkSum(mem, len)` with a C `int` length; a negative `len`
sends `while(len--)` past every allocation. -/
def cfChkSumAt (mem : List Byte) (len : Int) : Option Byte :=
  if len < 0 ∨ (mem.length : Int) < len then none
  else some (cfChkSum (mem.take len.toNat))

/-- What `loadConfigFile` yields: return value, the caller's structure and
`validBytes`. -/
structure Loaded where
  ret : Bool
  buf : List Byte
  validBytes : Nat
deriving DecidableEq, Repr

/-- Lines 1522-1538 of `loadConfigFile` on a file that was read: `bbuf` is
the file followed by the terminating zero of `readFileU`, `fl` the file size.
`none` is a memory access outside `bbuf`. -/
def decodeRecord (file buf : List Byte) (validBytes : Nat) : Option Loaded :=
  let fl : Int := file.length
  let bbuf := file ++ [0]
  do
    let chksum ← cfChkSumAt bbuf (fl - 1)
    let last ← peek bbuf (fl - 1)
    if last = chksum then
      let b0 ← peek bbuf 0
      let b1 ← peek bbuf 1
      let vb := b0.val + b1.val * 256
      let n := min buf.length vb
      let src ← memRead bbuf 2 n
      pure { ret := true, buf := src ++ buf.drop n, validBytes := vb }
    else
      pure { ret := false, buf := buf, validBytes := validBytes }

/-- The file `loadConfigFile` gets hold of, if any (lines 1516-1521). -/
def loadSource (w : World) (fn : String) (forcefs : Int) : Option (List Byte) :=
  let r1 := if w.haveSD && sdSelected w forcefs then readFileFromSDU w fn else none
  if r1.isNone && w.haveFS &&
      (forcefs == 0 || (decide (forcefs < 0) && !w.FlashROMode)) then
    readFileFromFSU w fn
  else r1

/-- Function `loadConfigFile(fn, buf, len, validBytes, forcefs)` with
`len = buf.length`. -/
def loadConfigFile (w : World) (fn : String) (buf : List Byte) (validBytes : Nat)
    (forcefs : Int) : Option Loaded :=
  match loadSource w fn forcefs with
  | some file => decodeRecord file buf validBytes
  | none => some { ret := false, buf := buf, validBytes := validBytes }

/-- The buffer `bbuf` that `saveConfigFile` builds (lines 1553-1556). -/
def frameRecord (buf : List Byte) : List Byte :=
  let len := buf.length
  let hdr : List Byte :=
    [⟨len % 256, Nat.mod_lt _ (by decide)⟩, ⟨len / 256 % 256, Nat.mod_lt _ (by decide)⟩]
  hdr ++ buf ++ [cfChkSum (hdr ++ buf)]

/-- Function `saveConfigFile(fn, buf, len, forcefs)` with `len = buf.length`. -/
def saveConfigFile (w : World) (fn : String) (buf : List Byte) (forcefs : Int) :
    World × Bool :=
  let bbuf := frameRecord buf
  if sdSelected w forcefs then writeFileToSD w fn bbuf
  else if w.haveFS then writeFileToFS w fn bbuf
  else (w, false)

/-! ## Change-hash cache and save orchestration -/

/-- Function `saveSecSettings(useCache)`. -/
def saveSecSettings (w : World) (useCache : Bool) : World × Bool :=
  let oldHash := w.secSettingsHash
  let w1 := { w with secSettingsHash := calcHash w.secSettings.bytes }
  if useCache && oldHash == w1.secSettingsHash then (w1, true)
  else saveConfigFile w1 secCfgName w1.secSettings.bytes 0

/-- Function `saveTerSettings(useCache)`. -/
def saveTerSettings (w : World) (useCache : Bool) : World × Bool :=
  if !w.haveSD then (w, false)
  else
    let oldHash := w.terSettingsHash
    let w1 := { w with terSettingsHash := calcHash w.terSettings.bytes }
    if useCache && oldHash == w1.terSettingsHash then (w1, true)
    else saveConfigFile w1 terCfgName w1.terSettings.bytes 1

/-- The C string held in a character array: the bytes before the first zero. -/
def cstr (buf : List Byte) : List Byte :=
  buf.takeWhile (fun c => c != 0)

/-- Function `writeIpSettings()`. -/
def writeIpSettings (w : World) : World :=
  if !w.haveFS && !w.FlashROMode then w
  else if (cstr w.ipsettings.ip).length == 0 then w
  else
    let nh := calcHash w.ipsettings.bytes
    if w.ipHash != 0 && nh == w.ipHash then w
    else (saveConfigFile { w with ipHash := nh } ipCfgName w.ipsettings.bytes (-1)).1

/-- Function `writeJSONCfgFile(json, fn, useSD, oldHash, newHash)`.  `buf` is
the serialization of `json` (`serializeJson`, `measureJson` bytes); `newHash`
is `none` for a null pointer and else holds the pointee, which is returned as
third component. -/
def writeJSONCfgFile (w : World) (buf : List Byte) (fn : String) (useSD : Bool)
    (oldHash : Nat) (newHash : Option Nat) : World × Bool × Option Nat :=
  let newH := calcHash buf
  let hashed := oldHash != 0 || newHash.isSome
  let newHash1 := if hashed then newHash.map (fun _ => newH) else newHash
  if hashed && oldHash != 0 && oldHash == newH then (w, true, newHash1)
  else
    let r := if useSD then writeFileToSD w fn buf else writeFileToFS w fn buf
    (r.1, r.2, newHash1)

/-- A JSON document of string members, in insertion order. -/
abbrev JsonDoc := List (String × List Byte)

/-- The document `write_settings` builds from `settings` (lines 549-588). -/
def settingsDoc (s : Settings) : JsonDoc :=
  (if s.ssid.getD 0 0 != 0 || s.ssid.getD 1 0 != 88 then
      [("ssid", cstr s.ssid), ("pass", cstr s.pass)]
    else []) ++
  [("hostName", cstr s.hostName),
   ("wifiConRetries", cstr s.wifiConRetries),
   ("wifiConTimeout", cstr s.wifiConTimeout),
   ("systemID", cstr s.systemID),
   ("appw", cstr s.appw),
   ("apch", cstr s.apChnl),
   ("wAOD", cstr s.wifiAPOffDelay),
   ("skipTTAnim", cstr s.skipTTAnim),
   ("ssTimer", cstr s.ssTimer),
   ("tcdIP", cstr s.tcdIP),
   ("useGPSS", cstr s.useGPSS),
   ("useNM", cstr s.useNM),
   ("useFPO", cstr s.useFPO),
   ("bttfnTT", cstr s.bttfnTT),
   ("ssClock", cstr s.ssClock),
   ("ssClkOffNM", cstr s.ssClockOffNM),
   ("TCDpresent", cstr s.TCDpresent),
   ("noETTOLead", cstr s.noETTOLead),
   ("CfgOnSD", cstr s.CfgOnSD),
   ("disDIR", cstr s.disDIR),
   ("useMQTT", cstr s.useMQTT),
   ("mqttServer", cstr s.mqttServer),
   ("mqttV", cstr s.mqttVers),
   ("mqttUser", cstr s.mqttUser)]

/-- Function `write_settings()`; `ser` is the JSON serializer of the
ArduinoJson library. -/
def write_settings (ser : JsonDoc → List Byte) (w : World) : World :=
  if !w.haveFS && !w.FlashROMode then w
  else
    let r := writeJSONCfgFile w (ser (settingsDoc w.settings)) cfgName w.FlashROMode
      w.mainConfigHash (some w.mainConfigHash)
    { r.1 with mainConfigHash := r.2.2.getD r.1.mainConfigHash }

/-! ## Field validator -/

/-- The characters `sprintf(text, "%d", i)` writes. -/
def fmtInt (i : Int) : List Byte :=
  let digits : List Byte :=
    (Nat.toDigits 10 i.natAbs).map (fun c => ⟨c.toNat % 256, Nat.mod_lt _ (by decide)⟩)
  if i < 0 then 45 :: digits else digits

/-- The digits `atoi` consumes, accumulated in base 10. -/
def atoiAcc : List Byte → Nat → Nat
  | [], acc => acc
  | c :: cs, acc =>
    if 48 ≤ c.val ∧ c.val ≤ 57 then atoiAcc cs (acc * 10 + (c.val - 48)) else acc

/-- The C library's `atoi` on a string that starts with a digit (no white
space, no sign): 32-bit `int`, saturating like `strtol`. -/
def atoi (t : List Byte) : Int :=
  min (atoiAcc t 0 : Nat) 2147483647

/-- Function `checkValidNumParm(text, lowerLim, upperLim, setDefault)`; the
first component is the C string `text` holds afterwards. -/
def checkValidNumParm (text : List Byte) (lowerLim upperLim setDefault : Int) :
    List Byte × Bool :=
  let t := cstr text
  if t.length == 0 then (fmtInt setDefault, true)
  else if t.any (fun c => c.val < 48 || c.val > 57) then (fmtInt setDefault, true)
  else
    let i := atoi t
    if i < lowerLim then (fmtInt lowerLim, true)
    else if i > upperLim then (fmtInt upperLim, true)
    else (fmtInt i, false)

/-- The calls `memset(text, 0, psize); strncpy(text, json, psize-1)`. -/
def strncpyField (json : List Byte) (psize : Nat) : List Byte :=
  let src := (cstr json).take (psize - 1)
  src ++ List.replicate (psize - src.length) 0

/-- Function `CopyCheckValidNumParm(json, text, psize, ...)`; `json` is
`none` for a null pointer.  The first component is the C string `text` holds
afterwards. -/
def CopyCheckValidNumParm (json : Option (List Byte)) (text : List Byte) (psize : Nat)
    (lowerLim upperLim setDefault : Int) : List Byte × Bool :=
  match json with
  | none => (cstr text, true)
  | some j => checkValidNumParm (strncpyField j psize) lowerLim upperLim setDefault

/-- The bytes of a string literal. -/
def lit (s : String) : List Byte :=
  s.toList.map (fun c => ⟨c.toNat % 256, Nat.mod_lt _ (by decide)⟩)

/-! ## File-system calls on the two media

The library objects `SD` and `MYNVS` serve no request while the medium is
not mounted; `haveSD` and `haveFS` record the mount state (`settings_setup`,
`unmount_fs`). -/

/-- The call `SD.exists(fn)`. -/
def sdExists (w : World) (fn : String) : Bool :=
  w.haveSD && w.sd.fexists fn

/-- The call `MYNVS.exists(fn)`. -/
def fsExists (w : World) (fn : String) : Bool :=
  w.haveFS && w.fs.fexists fn

/-- The call `SD.remove(fn)`. -/
def sdRemove (w : World) (fn : String) : World :=
  if w.haveSD then { w with sd := w.sd.remove fn } else w

/-- The call `MYNVS.remove(fn)`. -/
def fsRemove (w : World) (fn : String) : World :=
  if w.haveFS then { w with fs := w.fs.remove fn } else w

/-- The call `SD.open(fn, "r")` followed by reading the whole file: the
contents, or `none` for an invalid handle. -/
def sdOpenRead (w : World) (fn : String) : Option (List Byte) :=
  if w.haveSD then readFileU w.sd fn else none

/-- The call `MYNVS.open(fn, "r")` followed by reading the whole file. -/
def fsOpenRead (w : World) (fn : String) : Option (List Byte) :=
  if w.haveFS then readFileU w.fs fn else none

/-- Function `removeOldFiles(oldfn)`. -/
def removeOldFiles (w : World) (oldfn : String) : World :=
  let w1 := if w.haveSD then sdRemove w oldfn else w
  if w1.haveFS then fsRemove w1 oldfn else w1

/-- Function `openCfgFileRead(fn, f, SDonly)`: the contents of the file that
was opened, or `none` for return value `false`. -/
def openCfgFileRead (w : World) (fn : String) (SDonly : Bool) : Option (List Byte) :=
  let r1 := if (w.configOnSD || SDonly) && sdExists w fn then sdOpenRead w fn else none
  if r1.isNone && !SDonly && w.haveFS then
    if fsExists w fn then fsOpenRead w fn else none
  else r1

/-! ## JSON documents as read -/

/-- A member value of a parsed document: a string, an integer, or any other
value (boolean, float, null, array, object) with its conversion to `bool`. -/
inductive JVal where
  | str (s : List Byte)
  | num (n : Int)
  | other (truthy : Bool)
deriving DecidableEq, Repr

/-- A parsed JSON object. -/
abbrev JsonObj := List (String × JVal)

/-- The member `json[key]`; `none` is an unbound variant. -/
def JsonObj.get : JsonObj → String → Option JVal
  | [], _ => none
  | (k, v) :: rest, key => if k = key then some v else JsonObj.get rest key

/-- The conversion `(const char *)json[key]`: a null pointer unless the
member is a string. -/
def asCStr : Option JVal → Option (List Byte)
  | some (JVal.str s) => some s
  | _ => none

/-- The conversion of `json[key]` to `bool` in `if(json[key])`: strings (also
the empty one), arrays and objects are true, numbers are true when non-zero,
null and unbound are false. -/
def asBool : Option JVal → Bool
  | some (JVal.str _) => true
  | some (JVal.num n) => n != 0
  | some (JVal.other t) => t
  | none => false

/-- The ArduinoJson library as used when reading: `parse` is
`deserializeJson` on the file contents (`none` for a `DeserializationError`),
`asU32` is the conversion `(uint32_t)json[key]` of a bound member. -/
structure JsonLib where
  parse : List Byte → Option JsonObj
  asU32 : JVal → Nat

/-! ## Learned IR keys -/

/-- The macro `NUM_IR_KEYS`: the number of initializers of `jsonNames`. -/
def NUM_IR_KEYS : Nat := 17

/-- The table `jsonNames`. -/
def jsonNames : List String :=
  ["key0", "key1", "key2", "key3", "key4", "key5", "key6", "key7", "key8", "key9",
   "keySTAR", "keyHASH", "keyUP", "keyDOWN", "keyLEFT", "keyRIGHT", "keyOK"]

/-- Value of a hexadecimal digit. -/
def hexDigit (c : Byte) : Option Nat :=
  if 48 ≤ c.val ∧ c.val ≤ 57 then some (c.val - 48)
  else if 97 ≤ c.val ∧ c.val ≤ 102 then some (c.val - 87)
  else if 65 ≤ c.val ∧ c.val ≤ 70 then some (c.val - 55)
  else none

/-- The hexadecimal digits `strtoul` consumes, accumulated. -/
def strtoulAcc : List Byte → Nat → Nat
  | [], acc => acc
  | c :: cs, acc =>
    match hexDigit c with
    | some d => strtoulAcc cs (acc * 16 + d)
    | none => acc

/-- The C library's `strtoul(s, NULL, 16)` with a 32-bit `unsigned long`:
white space, an optional sign, an optional `0x`, then hexadecimal digits;
the value saturates at `ULONG_MAX` and a minus sign negates it. -/
def strtoul16 (s : List Byte) : Nat :=
  let t1 := (cstr s).dropWhile (fun c => c.val == 32 || (9 ≤ c.val && c.val ≤ 13))
  let neg := t1.head? == some 45
  let t2 := if t1.head? == some 45 || t1.head? == some 43 then t1.tail else t1
  let t3 := if t2.head? == some 48 && (t2.tail.head? == some 120 || t2.tail.head? == some 88)
            then t2.tail.tail else t2
  let v := min (strtoulAcc t3 0) 4294967295
  if neg then (4294967296 - v) % 4294967296 else v

/-- The characters `sprintf(buf, "0x%08x", v)` writes. -/
def fmtHex8 (v : Nat) : List Byte :=
  let digits : List Byte :=
    (Nat.toDigits 16 v).map (fun c => ⟨c.toNat % 256, Nat.mod_lt _ (by decide)⟩)
  [48, 120] ++ List.replicate (8 - digits.length) 48 ++ digits

/-- Function `deleteIRKeys()`. -/
def deleteIRKeys (w : World) : World :=
  if w.configOnSD then sdRemove w irCfgName
  else if w.haveFS then fsRemove w irCfgName
  else w

/-- Modelled from the spec: `copyIRarray(ir_keys, REM_KEYS_LEARNED)` of the IR
module (not part of the settings file) copies the learned-key table, kept in
`irKeysLearned`, into `ir_keys`. -/
def copyIRarray (w : World) : List Nat :=
  (List.range NUM_IR_KEYS).map (fun i => w.irKeysLearned.getD i 0)

/-- Modelled from the spec: `populateIRarray(ir_keys, REM_KEYS_LEARNED)` of the
IR module stores `ir_keys` as the learned-key table. -/
def populateIRarray (w : World) (ir_keys : List Nat) : World :=
  { w with irKeysLearned := ir_keys }

/-- The document `saveIRKeys` builds (lines 796-799). -/
def irKeysDoc (ir_keys : List Nat) : JsonDoc :=
  (List.range NUM_IR_KEYS).map
    (fun i => (jsonNames.getD i "", fmtHex8 (ir_keys.getD i 0)))

/-- Function `saveIRKeys()`. -/
def saveIRKeys (ser : JsonDoc → List Byte) (w : World) : World :=
  if !w.haveFS && !w.configOnSD then w
  else
    let ir_keys := copyIRarray w
    let keysMissing := (List.range NUM_IR_KEYS).any (fun i => ir_keys.getD i 0 == 0)
    if keysMissing then deleteIRKeys w
    else (writeJSONCfgFile w (ser (irKeysDoc ir_keys)) irCfgName w.configOnSD 0 none).1

/-- One round of the loop of `loadIRkeysFromFile`: `some (some v)` when the
member is true and converts to `v`, `some none` when it is false, and `none`
for `strtoul` on a null pointer (a true member that is not a string). -/
def irKeyOf (json : JsonObj) (name : String) : Option (Option Nat) :=
  if asBool (json.get name) then
    match asCStr (json.get name) with
    | some s => some (some (strtoul16 s))
    | none => none
  else some none

/-- The loop of `loadIRkeysFromFile` over `jsonNames`: the key array and the
flag `ret`; `none` for a null pointer access. -/
def irKeysFrom (json : JsonObj) : List String → Option (List Nat × Bool)
  | [] => some ([], true)
  | name :: rest =>
    match irKeyOf json name, irKeysFrom json rest with
    | some (some v), some (vs, ret) => some (v :: vs, ret && v != 0)
    | some none, some (vs, _) => some (0 :: vs, false)
    | _, _ => none

/-- Function `loadIRkeysFromFile(configFile, REM_KEYS_LEARNED)` on the
contents of the opened file; `none` for a null pointer access. -/
def loadIRkeysFromFile (J : JsonLib) (w : World) (file : List Byte) :
    Option (World × Bool) :=
  match J.parse file with
  | none => some (w, false)
  | some json =>
    match irKeysFrom json jsonNames with
    | none => none
    | some (ir_keys, ret) =>
      some (if ret then populateIRarray w ir_keys else w, true)

/-- Function `loadIRKeys()`. -/
def loadIRKeys (J : JsonLib) (w : World) : Option World :=
  match openCfgFileRead w irCfgName false with
  | some file =>
    match loadIRkeysFromFile J w file with
    | some r => some (if !r.2 then deleteIRKeys r.1 else r.1)
    | none => none
  | none => some w

/-! ## Secondary settings: brightness and IR lock -/

/-- Legacy file names (`SETTINGS_TRANSITION`). -/
def ipCfgNameO : String := "/sidipcfg.json"
def idNameO : String := "/sidid.json"
def briCfgName : String := "/sidbricfg.json"
def irlCfgName : String := "/sidirlcfg.json"

/-- Modelled from the spec: the display object `sid` (its class is not part of
the settings file) keeps the brightness level; `sid.setBrightness(level, ..)`
stores the `uint8_t` level and `sid.getBrightness()` returns it. -/
def sidSetBrightness (w : World) (level : Nat) : World :=
  { w with sidBrightness := level % 256 }

/-- Function `storeBrightness()`. -/
def storeBrightness (w : World) : World :=
  { w with secSettings :=
      { w.secSettings with
        brightness := ⟨w.sidBrightness % 65536, Nat.mod_lt _ (by decide)⟩ } }

/-- Function `saveBrightness()`. -/
def saveBrightness (w : World) : World :=
  (saveSecSettings (storeBrightness w) true).1

/-- Function `storeIRLock()`. -/
def storeIRLock (w : World) : World :=
  { w with secSettings := { w.secSettings with irLocked := if w.irLocked then 1 else 0 } }

/-- Function `saveIRLock()`. -/
def saveIRLock (w : World) : World :=
  (saveSecSettings (storeIRLock w) true).1

/-- Function `loadBrightness()`. -/
def loadBrightness (J : JsonLib) (w : World) : World :=
  if w.haveSecSettings then sidSetBrightness w w.secSettings.brightness.val
  else if !w.haveFS && !w.configOnSD then w
  else
    let w1 :=
      match openCfgFileRead w briCfgName false with
      | some file =>
        let w2 :=
          match J.parse file with
          | some json =>
            let r := CopyCheckValidNumParm (asCStr (json.get "brightness")) [] 6 0 15 15
            if !r.2 then sidSetBrightness w (atoi r.1).toNat else w
          | none => w
        saveBrightness w2
      | none => w
    removeOldFiles w1 briCfgName

/-- Function `loadIRLock()`. -/
def loadIRLock (J : JsonLib) (w : World) : World :=
  if w.haveSecSettings then { w with irLocked := w.secSettings.irLocked != 0 }
  else if !w.haveFS && !w.configOnSD then w
  else
    let w1 :=
      match openCfgFileRead w irlCfgName false with
      | some file =>
        let w2 :=
          match J.parse file with
          | some json =>
            let r := CopyCheckValidNumParm (asCStr (json.get "lock")) [] 6 0 1 0
            if !r.2 then { w with irLocked := decide (atoi r.1 > 0) } else w
          | none => w
        saveIRLock w2
      | none => w
    removeOldFiles w1 irlCfgName

/-! ## Static IP record and remote ID -/

/-- Function `deleteIpSettings()`. -/
def deleteIpSettings (w : World) : World :=
  let w1 := { w with ipHash := 0 }
  if w1.FlashROMode then sdRemove w1 ipCfgName
  else if w1.haveFS then fsRemove w1 ipCfgName
  else w1

/-- Memory image of a `uint32_t` (little-endian target). -/
def u32bytes (v : Nat) : List Byte :=
  [⟨v % 256, Nat.mod_lt _ (by decide)⟩, ⟨v / 256 % 256, Nat.mod_lt _ (by decide)⟩,
   ⟨v / 65536 % 256, Nat.mod_lt _ (by decide)⟩, ⟨v / 16777216 % 256, Nat.mod_lt _ (by decide)⟩]

/-- The `uint32_t` held by a four-byte memory image. -/
def u32of (b : List Byte) : Nat :=
  (b.getD 0 0).val + (b.getD 1 0).val * 256 + (b.getD 2 0).val * 65536 +
    (b.getD 3 0).val * 16777216

/-- Function `createId()`; `r1`, `r2`, `r3` are the three results of
`esp_random()`. -/
def createId (r1 r2 r3 : Nat) : Nat :=
  (r1 ^^^ r2 ^^^ r3) % 4294967296

/-- Function `saveId()`. -/
def saveId (w : World) : World :=
  if !w.haveFS && !w.FlashROMode then w
  else (saveConfigFile w idName (u32bytes w.myRemID) (-1)).1

/-- Function `loadId()`; `none` for a memory access outside the read buffer
in `loadConfigFile`. -/
def loadId (J : JsonLib) (w : World) : Option (World × Bool) :=
  match loadConfigFile w idName (u32bytes 0) 0 (-1) with
  | none => none
  | some r =>
    if r.ret then some ({ w with myRemID := u32of r.buf }, true)
    else if !w.haveFS && !w.FlashROMode then some (w, false)
    else if (!w.FlashROMode && fsExists w idNameO) ||
        (w.FlashROMode && sdExists w idNameO) then
      let r1 : World × Bool :=
        match (if w.FlashROMode then sdOpenRead w idNameO else fsOpenRead w idNameO) with
        | some file =>
          match J.parse file with
          | some json =>
            let id := match json.get "ID" with
              | some v => J.asU32 v % 4294967296
              | none => 0
            let w1 := { w with myRemID := id }
            if id == 0 then (w1, false) else (saveId w1, true)
          | none => (w, false)
        | none => (w, false)
      some (removeOldFiles r1.1 idNameO, r1.2)
    else some (w, false)

/-- The step "Load/create Remote ID" of `settings_setup` (lines 389-396). -/
def setupRemoteId (J : JsonLib) (r1 r2 r3 : Nat) (w : World) : Option World :=
  match loadId J w with
  | none => none
  | some r =>
    if !r.2 then some (saveId { r.1 with myRemID := createId r1 r2 r3 })
    else some r.1

/-- Function `moveSettings()`.  `flush` is `flushDelayedSave()` of the main
module (not part of the settings file). -/
def moveSettings (flush : World → World) (ser : JsonDoc → List Byte) (w : World) : World :=
  if !w.haveSD || !w.haveFS then w
  else
    let w1 := flush w
    let w2 := { w1 with configOnSD := !w1.configOnSD }
    let w3 := (saveSecSettings w2 false).1
    let w4 := saveIRKeys ser w3
    let w5 := { w4 with configOnSD := !w4.configOnSD }
    if w5.configOnSD then sdRemove (sdRemove w5 secCfgName) irCfgName
    else fsRemove (fsRemove w5 secCfgName) irCfgName

/-! ## Reading the main configuration -/

/-- Function `CopyTextParm(json, setting, setSize)`; `json` is `none` for a
null pointer.  The first component is the array `setting` afterwards. -/
def CopyTextParm (json : Option (List Byte)) (setting : List Byte) (setSize : Nat) :
    List Byte × Bool :=
  match json with
  | none => (setting, true)
  | some j => (strncpyField j setSize, false)

/-- The array `text` after `sprintf(text, "%d", i)` wrote the string `s` and
its terminating zero. -/
def storeCStr (text s : List Byte) : List Byte :=
  s ++ [0] ++ text.drop (s.length + 1)

/-- The call `CopyCheckValidNumParm(json, field, sizeof(field), ...)` on a
field of `settings`: the array afterwards and the return value. -/
def numField (json : Option (List Byte)) (field : List Byte)
    (lowerLim upperLim setDefault : Int) : List Byte × Bool :=
  let r := CopyCheckValidNumParm json field field.length lowerLim upperLim setDefault
  match json with
  | none => (field, r.2)
  | some j => (storeCStr (strncpyField j field.length) r.1, r.2)

/-- The `DEF_*` macros of `sid_settings.h` used by `read_settings`. -/
structure Defaults where
  WIFI_RETRY : Int
  WIFI_TIMEOUT : Int
  AP_CHANNEL : Int
  WIFI_APOFFDELAY : Int
  SKIP_TTANIM : Int
  SS_TIMER : Int
  USE_GPSS : Int
  USE_NM : Int
  USE_FPO : Int
  BTTFN_TT : Int
  SS_CLK : Int
  SS_CLK_NMOFF : Int
  TCD_PRES : Int
  NO_ETTO_LEAD : Int
  CFG_ON_SD : Int
  DISDIR : Int
deriving DecidableEq, Repr

/-- The block "WiFi Configuration" of `read_settings` (lines 466-487): the
settings and the flag `wd`; `none` for `strncpy` from a null pointer (a true
member that is not a string). -/
def readWifi (json : JsonObj) (s : Settings) (cfgReadCount : Nat) :
    Option (Settings × Bool) :=
  let z1 : List Byte := List.replicate s.ssid.length 0
  let z2 : List Byte := List.replicate s.pass.length 0
  let s1 := if cfgReadCount == 0 then { s with ssid := z1, pass := z2 } else s
  if asBool (json.get "ssid") then
    match asCStr (json.get "ssid") with
    | none => none
    | some v =>
      let s2 := { s1 with ssid := strncpyField v s.ssid.length, pass := z2 }
      if asBool (json.get "pass") then
        match asCStr (json.get "pass") with
        | none => none
        | some p => some ({ s2 with pass := strncpyField p s.pass.length }, false)
      else some (s2, false)
  else if cfgReadCount == 0 then
    some ({ s1 with ssid := s1.ssid.set 1 88 }, false)
  else if s1.ssid.getD 0 0 != 0 || s1.ssid.getD 1 0 != 88 then some (s1, true)
  else some (s1, false)

/-- Lines 489-523 of `read_settings`: one `CopyTextParm` or
`CopyCheckValidNumParm` call per field, the results or-ed into `wd`. -/
def readFields (json : JsonObj) (D : Defaults) (s : Settings) : Settings × Bool :=
  let txt := fun (k : String) (f : List Byte) => CopyTextParm (asCStr (json.get k)) f f.length
  let num := fun (k : String) (f : List Byte) (lo hi d : Int) =>
    numField (asCStr (json.get k)) f lo hi d
  let hostName := txt "hostName" s.hostName
  let wifiConRetries := num "wifiConRetries" s.wifiConRetries 1 10 D.WIFI_RETRY
  let wifiConTimeout := num "wifiConTimeout" s.wifiConTimeout 7 25 D.WIFI_TIMEOUT
  let systemID := txt "systemID" s.systemID
  let appw := txt "appw" s.appw
  let apChnl := num "apch" s.apChnl 0 11 D.AP_CHANNEL
  let wifiAPOffDelay := num "wAOD" s.wifiAPOffDelay 0 99 D.WIFI_APOFFDELAY
  let skipTTAnim := num "skipTTAnim" s.skipTTAnim 0 1 D.SKIP_TTANIM
  let ssTimer := num "ssTimer" s.ssTimer 0 999 D.SS_TIMER
  let tcdIP := txt "tcdIP" s.tcdIP
  let useGPSS := num "useGPSS" s.useGPSS 0 1 D.USE_GPSS
  let useNM := num "useNM" s.useNM 0 1 D.USE_NM
  let useFPO := num "useFPO" s.useFPO 0 1 D.USE_FPO
  let bttfnTT := num "bttfnTT" s.bttfnTT 0 1 D.BTTFN_TT
  let ssClock := num "ssClock" s.ssClock 0 1 D.SS_CLK
  let ssClockOffNM := num "ssClkOffNM" s.ssClockOffNM 0 1 D.SS_CLK_NMOFF
  let TCDpresent := num "TCDpresent" s.TCDpresent 0 1 D.TCD_PRES
  let noETTOLead := num "noETTOLead" s.noETTOLead 0 1 D.NO_ETTO_LEAD
  let CfgOnSD := num "CfgOnSD" s.CfgOnSD 0 1 D.CFG_ON_SD
  let disDIR := num "disDIR" s.disDIR 0 1 D.DISDIR
  let useMQTT := num "useMQTT" s.useMQTT 0 1 0
  let mqttServer := txt "mqttServer" s.mqttServer
  let mqttVers := num "mqttV" s.mqttVers 0 1 0
  let mqttUser := txt "mqttUser" s.mqttUser
  ({ s with
      hostName := hostName.1, wifiConRetries := wifiConRetries.1,
      wifiConTimeout := wifiConTimeout.1, systemID := systemID.1, appw := appw.1,
      apChnl := apChnl.1, wifiAPOffDelay := wifiAPOffDelay.1,
      skipTTAnim := skipTTAnim.1, ssTimer := ssTimer.1, tcdIP := tcdIP.1,
      useGPSS := useGPSS.1, useNM := useNM.1, useFPO := useFPO.1, bttfnTT := bttfnTT.1,
      ssClock := ssClock.1, ssClockOffNM := ssClockOffNM.1, TCDpresent := TCDpresent.1,
      noETTOLead := noETTOLead.1, CfgOnSD := CfgOnSD.1, disDIR := disDIR.1,
      useMQTT := useMQTT.1, mqttServer := mqttServer.1, mqttVers := mqttVers.1,
      mqttUser := mqttUser.1 },
    hostName.2 || wifiConRetries.2 || wifiConTimeout.2 || systemID.2 || appw.2 ||
      apChnl.2 || wifiAPOffDelay.2 || skipTTAnim.2 || ssTimer.2 || tcdIP.2 ||
      useGPSS.2 || useNM.2 || useFPO.2 || bttfnTT.2 || ssClock.2 || ssClockOffNM.2 ||
      TCDpresent.2 || noETTOLead.2 || CfgOnSD.2 || disDIR.2 || useMQTT.2 ||
      mqttServer.2 || mqttVers.2 || mqttUser.2)

/-- Function `read_settings(configFile, cfgReadCount)` on the contents of the
opened file: the new state and the return value `wd`; `none` for `strncpy`
from a null pointer. -/
def read_settings (J : JsonLib) (D : Defaults) (w : World) (file : List Byte)
    (cfgReadCount : Nat) : Option (World × Bool) :=
  let w0 := { w with mainConfigHash := calcHash file }
  match J.parse file with
  | none => some (w0, true)
  | some json =>
    match readWifi json w0.settings cfgReadCount with
    | none => none
    | some (s1, wd1) =>
      let r := readFields json D s1
      some ({ w0 with settings := r.1 }, wd1 || r.2)

/-! ## Secondary settings: the portal-controlled flags -/

/-- Function `saveStrict()`. -/
def saveStrict (w : World) : World :=
  (saveSecSettings
    { w with secSettings := { w.secSettings with strictMode := if w.strictMode then 1 else 0 } }
    true).1

/-- The four assignments of `saveAllSecCP()` (lines 1002-1005). -/
def storeAllSecCP (w : World) : World :=
  { w with secSettings :=
      { w.secSettings with
        strictMode := if w.strictMode then 1 else 0,
        SApeaks := if w.doPeaks then 1 else 0,
        irShowPosFBDisplay := if w.irShowPosFBDisplay then 1 else 0,
        irShowCmdFBDisplay := if w.irShowCmdFBDisplay then 1 else 0 } }

/-- Function `saveAllSecCP()`. -/
def saveAllSecCP (w : World) : World :=
  (saveSecSettings (storeAllSecCP w) true).1

/-- Function `loadUpdAvail()`. -/
def loadUpdAvail (w : World) : World :=
  if w.haveSecSettings then { w with showUpdAvail := w.secSettings.showUpdAvail != 0 } else w

/-! ## Host name and IP address checks (`sid_wifi.cpp`) -/

/-- Function `myisspace`. -/
def myisspace (c : Byte) : Bool :=
  c.val == 32 || c.val == 10 || c.val == 9 || c.val == 11 || c.val == 12 || c.val == 13

/-- Function `myisgoodchar`. -/
def myisgoodchar (c : Byte) : Bool :=
  (48 ≤ c.val && c.val ≤ 57) || (97 ≤ c.val && c.val ≤ 122) || (65 ≤ c.val && c.val ≤ 90) ||
    c.val == 45

/-- Function `strcpytrim(destination, source, doFilter)`: the C string written
to `destination`. -/
def strcpytrim (source : List Byte) (doFilter : Bool) : List Byte :=
  (cstr source).filter (fun c => !myisspace c && (!doFilter || myisgoodchar c))

/-- The C library's `tolower` on a character. -/
def tolower (c : Byte) : Byte :=
  if 65 ≤ c.val ∧ c.val ≤ 90 then ⟨(c.val + 32) % 256, Nat.mod_lt _ (by decide)⟩ else c

/-- Lines 597-603 of `wifi_loop`: the C string `settings.hostName` holds after
the submitted host name `value` was processed; `defHostName` is the macro
`DEF_HOSTNAME`. -/
def portalHostName (value defHostName : List Byte) : List Byte :=
  let h := strcpytrim value true
  if h.length == 0 then cstr defHostName else h.map tolower

/-- The loop of `isIp` on the remaining characters. -/
def isIpLoop : List Byte → Nat → Nat → Nat → Bool
  | [], segs, _, _ => segs == 3
  | c :: cs, segs, digcnt, num =>
    if c.val == 46 then
      if digcnt == 0 || segs + 1 == 4 then false
      else isIpLoop cs (segs + 1) 0 0
    else if c.val < 48 || c.val > 57 then false
    else if num * 10 + (c.val - 48) > 255 then false
    else isIpLoop cs segs (digcnt + 1) (num * 10 + (c.val - 48))

/-- Function `isIp(str)`. -/
def isIp (str : List Byte) : Bool :=
  isIpLoop (cstr str) 0 0 0

/-! ## Static IP settings -/

/-- The struct `ipsettings` after `memset(&ipsettings, 0, sizeof(ipsettings))`. -/
def zeroIP (s : IPSettings) : IPSettings :=
  ⟨List.replicate s.ip.length 0, List.replicate s.gateway.length 0,
   List.replicate s.netmask.length 0, List.replicate s.dns.length 0⟩

/-- The struct `ipsettings` holding the memory image `b`. -/
def ipOfBytes (s : IPSettings) (b : List Byte) : IPSettings :=
  ⟨b.take s.ip.length,
   (b.drop s.ip.length).take s.gateway.length,
   (b.drop (s.ip.length + s.gateway.length)).take s.netmask.length,
   b.drop (s.ip.length + s.gateway.length + s.netmask.length)⟩

/-- Function `CopyIPParm(json, text, psize)`; `json` is `none` for a null
pointer.  The first component is the array `text` afterwards. -/
def CopyIPParm (json : Option (List Byte)) (text : List Byte) (psize : Nat) :
    List Byte × Bool :=
  match json with
  | none => (text, true)
  | some j => if (cstr j).length == 0 then (text, true) else (strncpyField j psize, false)

/-- Lines 1130-1145 of `loadIpSettings`: the legacy file is opened and read
into `ipsettings`.  The result carries `invalid` and `haveConfig`. -/
def readIpLegacy (J : JsonLib) (w0 : World) : World × Bool × Bool :=
  match (if w0.FlashROMode then sdOpenRead w0 ipCfgNameO else fsOpenRead w0 ipCfgNameO) with
  | some file =>
    match J.parse file with
    | some json =>
      let s := w0.ipsettings
      let a := CopyIPParm (asCStr (json.get "IpAddress")) s.ip s.ip.length
      let b := CopyIPParm (asCStr (json.get "Gateway")) s.gateway s.gateway.length
      let c := CopyIPParm (asCStr (json.get "Netmask")) s.netmask s.netmask.length
      let d := CopyIPParm (asCStr (json.get "DNS")) s.dns s.dns.length
      let invalid := a.2 || b.2 || c.2 || d.2
      ({ w0 with ipsettings := ⟨a.1, b.1, c.1, d.1⟩ }, invalid, !invalid)
    | none => (w0, true, false)
  | none => (w0, false, false)

/-- The legacy branch of `loadIpSettings` (lines 1126-1152), entered with
`ipsettings` zeroed. -/
def loadIpLegacy (J : JsonLib) (w0 : World) : World × Bool :=
  if (!w0.FlashROMode && fsExists w0 ipCfgNameO) ||
      (w0.FlashROMode && sdExists w0 ipCfgNameO) then
    let r := readIpLegacy J w0
    let w2 := removeOldFiles r.1 ipCfgNameO
    let w3 := if r.2.1 then { w2 with ipsettings := zeroIP w2.ipsettings } else writeIpSettings w2
    (w3, r.2.2)
  else (writeIpSettings w0, false)

/-- Function `loadIpSettings()`.  `checkIPConfig` is the function of that name
in the WiFi module (not under `src/`); `none` is a memory access outside the
read buffer in `loadConfigFile`. -/
def loadIpSettings (J : JsonLib) (checkIPConfig : IPSettings → Bool) (w : World) :
    Option (World × Bool) :=
  let w0 := { w with ipsettings := zeroIP w.ipsettings }
  if !w0.haveFS && !w0.FlashROMode then some (w0, false)
  else
    match loadConfigFile w0 ipCfgName w0.ipsettings.bytes 0 (-1) with
    | none => none
    | some r =>
      if r.ret then
        let w1 := { w0 with ipsettings := ipOfBytes w0.ipsettings r.buf }
        if (cstr w1.ipsettings.ip).length != 0 then
          if checkIPConfig w1.ipsettings then
            some ({ w1 with ipHash := calcHash w1.ipsettings.bytes }, true)
          else
            some ({ deleteIpSettings { w1 with ipsettings := zeroIP w1.ipsettings } with
                    ipHash := 0 }, false)
        else some ({ w1 with ipHash := 0 }, false)
      else some (loadIpLegacy J w0)

/-! ## Boot: `settings_setup` -/

/-- What the hardware and the libraries answer during `settings_setup`:
the results of `MYNVS.begin()` (at first, and after `MYNVS.format()`), of the
two `SD.begin(..)` calls, of `SD.cardType()`, of `Update.begin(..)`, and of
the three `esp_random()` calls. -/
structure SetupEnv where
  nvsBegin : Bool
  nvsFormatBegin : Bool
  sdBegin : Bool
  sdBeginRetry : Bool
  cardType : Nat
  updateBegin : Bool
  r1 : Nat
  r2 : Nat
  r3 : Nat
deriving DecidableEq, Repr

/-- The library constants `CARD_NONE` and `CARD_UNKNOWN`. -/
def CARD_NONE : Nat := 0
def CARD_UNKNOWN : Nat := 4

/-- File names used at boot. -/
def fwfn : String := "/sidfw.bin"
def flashROMarker : String := "/SID_FLASH_RO"

/-- Function `formatFlashFS(userSignal)`: `MYNVS.format()` empties the flash
file system; the result is that of the following `MYNVS.begin()`. -/
def formatFlashFS (env : SetupEnv) (w : World) : World × Bool :=
  ({ w with fs := { w.fs with files := [] } }, env.nvsFormatBegin)

/-- Function `firmware_update()`, called with the SD card mounted: it returns
when there is no firmware file, when the file cannot be opened, or when
`Update.begin` fails; else the device restarts (`none`). -/
def firmware_update (env : SetupEnv) (w : World) : Option World :=
  if !sdExists w fwfn then some w
  else
    match sdOpenRead w fwfn with
    | none => some w
    | some _ => if !env.updateBegin then some w else none

/-- The struct `secSettings` holding the memory image `b`. -/
def secOfBytes (b : List Byte) : SecSettings :=
  { brightness := ⟨((b.getD 0 0).val + (b.getD 1 0).val * 256) % 65536, Nat.mod_lt _ (by decide)⟩,
    irLocked := b.getD 2 0, strictMode := b.getD 3 0, SApeaks := b.getD 4 0,
    irShowPosFBDisplay := b.getD 5 0, irShowCmdFBDisplay := b.getD 6 0,
    showUpdAvail := b.getD 7 0 }

/-- The struct `terSettings` holding the memory image `b`. -/
def terOfBytes (b : List Byte) : TerSettings :=
  { bootMode := b.getD 0 0, idleMode := b.getD 1 0 }

/-- Lines 243-290 of `settings_setup`: mount the flash file system and read
the main configuration from it.  The result carries `writedefault`,
`freshFS` and `cfgReadCount`. -/
def setupFlash (J : JsonLib) (D : Defaults) (env : SetupEnv) (w : World) :
    Option (World × Bool × Bool × Nat) :=
  let r : World × Bool :=
    if env.nvsBegin then ({ w with haveFS := true }, false)
    else
      let f := formatFlashFS env w
      ({ f.1 with haveFS := f.2 }, true)
  let w1 := r.1
  let freshFS := r.2
  if w1.haveFS then
    if fsExists w1 cfgName then
      match fsOpenRead w1 cfgName with
      | some file =>
        match read_settings J D w1 file 0 with
        | some rs => some (rs.1, rs.2, freshFS, 1)
        | none => none
      | none => some (w1, true, freshFS, 0)
    else some (w1, true, freshFS, 0)
  else some (w1, false, freshFS, 0)

/-- Lines 292-356 of `settings_setup`: mount the SD card, run the firmware
update, and enter read-only-flash mode when the marker file is on the card or
flash is not available. -/
def setupSD (J : JsonLib) (D : Defaults) (ser : JsonDoc → List Byte) (env : SetupEnv)
    (w : World) (cfgReadCount : Nat) : Option World :=
  let SDres := env.sdBegin || env.sdBeginRetry
  let w1 := { w with haveSD :=
    SDres && (env.cardType != CARD_NONE && env.cardType != CARD_UNKNOWN) }
  if w1.haveSD then
    match firmware_update env w1 with
    | none => none
    | some w2 =>
      if sdExists w2 flashROMarker || !w2.haveFS then
        let w3 := { w2 with FlashROMode := true }
        let r : Option (World × Bool) :=
          if sdExists w3 cfgName then
            match sdOpenRead w3 cfgName with
            | some file => read_settings J D w3 file cfgReadCount
            | none => some (w3, true)
          else some (w3, true)
        match r with
        | none => none
        | some (w4, writedefault2) =>
          if writedefault2 then some (write_settings ser { w4 with mainConfigHash := 0 })
          else some w4
      else some w2
  else some w1

/-- Lines 358-378 of `settings_setup`: re-format flash when `VER` is found or
the configuration file was missing, and write a default configuration. -/
def setupDefaults (ser : JsonDoc → List Byte) (env : SetupEnv) (w : World)
    (writedefault freshFS : Bool) (cfgReadCount : Nat) : World :=
  let r : World × Bool :=
    if w.haveFS && !w.FlashROMode then
      if fsExists w "VER" || (!freshFS && cfgReadCount == 0) then
        ((formatFlashFS env w).1, true)
      else (w, writedefault)
    else (w, writedefault)
  if r.1.haveFS && r.2 && !r.1.FlashROMode then
    write_settings ser { r.1 with mainConfigHash := 0 }
  else r.1

/-- Lines 401-405 of `settings_setup`: load the secondary record and seed its
hash. -/
def loadSecRecord (w : World) : Option World :=
  match loadConfigFile w secCfgName w.secSettings.bytes w.secSetValidBytes 0 with
  | none => none
  | some r =>
    if r.ret then
      some { w with secSettings := secOfBytes r.buf, secSetValidBytes := r.validBytes,
                    secSettingsHash := calcHash (secOfBytes r.buf).bytes,
                    haveSecSettings := true }
    else some w

/-- Lines 407-413 of `settings_setup`: load the tertiary record (SD only) and
seed its hash. -/
def loadTerRecord (w : World) : Option World :=
  if w.haveSD then
    match loadConfigFile w terCfgName w.terSettings.bytes w.terSetValidBytes 1 with
    | none => none
    | some t =>
      if t.ret then
        some { w with terSettings := terOfBytes t.buf, terSetValidBytes := t.validBytes,
                      terSettingsHash := calcHash (terOfBytes t.buf).bytes,
                      haveTerSettings := true }
      else some w
  else some w

/-- Function `settings_setup()`.  `none` means that it does not return: the
device restarts after a firmware update, or a memory access went wrong. -/
def settings_setup (J : JsonLib) (D : Defaults) (ser : JsonDoc → List Byte) (env : SetupEnv)
    (w : World) : Option World :=
  match setupFlash J D env w with
  | none => none
  | some (w1, writedefault, freshFS, cfgReadCount) =>
    match setupSD J D ser env w1 cfgReadCount with
    | none => none
    | some w2 =>
      let w3 := setupDefaults ser env w2 writedefault freshFS cfgReadCount
      match setupRemoteId J env.r1 env.r2 env.r3 w3 with
      | none => none
      | some w4 =>
        let w5 := { w4 with configOnSD :=
          w4.haveSD && (w4.settings.CfgOnSD.getD 0 0 != 48 || w4.FlashROMode) }
        match loadSecRecord w5 with
        | none => none
        | some w6 =>
          match loadTerRecord w6 with
          | none => none
          | some w7 =>
            match loadIRKeys J w7 with
            | none => none
            | some w8 => some (loadUpdAvail w8)

/-! ## Reference notions used in the statements -/

/-- Sum of the byte values. -/
def byteSum (l : List Byte) : Nat := (l.map Fin.val).sum

/-- Reference checksum in the specification's words: the sum of the bytes
modulo 65536, folded to 8 bits by adding its high and low byte, folded once
more, and complemented modulo 256. -/
def refChkSum (bytes : List Nat) : Nat :=
  let s := bytes.sum % 65536
  let f1 := s / 256 + s % 256
  let f2 := f1 / 256 + f1 % 256
  (255 - f2 % 256) % 256

/-- The decimal value of a string of digits. -/
def decVal (t : List Byte) : Nat :=
  t.foldl (fun acc c => acc * 10 + (c.val - 48)) 0

/-- The value `v` clamped to `[lo, hi]`. -/
def clamp (v lo hi : Int) : Int :=
  max lo (min v hi)

/-- One numeric field of the main configuration: its key, its array in
`settings`, its declared range and its compiled default. -/
structure NumSpec where
  key : String
  field : Settings → List Byte
  lo : Int
  hi : Int
  dflt : Int

/-- The numeric fields of the main configuration with their declared ranges. -/
def numericFields (D : Defaults) : List NumSpec :=
  [⟨"wifiConRetries", Settings.wifiConRetries, 1, 10, D.WIFI_RETRY⟩,
   ⟨"wifiConTimeout", Settings.wifiConTimeout, 7, 25, D.WIFI_TIMEOUT⟩,
   ⟨"apch", Settings.apChnl, 0, 11, D.AP_CHANNEL⟩,
   ⟨"wAOD", Settings.wifiAPOffDelay, 0, 99, D.WIFI_APOFFDELAY⟩,
   ⟨"skipTTAnim", Settings.skipTTAnim, 0, 1, D.SKIP_TTANIM⟩,
   ⟨"ssTimer", Settings.ssTimer, 0, 999, D.SS_TIMER⟩,
   ⟨"useGPSS", Settings.useGPSS, 0, 1, D.USE_GPSS⟩,
   ⟨"useNM", Settings.useNM, 0, 1, D.USE_NM⟩,
   ⟨"useFPO", Settings.useFPO, 0, 1, D.USE_FPO⟩,
   ⟨"bttfnTT", Settings.bttfnTT, 0, 1, D.BTTFN_TT⟩,
   ⟨"ssClock", Settings.ssClock, 0, 1, D.SS_CLK⟩,
   ⟨"ssClkOffNM", Settings.ssClockOffNM, 0, 1, D.SS_CLK_NMOFF⟩,
   ⟨"TCDpresent", Settings.TCDpresent, 0, 1, D.TCD_PRES⟩,
   ⟨"noETTOLead", Settings.noETTOLead, 0, 1, D.NO_ETTO_LEAD⟩,
   ⟨"CfgOnSD", Settings.CfgOnSD, 0, 1, D.CFG_ON_SD⟩,
   ⟨"disDIR", Settings.disDIR, 0, 1, D.DISDIR⟩,
   ⟨"useMQTT", Settings.useMQTT, 0, 1, 0⟩,
   ⟨"mqttV", Settings.mqttVers, 0, 1, 0⟩]

/-- A JSON library that rejects every document. -/
def noJson : JsonLib := ⟨fun _ => none, fun _ => 0⟩

/-- A JSON library that parses every file to the given object. -/
def constJson (json : JsonObj) : JsonLib := ⟨fun _ => some json, fun _ => 0⟩

/-- Sample defaults, one inside each declared range. -/
def sampleDefaults : Defaults :=
  ⟨3, 7, 1, 0, 0, 0, 0, 0, 0, 1, 0, 0, 0, 0, 0, 0⟩

/-- Number of write requests the two media have received. -/
def physWrites (w : World) : Nat :=
  w.fs.wlog.length + w.sd.wlog.length

/-- A medium without files that accepts every write. -/
def emptyMedium : Medium :=
  { files := [], openW := true, room := 1000000, wlog := [] }

/-- A medium holding one file. -/
def mediumWith (fn : String) (data : List Byte) : Medium :=
  { files := [(fn, { data := data, ioErr := false })], openW := true, room := 1000000,
    wlog := [] }

/-- A concrete state: no medium mounted, empty media, all cached hashes zero.
Concrete states in the examples below are variations of it. -/
def sampleWorld : World :=
  { haveFS := false, haveSD := false, configOnSD := false, FlashROMode := false,
    fs := emptyMedium, sd := emptyMedium,
    secSettings := ⟨15, 0, 0, 0, 0, 0, 1⟩, terSettings := ⟨0, 0⟩,
    ipsettings := ⟨[], [], [], []⟩,
    settings := ⟨[], [], [], [], [], [], [], [], [], [], [], [], [], [], [], [], [], [],
      [], [], [], [], [], [], [], [], []⟩,
    secSettingsHash := 0, terSettingsHash := 0, mainConfigHash := 0, ipHash := 0,
    haveSecSettings := false, myRemID := 0, irLocked := false, sidBrightness := 15,
    irKeysLearned := List.replicate 17 0,
    strictMode := false, doPeaks := false, irShowPosFBDisplay := false,
    irShowCmdFBDisplay := false, showUpdAvail := true, haveTerSettings := false,
    secSetValidBytes := 0, terSetValidBytes := 0 }

/-- The sample state with the flash file system mounted. -/
def flashWorld : World := { sampleWorld with haveFS := true }

/-- The sample state in read-only-flash mode: both media mounted, secondary
settings on SD. -/
def roWorld : World :=
  { sampleWorld with haveFS := true, haveSD := true, configOnSD := true, FlashROMode := true }

/-- The sample state with flash mounted and a learned-key file on it. -/
def irFileWorld : World :=
  { flashWorld with fs := mediumWith irCfgName (lit "keys") }

/-- The sample state with flash mounted and a legacy IR-lock file on it. -/
def legacyLockWorld : World :=
  { flashWorld with fs := mediumWith irlCfgName (lit "lock") }

/-- A parsed legacy IR-lock document with the value `"1"`. -/
def lockDoc : JsonObj := [("lock", JVal.str (lit "1"))]

/-- Settings whose arrays all have four bytes, all zero. -/
def zeroSettings : Settings :=
  let z : List Byte := [0, 0, 0, 0]
  ⟨z, z, z, z, z, z, z, z, z, z, z, z, z, z, z, z, z, z, z, z, z, z, z, z, z, z, z⟩

/-- A parsed main configuration with two numeric members out of range. -/
def rangeDoc : JsonObj :=
  [("wifiConRetries", JVal.str (lit "99")), ("apch", JVal.str (lit "abc"))]

/-- Contents of `secSettings` as the firmware stores them: a brightness of at
most 15 and flag bytes that are 0 or 1. -/
def SecSettings.normal (s : SecSettings) : Prop :=
  s.brightness.val ≤ 15 ∧ s.irLocked.val ≤ 1 ∧ s.strictMode.val ≤ 1 ∧ s.SApeaks.val ≤ 1 ∧
    s.irShowPosFBDisplay.val ≤ 1 ∧ s.irShowCmdFBDisplay.val ≤ 1 ∧ s.showUpdAvail.val ≤ 1

/-- All 1024 contents of `secSettings` with a brightness of at most 15 and
flag bytes that are 0 or 1. -/
def normalSecs : List SecSettings :=
  (List.range 16).flatMap fun b =>
  [0, 1].flatMap fun f1 => [0, 1].flatMap fun f2 => [0, 1].flatMap fun f3 =>
  [0, 1].flatMap fun f4 => [0, 1].flatMap fun f5 => [0, 1].map fun f6 =>
    ⟨Fin.ofNat b, f1, f2, f3, f4, f5, f6⟩

/-- Whether the numbers of the list are pairwise distinct and none of them is
a bit set in `seen`. -/
def distinctKeys : List Nat → Nat → Bool
  | [], _ => true
  | k :: ks, seen => !seen.testBit k && distinctKeys ks (seen ||| 2 ^ k)

/-- Two different contents of `secSettings` with the same hash. -/
def collisionA : SecSettings := ⟨1, 1, 1, 12, 23, 12, 1⟩
def collisionB : SecSettings := ⟨2, 1, 18, 1, 8, 1, 0⟩

/-- Flash mounted, `collisionA` was saved last, `secSettings` now holds
`collisionB`. -/
def collisionWorld : World :=
  { flashWorld with secSettings := collisionB, secSettingsHash := calcHash collisionA.bytes }

/-- Flash mounted, the brightness 14 was saved last, `secSettings` now holds
the brightness 15. -/
def mutatedWorld : World :=
  { flashWorld with secSettingsHash := calcHash (⟨14, 0, 0, 0, 0, 0, 1⟩ : SecSettings).bytes }

/-- The record persisted on flash has strict mode off and was saved last; the
user switched strict mode on, and flash cannot be opened for writing. -/
def strictFailWorld : World :=
  { flashWorld with
    fs := { mediumWith secCfgName (frameRecord flashWorld.secSettings.bytes) with openW := false },
    secSettingsHash := calcHash flashWorld.secSettings.bytes,
    haveSecSettings := true, strictMode := true }

/-- The state `w` with flash accepting writes again. -/
def flashWritable (w : World) : World :=
  { w with fs := { w.fs with openW := true } }

/-- The record persisted on flash has strict mode off and was saved last; the
user switched strict mode on. -/
def strictWorld : World := flashWritable strictFailWorld

/-- The sample state with flash mounted and a static IP configuration in
memory that was saved before (`ipHash` holds its hash). -/
def ipWorld : World :=
  { flashWorld with
    ipsettings := ⟨lit "10.0.0.2" ++ [0], lit "10.0.0.1" ++ [0], lit "255.0.0.0" ++ [0],
      lit "10.0.0.1" ++ [0]⟩,
    ipHash := calcHash (lit "10.0.0.2" ++ [0] ++ (lit "10.0.0.1" ++ [0]) ++
      (lit "255.0.0.0" ++ [0]) ++ (lit "10.0.0.1" ++ [0])) }

/-- A parsed main configuration with an upper-case host name. -/
def hostDoc : JsonObj := [("hostName", JVal.str (lit "SID"))]

/-- A parsed main configuration with an empty `ssid` member. -/
def emptySsidDoc : JsonObj := [("ssid", JVal.str [])]

/-- The sample state with flash mounted and four-byte arrays in `settings`. -/
def smallWorld : World := { flashWorld with settings := zeroSettings }

/-- The sample state with flash mounted, a legacy static-IP file on it, and a
static IP configuration in memory. -/
def legacyIpWorld : World :=
  { ipWorld with fs := mediumWith ipCfgNameO (lit "junk") }

/-- The character `c` as a byte of a C string. -/
def charByte (c : Char) : Byte :=
  ⟨c.toNat % 256, Nat.mod_lt _ (by decide)⟩

/-- The document `d` as the JSON library parses it back from its own
serialization: every member is a string. -/
def parsedDoc (d : JsonDoc) : JsonObj :=
  d.map (fun p => (p.1, JVal.str p.2))

/-- Seventeen learned key codes. -/
def sampleKeys : List Nat :=
  [16753245, 16736925, 16769565, 16720605, 16712445, 16761405, 16769055, 16754775, 16748655,
   16738455, 16750695, 16756815, 16718055, 16730805, 16716015, 16734885, 4294967295]

/-- The four medium flags of a state. -/
def mediumFlags (w : World) : Bool × Bool × Bool × Bool :=
  (w.haveFS, w.haveSD, w.FlashROMode, w.configOnSD)

/-- The sample state with learned keys. -/
def keysWorld : World := { flashWorld with irKeysLearned := sampleKeys }

/-- A boot where flash mounts, an SD card of type `CARD_SD` mounts, and no
firmware update can begin. -/
def bootEnv : SetupEnv :=
  { nvsBegin := true, nvsFormatBegin := true, sdBegin := true, sdBeginRetry := true,
    cardType := 2, updateBegin := false, r1 := 1, r2 := 2, r3 := 4 }

/-- The state before `settings_setup`, with the marker file `/SID_FLASH_RO` on
the SD card. -/
def bootWorld : World :=
  { sampleWorld with settings := zeroSettings, sd := mediumWith flashROMarker [] }

/-- A boot where flash mounts and no SD card is found. -/
def noCardEnv : SetupEnv :=
  { nvsBegin := true, nvsFormatBegin := true, sdBegin := false, sdBeginRetry := false,
    cardType := 0, updateBegin := false, r1 := 1, r2 := 2, r3 := 4 }

/-- The pieces of a string between its dots. -/
def splitDots : List Byte → List (List Byte)
  | [] => [[]]
  | c :: cs =>
    if c.val == 46 then [] :: splitDots cs
    else
      match splitDots cs with
      | g :: gs => (c :: g) :: gs
      | [] => [[c]]

/-- A group of a dotted quad: not empty, decimal digits only, value at most
255. -/
def isGroup (g : List Byte) : Bool :=
  !g.isEmpty && g.all (fun c => decide (48 ≤ c.val) && decide (c.val ≤ 57)) &&
    decide (decVal g ≤ 255)

/-- A valid dotted quad: exactly four groups separated by single dots. -/
def validQuad (s : List Byte) : Bool :=
  match splitDots s with
  | [a, b, c, d] => isGroup a && isGroup b && isGroup c && isGroup d
  | _ => false

/-- Three groups, each followed by a dot, and nothing after the third dot. -/
def threeGroupsAndDot (s : List Byte) : Bool :=
  match splitDots s with
  | [a, b, c, []] => isGroup a && isGroup b && isGroup c
  | _ => false

/-- What the loop of `isIp` computes, told on the pieces between the dots: the
piece being read continues a group of `digcnt` digits with value `num`. -/
def isIpGroups : List (List Byte) → Nat → Nat → Nat → Bool
  | [], _, _, _ => false
  | [g], segs, _, num =>
    segs == 3 && g.all (fun c => decide (48 ≤ c.val) && decide (c.val ≤ 57)) &&
      decide (g.foldl (fun acc c => acc * 10 + (c.val - 48)) num ≤ 255)
  | g :: g' :: rest, segs, digcnt, num =>
    g.all (fun c => decide (48 ≤ c.val) && decide (c.val ≤ 57)) &&
      decide (g.foldl (fun acc c => acc * 10 + (c.val - 48)) num ≤ 255) &&
      !(digcnt + g.length == 0) && !(segs + 1 == 4) && isIpGroups (g' :: rest) (segs + 1) 0 0

/-! # Theorems -/

/-! ## Checksum arithmetic -/
theorem cfSum_eq (l : List Byte) (s : Nat) :
    cfSum l (s % 65536) = (s + byteSum l) % 65536 := by
  induction l generalizing s with
  | nil => simp [cfSum, byteSum]
  | cons b bs ih =>
    have h := ih (s % 65536 + b.val)
    simp only [cfSum, byteSum, List.map_cons, List.sum_cons] at h ⊢
    rw [h]; omega

theorem cfChkSum_eq (l : List Byte) : cfChkSum l = cfFold (byteSum l % 65536) := by
  have h := cfSum_eq l 0
  simp at h
  simp [cfChkSum, h]

theorem cfChkSum_ref (l : List Byte) : (cfChkSum l).val = refChkSum (l.map Fin.val) := by
  rw [cfChkSum_eq]
  simp only [cfFold, refChkSum, byteSum]
  omega

theorem byteSum_set (l : List Byte) (i : Nat) (old v : Byte) (h : l[i]? = some old) :
    byteSum (l.set i v) + old.val = byteSum l + v.val := by
  induction l generalizing i with
  | nil => simp at h
  | cons b bs ih =>
    cases i with
    | zero =>
      simp at h
      subst h
      simp [byteSum]; omega
    | succ n =>
      simp at h
      have := ih n h
      simp only [byteSum, List.set_cons_succ, List.map_cons, List.sum_cons] at this ⊢
      omega

/-- The checksum byte as a function of the once-folded sum. -/
theorem cfFold_cases (s : Nat) (hs : s < 65536) :
    (cfFold s).val =
      if s / 256 + s % 256 ≤ 255 then 255 - (s / 256 + s % 256)
      else 510 - (s / 256 + s % 256) := by
  have hg : s / 256 + s % 256 ≤ 510 := by omega
  simp only [cfFold]
  generalize s / 256 + s % 256 = g at hg ⊢
  split <;> omega

theorem cfFold_eq_iff (a b : Nat) (ha : a < 65536) (hb : b < 65536)
    (h : cfFold a = cfFold b) :
    (a = 0 ∧ b = 0) ∨ (a ≠ 0 ∧ b ≠ 0 ∧ a % 255 = b % 255) := by
  have h' : (cfFold a).val = (cfFold b).val := by rw [h]
  rw [cfFold_cases a ha, cfFold_cases b hb] at h'
  have hga : a / 256 + a % 256 ≤ 510 := by omega
  have hgb : b / 256 + b % 256 ≤ 510 := by omega
  have ma : (a / 256 + a % 256) % 255 = a % 255 := by omega
  have mb : (b / 256 + b % 256) % 255 = b % 255 := by omega
  have za : a / 256 + a % 256 = 0 ↔ a = 0 := by omega
  have zb : b / 256 + b % 256 = 0 ↔ b = 0 := by omega
  generalize a / 256 + a % 256 = ga at *
  generalize b / 256 + b % 256 = gb at *
  split at h' <;> split at h' <;> omega

theorem cfChkSum_set_ne (l : List Byte) (i : Nat) (old v : Byte) (h : l[i]? = some old)
    (hv : v ≠ old) (h1 : v.val + 255 ≠ old.val) (h2 : old.val + 255 ≠ v.val) :
    cfChkSum (l.set i v) ≠ cfChkSum l := by
  intro he
  rw [cfChkSum_eq, cfChkSum_eq] at he
  have hs := byteSum_set l i old v h
  have hne : v.val ≠ old.val := fun h => hv (Fin.ext h)
  have := cfFold_eq_iff _ _ (Nat.mod_lt _ (by decide)) (Nat.mod_lt _ (by decide)) he
  have hA := Nat.div_add_mod (byteSum l) 65536
  have hB := Nat.div_add_mod (byteSum (l.set i v)) 65536
  have hA' := Nat.mod_lt (byteSum l) (show 0 < 65536 by decide)
  have hB' := Nat.mod_lt (byteSum (l.set i v)) (show 0 < 65536 by decide)
  generalize byteSum l % 65536 = a at *
  generalize byteSum (l.set i v) % 65536 = b at *
  generalize byteSum l / 65536 = qa at *
  generalize byteSum (l.set i v) / 65536 = qb at *
  rcases this with ⟨rfl, rfl⟩ | ⟨ha0, hb0, hm⟩
  · omega
  · rcases Nat.lt_trichotomy qa qb with hlt | heq | hgt
    · have : qb = qa + 1 := by omega
      subst this
      omega
    · subst heq
      omega
    · have : qa = qb + 1 := by omega
      subst this
      omega

/-! ## Decoding a file -/

theorem lookupFile_putFile (fs : List (String × FileEnt)) (fn : String) (e : FileEnt) :
    lookupFile (putFile fs fn e) fn = some e := by
  simp [putFile, lookupFile]

theorem cfChkSumAt_initial (init rest : List Byte) :
    cfChkSumAt (init ++ rest) (init.length : Int) = some (cfChkSum init) := by
  unfold cfChkSumAt
  have : ¬ (((init.length : Int) < 0) ∨ (((init ++ rest).length : Int) < (init.length : Int))) := by
    simp
  rw [if_neg this]
  simp

theorem peek_at_length (init rest : List Byte) (c : Byte) :
    peek (init ++ c :: rest) (init.length : Int) = some c := by
  unfold peek
  have : ¬ ((init.length : Int) < 0) := by omega
  rw [if_neg this]
  simp [List.getElem_append_right]

/-- How `decodeRecord` treats a non-empty file: the checksum of all bytes but
the last is compared with the last byte. -/
theorem decodeRecord_snoc (init buf : List Byte) (c : Byte) (vb : Nat) :
    decodeRecord (init ++ [c]) buf vb =
      if c = cfChkSum init then
        (peek (init ++ [c, 0]) 0).bind fun b0 =>
          (peek (init ++ [c, 0]) 1).bind fun b1 =>
            (memRead (init ++ [c, 0]) 2 (min buf.length (b0.val + b1.val * 256))).bind fun src =>
              some { ret := true,
                     buf := src ++ buf.drop (min buf.length (b0.val + b1.val * 256)),
                     validBytes := b0.val + b1.val * 256 }
      else some { ret := false, buf := buf, validBytes := vb } := by
  have e : (((init ++ [c]).length : Nat) : Int) - 1 = (init.length : Int) := by simp
  have e2 : init ++ [c] ++ [0] = init ++ [c, 0] := by simp
  unfold decodeRecord
  simp only [e, e2, cfChkSumAt_initial, peek_at_length, Option.bind_eq_bind, Option.some_bind]
  rfl

theorem decodeRecord_frame (P buf : List Byte) (vb : Nat) (hL : P.length ≤ 65535) :
    decodeRecord (frameRecord P) buf vb =
      some { ret := true,
             buf := P.take (min buf.length P.length) ++ buf.drop (min buf.length P.length),
             validBytes := P.length } := by
  have hvb : P.length % 256 + P.length / 256 % 256 * 256 = P.length := by omega
  have hm : min buf.length P.length = 0 ∨
      2 + min buf.length P.length ≤ P.length + 1 + 1 + 1 + 1 := by omega
  simp only [frameRecord, decodeRecord_snoc, if_true]
  simp [peek, memRead, hvb, hm, List.take_append_eq_append_take]
  rw [if_pos (Or.inr (by omega))]
  rfl

theorem writeFile_ok (m : Medium) (fn : String) (buf : List Byte)
    (h : (writeFile m fn buf).2 = true) :
    lookupFile (writeFile m fn buf).1.files fn = some { data := buf, ioErr := false } := by
  unfold writeFile at h ⊢
  cases ho : m.openW
  · simp [ho] at h
  · simp only [ho, if_true, beq_iff_eq] at h ⊢
    rw [lookupFile_putFile, h, List.take_length]

theorem loadSource_fs (w : World) (fn : String) (forcefs : Int) (D : List Byte)
    (hfs : w.haveFS = true) (hsel : sdSelected w forcefs = false)
    (hw : lookupFile w.fs.files fn = some { data := D, ioErr := false }) :
    loadSource w fn forcefs = some D := by
  have hsel2 : (forcefs == 0 || (decide (forcefs < 0) && !w.FlashROMode)) = true := by
    simp only [sdSelected, Bool.or_eq_false_iff, Bool.and_eq_false_imp, beq_iff_eq,
      decide_eq_false_iff_not, decide_eq_true_eq] at hsel
    simp only [Bool.or_eq_true, beq_iff_eq, Bool.and_eq_true, decide_eq_true_eq,
      Bool.not_eq_true']
    rcases hsel with ⟨⟨_, h2⟩, h3⟩
    by_cases h0 : forcefs = 0
    · exact Or.inl h0
    · right
      have hlt : forcefs < 0 := by omega
      refine ⟨hlt, ?_⟩
      cases hro : w.FlashROMode
      · rfl
      · exact absurd hro (by simpa using h3 hlt)
  simp [loadSource, readFileFromFSU, readFileU, Medium.fexists, hfs, hw, hsel2, hsel]

theorem loadSource_sd (w : World) (fn : String) (forcefs : Int) (D : List Byte)
    (hsd : w.haveSD = true) (hsel : sdSelected w forcefs = true)
    (hw : lookupFile w.sd.files fn = some { data := D, ioErr := false }) :
    loadSource w fn forcefs = some D := by
  simp [loadSource, readFileFromSDU, readFileU, hsd, hw, hsel]

/-- After a successful `saveConfigFile` the file `loadConfigFile` gets hold of
is the framed record. -/
theorem loadSource_after_save (w : World) (fn : String) (P : List Byte) (forcefs : Int)
    (hok : (saveConfigFile w fn P forcefs).2 = true) :
    loadSource (saveConfigFile w fn P forcefs).1 fn forcefs = some (frameRecord P) := by
  unfold saveConfigFile at hok ⊢
  cases hsel : sdSelected w forcefs
  · -- flash
    simp only [hsel, Bool.false_eq_true, if_false] at hok ⊢
    cases hfs : w.haveFS
    · simp [hfs] at hok
    · simp only [hfs, if_true, writeFileToFS, Bool.not_true, Bool.false_eq_true, if_false]
        at hok ⊢
      exact loadSource_fs _ fn forcefs _ rfl hsel (writeFile_ok w.fs fn (frameRecord P) hok)
  · -- SD card
    simp only [hsel, if_true, writeFileToSD] at hok ⊢
    cases hsd : w.haveSD
    · simp [hsd] at hok
    · simp only [hsd, Bool.not_true, Bool.false_eq_true, if_false] at hok ⊢
      exact loadSource_sd _ fn forcefs _ rfl hsel (writeFile_ok w.sd fn (frameRecord P) hok)

theorem decodeRecord_snoc_bad (init buf : List Byte) (c : Byte) (vb : Nat)
    (h : c ≠ cfChkSum init) :
    decodeRecord (init ++ [c]) buf vb = some { ret := false, buf := buf, validBytes := vb } := by
  rw [decodeRecord_snoc, if_neg h]

/-- The framed record: header and payload, followed by their checksum. -/
theorem frameRecord_snoc (P : List Byte) :
    ∃ init : List Byte, init.length = P.length + 2 ∧
      frameRecord P = init ++ [cfChkSum init] :=
  ⟨[⟨P.length % 256, Nat.mod_lt _ (by decide)⟩,
      ⟨P.length / 256 % 256, Nat.mod_lt _ (by decide)⟩] ++ P,
    by simp, rfl⟩

theorem decodeRecord_corrupt (P : List Byte) (i : Nat) (old v : Byte)
    (hold : (frameRecord P)[i]? = some old) (hv : v ≠ old)
    (h255 : i = P.length + 2 ∨ (v.val + 255 ≠ old.val ∧ old.val + 255 ≠ v.val))
    (buf : List Byte) (vb : Nat) :
    decodeRecord ((frameRecord P).set i v) buf vb =
      some { ret := false, buf := buf, validBytes := vb } := by
  obtain ⟨init, hlen, hfr⟩ := frameRecord_snoc P
  rw [hfr] at hold ⊢
  by_cases hi : i < init.length
  · rw [List.getElem?_append_left hi] at hold
    rw [List.set_append_left _ _ hi]
    apply decodeRecord_snoc_bad
    have h255' : v.val + 255 ≠ old.val ∧ old.val + 255 ≠ v.val := by
      rcases h255 with h | h
      · omega
      · exact h
    exact fun h => cfChkSum_set_ne init i old v hold hv h255'.1 h255'.2 h.symm
  · have hi' : init.length ≤ i := by omega
    rw [List.getElem?_append_right hi'] at hold
    have hi0 : i - init.length = 0 := by
      by_contra hne
      have : 1 ≤ i - init.length := by omega
      rw [List.getElem?_eq_none (by simpa using this)] at hold
      exact Option.noConfusion hold
    rw [hi0] at hold
    simp at hold
    rw [List.set_append_right _ _ hi', hi0]
    simp only [List.set_cons_zero]
    apply decodeRecord_snoc_bad
    rw [hold]; exact hv

/-! ## C1: round trip of the binary record codec -/

/-- C1: for every payload `P` of at most 65535 bytes, every `forcefs` and every
state (medium flags included) in which `saveConfigFile(fn, P, L, forcefs)`
returns `true`, the following `loadConfigFile(fn, buf, L, validBytes, forcefs)`
in the resulting state returns `true`, leaves `buf` equal to `P` and sets
`validBytes` to `L`. -/
theorem C1_round_trip (w : World) (fn : String) (P : List Byte) (forcefs : Int)
    (hL : P.length ≤ 65535)
    (hok : (saveConfigFile w fn P forcefs).2 = true)
    (buf : List Byte) (hbuf : buf.length = P.length) (validBytes : Nat) :
    loadConfigFile (saveConfigFile w fn P forcefs).1 fn buf validBytes forcefs =
      some { ret := true, buf := P, validBytes := P.length } := by
  unfold loadConfigFile
  rw [loadSource_after_save w fn P forcefs hok]
  simp only [decodeRecord_frame P buf validBytes hL, hbuf, Nat.min_self, List.take_length]
  simp [← hbuf]

/-- C1 at a concrete input: three bytes saved to flash and loaded again. -/
theorem C1_round_trip_witness :
    (saveConfigFile flashWorld secCfgName [1, 2, 3] 0).2 = true ∧
    loadConfigFile (saveConfigFile flashWorld secCfgName [1, 2, 3] 0).1 secCfgName
        [0, 0, 0] 0 0 = some { ret := true, buf := [1, 2, 3], validBytes := 3 } :=
  ⟨by decide,
   C1_round_trip flashWorld secCfgName [1, 2, 3] 0 (by decide) (by decide) [0, 0, 0]
     (by decide) 0⟩

/-! ## C2: single-byte corruption -/

/-- C2, as stated, fails: the record of the one-byte payload `00` is
`01 00 00 FE`; with the payload byte replaced by `FF` the file `01 00 FF FE`
is accepted and `FF` is copied into the caller's structure. -/
theorem C2_counterexample :
    frameRecord [0] = [1, 0, 0, 254] ∧
    ([1, 0, 0, 254] : List Byte).set 2 255 = [1, 0, 255, 254] ∧
    loadConfigFile { flashWorld with fs := mediumWith secCfgName [1, 0, 255, 254] }
        secCfgName [0] 0 0 = some { ret := true, buf := [255], validBytes := 1 } := by
  decide

/-- C2, amended: in a record as written by `saveConfigFile`, replacing the byte
at any position `i` (length bytes, payload or checksum byte) by a different
value `v` makes `loadConfigFile` return `false` with the structure and
`validBytes` untouched, provided the position is the checksum byte or the old
and the new value are not `0x00` and `0xFF` (in either order). -/
theorem C2_single_byte_detected (P : List Byte) (i : Nat) (old v : Byte)
    (hold : (frameRecord P)[i]? = some old) (hv : v ≠ old)
    (h255 : i = P.length + 2 ∨ (v.val + 255 ≠ old.val ∧ old.val + 255 ≠ v.val))
    (w : World) (fn : String) (forcefs : Int) (buf : List Byte) (validBytes : Nat)
    (hsrc : loadSource w fn forcefs = some ((frameRecord P).set i v)) :
    loadConfigFile w fn buf validBytes forcefs =
      some { ret := false, buf := buf, validBytes := validBytes } := by
  unfold loadConfigFile
  rw [hsrc]
  exact decodeRecord_corrupt P i old v hold hv h255 buf validBytes

/-- C2 amended, at a concrete input: payload byte `07` replaced by `08`. -/
theorem C2_single_byte_detected_witness :
    (frameRecord [7])[2]? = some 7 ∧ (8 : Byte) ≠ 7 ∧
    loadSource { flashWorld with fs := mediumWith secCfgName ((frameRecord [7]).set 2 8) }
      secCfgName 0 = some ((frameRecord [7]).set 2 8) ∧
    loadConfigFile { flashWorld with fs := mediumWith secCfgName ((frameRecord [7]).set 2 8) }
      secCfgName [0] 0 0 = some { ret := false, buf := [0], validBytes := 0 } :=
  ⟨by decide, by decide, by decide,
   C2_single_byte_detected [7] 2 7 8 (by decide) (by decide) (Or.inr (by decide))
     { flashWorld with fs := mediumWith secCfgName ((frameRecord [7]).set 2 8) }
     secCfgName 0 [0] 0 (by decide)⟩

/-! ## C3: size mismatch and torn writes -/

/-- C3, as stated, fails: `01 00 FE` is a proper prefix of the valid record
`01 00 FE 00`; its size 3 is not the length prefix 1 plus 3, yet
`loadConfigFile` returns `true` and copies one byte. -/
theorem C3_counterexample :
    frameRecord [254] = [1, 0, 254, 0] ∧
    ([1, 0, 254, 0] : List Byte).take 3 = [1, 0, 254] ∧
    ([1, 0, 254] : List Byte).length ≠ (1 + 0 * 256) + 3 ∧
    loadConfigFile { flashWorld with fs := mediumWith secCfgName [1, 0, 254] }
        secCfgName [7] 0 0 = some { ret := true, buf := [254], validBytes := 1 } := by
  decide

/-- C3, amended: for every non-empty file, `loadConfigFile` returns `false`
with the structure and `validBytes` untouched, and without any memory access
outside the read buffer, exactly when the last byte of the file differs from
`cfChkSum` of the bytes before it; the physical size is not compared with the
length prefix. -/
theorem C3_rejected_iff_checksum (w : World) (fn : String) (forcefs : Int)
    (init : List Byte) (c : Byte) (buf : List Byte) (validBytes : Nat)
    (hsrc : loadSource w fn forcefs = some (init ++ [c])) :
    loadConfigFile w fn buf validBytes forcefs =
        some { ret := false, buf := buf, validBytes := validBytes }
      ↔ c ≠ cfChkSum init := by
  unfold loadConfigFile
  rw [hsrc]
  simp only [decodeRecord_snoc]
  constructor
  · intro h hc
    rw [if_pos hc] at h
    cases h0 : peek (init ++ [c, 0]) 0 with
    | none => simp [h0] at h
    | some b0 =>
      cases h1 : peek (init ++ [c, 0]) 1 with
      | none => simp [h0, h1] at h
      | some b1 =>
        cases h2 : memRead (init ++ [c, 0]) 2 (min buf.length (b0.val + b1.val * 256)) with
        | none => simp [h0, h1, h2] at h
        | some src => simp [h0, h1, h2] at h
  · intro hc
    rw [if_neg hc]

/-- C3 amended, at a concrete input: a three-byte file with a wrong last byte. -/
theorem C3_rejected_iff_checksum_witness :
    loadSource { flashWorld with fs := mediumWith secCfgName [1, 0, 7] } secCfgName 0 =
      some ([1, 0] ++ [7]) ∧
    (loadConfigFile { flashWorld with fs := mediumWith secCfgName [1, 0, 7] } secCfgName
        [9] 0 0 = some { ret := false, buf := [9], validBytes := 0 }
      ↔ (7 : Byte) ≠ cfChkSum [1, 0]) :=
  ⟨by decide,
   C3_rejected_iff_checksum { flashWorld with fs := mediumWith secCfgName [1, 0, 7] }
     secCfgName 0 [1, 0] 7 [9] 0 (by decide)⟩

/-! ## C4: wire format -/

theorem frameRecord_vals (P : List Byte) (hL : P.length ≤ 65535) :
    (frameRecord P).map Fin.val =
      [P.length % 256, P.length / 256] ++ P.map Fin.val ++
        [refChkSum ([P.length % 256, P.length / 256] ++ P.map Fin.val)] := by
  have h : P.length / 256 % 256 = P.length / 256 := by omega
  simp [frameRecord, cfChkSum_ref, h]

theorem saveConfigFile_log (w : World) (fn : String) (P : List Byte) (forcefs : Int) :
    (saveConfigFile w fn P forcefs).1 = w ∨
    ((saveConfigFile w fn P forcefs).1.sd.wlog = w.sd.wlog ++ [(fn, frameRecord P)] ∧
      (saveConfigFile w fn P forcefs).1.fs = w.fs) ∨
    ((saveConfigFile w fn P forcefs).1.fs.wlog = w.fs.wlog ++ [(fn, frameRecord P)] ∧
      (saveConfigFile w fn P forcefs).1.sd = w.sd) := by
  unfold saveConfigFile writeFileToSD writeFileToFS writeFile
  cases w.haveSD <;> cases w.haveFS <;> cases sdSelected w forcefs <;>
    cases w.sd.openW <;> cases w.fs.openW <;> simp

/-- C4: for every payload `P` of `L ≤ 65535` bytes the buffer `saveConfigFile`
builds is `[L mod 256, L div 256] ++ P ++ [c]` (`L+3` bytes) with `c` the
checksum of the preceding `L+2` bytes; `cfChkSum` equals the reference
definition `refChkSum`; and whenever `saveConfigFile` reaches a medium, the
request that medium receives is exactly that buffer under the name `fn`. -/
theorem C4_wire_format (P : List Byte) (hL : P.length ≤ 65535) :
    (frameRecord P).map Fin.val =
        [P.length % 256, P.length / 256] ++ P.map Fin.val ++
          [refChkSum ([P.length % 256, P.length / 256] ++ P.map Fin.val)]
    ∧ (frameRecord P).length = P.length + 3
    ∧ (∀ bytes : List Byte, (cfChkSum bytes).val = refChkSum (bytes.map Fin.val))
    ∧ ∀ (w : World) (fn : String) (forcefs : Int),
        (saveConfigFile w fn P forcefs).1 = w ∨
        ((saveConfigFile w fn P forcefs).1.sd.wlog = w.sd.wlog ++ [(fn, frameRecord P)] ∧
          (saveConfigFile w fn P forcefs).1.fs = w.fs) ∨
        ((saveConfigFile w fn P forcefs).1.fs.wlog = w.fs.wlog ++ [(fn, frameRecord P)] ∧
          (saveConfigFile w fn P forcefs).1.sd = w.sd) :=
  ⟨frameRecord_vals P hL, by simp [frameRecord], cfChkSum_ref,
    fun w fn forcefs => saveConfigFile_log w fn P forcefs⟩

/-- C4 at a concrete input: the record of the payload `01 02 03`. -/
theorem C4_wire_format_witness :
    ([1, 2, 3] : List Byte).length ≤ 65535 ∧
    (frameRecord [1, 2, 3]).map Fin.val =
      [3, 0, 1, 2, 3, refChkSum [3, 0, 1, 2, 3]] ∧
    (frameRecord [1, 2, 3]).length = 6 :=
  ⟨by decide, (C4_wire_format [1, 2, 3] (by decide)).1,
    (C4_wire_format [1, 2, 3] (by decide)).2.1⟩

/-! ## C5: the length prefix governs the copy -/

/-- C5: for every record `[L low][L high][L payload bytes][checksum]` with a
valid checksum and every caller structure `buf` of `len` bytes,
`loadConfigFile` returns `true`, sets `validBytes` to `L`, replaces the first
`min(len, L)` bytes of `buf` by the first `min(len, L)` payload bytes and
leaves every other byte of `buf` (in particular those at index `L` and
above) unchanged. -/
theorem C5_length_governs_copy (P : List Byte) (hL : P.length ≤ 65535)
    (w : World) (fn : String) (forcefs : Int) (buf : List Byte) (validBytes : Nat)
    (hsrc : loadSource w fn forcefs = some (frameRecord P)) :
    ∃ r : Loaded, loadConfigFile w fn buf validBytes forcefs = some r ∧
      r.ret = true ∧ r.validBytes = P.length ∧ r.buf.length = buf.length ∧
      r.buf = P.take (min buf.length P.length) ++ buf.drop (min buf.length P.length) ∧
      (∀ i, i < min buf.length P.length → r.buf[i]? = P[i]?) ∧
      (∀ i, min buf.length P.length ≤ i → r.buf[i]? = buf[i]?) := by
  refine ⟨{ ret := true,
             buf := P.take (min buf.length P.length) ++ buf.drop (min buf.length P.length),
             validBytes := P.length }, ?_, rfl, rfl, ?_, rfl, ?_, ?_⟩
  · unfold loadConfigFile
    rw [hsrc]
    exact decodeRecord_frame P buf validBytes hL
  · simp
  · intro i hi
    have : i < (P.take (min buf.length P.length)).length := by simp; omega
    simp only []
    rw [List.getElem?_append_left this, List.getElem?_take_of_lt hi]
  · intro i hi
    have hlen : (P.take (min buf.length P.length)).length = min buf.length P.length := by
      simp
    simp only []
    rw [List.getElem?_append_right (by omega), hlen, List.getElem?_drop]
    congr 1
    omega

/-- C5 at concrete inputs: a three-byte record read into a two-byte structure. -/
theorem C5_length_governs_copy_witness :
    ∃ r : Loaded,
      loadConfigFile { flashWorld with fs := mediumWith secCfgName (frameRecord [1, 2, 3]) }
        secCfgName [9, 9] 0 0 = some r ∧
      r.ret = true ∧ r.validBytes = 3 ∧ r.buf.length = 2 ∧
      r.buf = [1, 2] ∧
      (∀ i, i < 2 → r.buf[i]? = ([1, 2, 3] : List Byte)[i]?) ∧
      (∀ i, 2 ≤ i → r.buf[i]? = ([9, 9] : List Byte)[i]?) :=
  C5_length_governs_copy [1, 2, 3] (by decide)
    { flashWorld with fs := mediumWith secCfgName (frameRecord [1, 2, 3]) }
    secCfgName 0 [9, 9] 0 (by decide)

/-! ## C6: bad record versus transport failure -/

/-- C6, as stated, fails: a file with a wrong checksum (bad record) and a
missing file (transport failure) give the same reported result, `false` with
`validBytes` unchanged. -/
theorem C6_counterexample :
    (7 : Byte) ≠ cfChkSum [1, 0] ∧
    loadSource { flashWorld with fs := mediumWith secCfgName [1, 0, 7] } secCfgName 0 =
      some [1, 0, 7] ∧
    loadSource flashWorld secCfgName 0 = none ∧
    loadConfigFile { flashWorld with fs := mediumWith secCfgName [1, 0, 7] } secCfgName
        [9] 5 0 = some { ret := false, buf := [9], validBytes := 5 } ∧
    loadConfigFile flashWorld secCfgName [9] 5 0 =
      some { ret := false, buf := [9], validBytes := 5 } := by
  decide

/-- C6, amended: `loadConfigFile` reports a bad record and a transport failure
as the same outcome.  It returns `false` and leaves the structure and
`validBytes` unchanged when no medium is available, when the file cannot be
read from either medium (missing, open or read error), and when the file's
last byte differs from the checksum of the bytes before it. -/
theorem C6_same_outcome (w : World) (fn : String) (forcefs : Int) (buf : List Byte)
    (validBytes : Nat)
    (h : (w.haveSD = false ∧ w.haveFS = false) ∨
         (readFileU w.sd fn = none ∧ readFileU w.fs fn = none) ∨
         (∃ init c, loadSource w fn forcefs = some (init ++ [c]) ∧ c ≠ cfChkSum init)) :
    loadConfigFile w fn buf validBytes forcefs =
      some { ret := false, buf := buf, validBytes := validBytes } := by
  rcases h with ⟨h1, h2⟩ | ⟨h1, h2⟩ | ⟨init, c, hsrc, hc⟩
  · simp [loadConfigFile, loadSource, h1, h2]
  · have : loadSource w fn forcefs = none := by
      unfold loadSource readFileFromSDU readFileFromFSU
      rw [h1, h2]
      simp
    simp [loadConfigFile, this]
  · unfold loadConfigFile
    rw [hsrc]
    exact decodeRecord_snoc_bad init buf c validBytes hc

/-- C6 amended, at a concrete input: a record with a wrong checksum byte. -/
theorem C6_same_outcome_witness :
    loadConfigFile { flashWorld with fs := mediumWith secCfgName [1, 0, 7] } secCfgName
        [9] 5 0 = some { ret := false, buf := [9], validBytes := 5 } :=
  C6_same_outcome { flashWorld with fs := mediumWith secCfgName [1, 0, 7] } secCfgName 0
    [9] 5 (Or.inr (Or.inr ⟨[1, 0], 7, by decide, by decide⟩))

/-! ## Which parts of the state the writers touch -/

theorem writeFileToSD_frame (w : World) (fn : String) (buf : List Byte) :
    (writeFileToSD w fn buf).1 = { w with sd := (writeFileToSD w fn buf).1.sd } := by
  cases w
  unfold writeFileToSD
  split <;> rfl

theorem writeFileToFS_frame (w : World) (fn : String) (buf : List Byte) :
    (writeFileToFS w fn buf).1 = { w with fs := (writeFileToFS w fn buf).1.fs } := by
  cases w
  unfold writeFileToFS
  split <;> rfl

/-- Function `saveConfigFile` changes nothing but the two media. -/
theorem saveConfigFile_frame (w : World) (fn : String) (P : List Byte) (forcefs : Int) :
    (saveConfigFile w fn P forcefs).1 =
      { w with fs := (saveConfigFile w fn P forcefs).1.fs,
               sd := (saveConfigFile w fn P forcefs).1.sd } := by
  cases w
  unfold saveConfigFile writeFileToSD writeFileToFS
  split
  · split <;> rfl
  · split
    · split <;> rfl
    · rfl

/-- The write requests `saveConfigFile` adds: one, when the selected medium
is available, and none otherwise. -/
theorem saveConfigFile_physWrites (w : World) (fn : String) (P : List Byte) (forcefs : Int) :
    physWrites (saveConfigFile w fn P forcefs).1 =
      physWrites w +
        (if (if sdSelected w forcefs then w.haveSD else w.haveFS) = true then 1 else 0) := by
  unfold saveConfigFile writeFileToSD writeFileToFS writeFile physWrites
  cases sdSelected w forcefs <;> cases w.haveSD <;> cases w.haveFS <;>
    cases w.sd.openW <;> cases w.fs.openW <;> simp <;> omega

/-- Through a non-null `newHash`, `writeJSONCfgFile` always stores the hash of
the serialized document. -/
theorem writeJSONCfgFile_newHash (w : World) (buf : List Byte) (fn : String) (useSD : Bool)
    (oldHash x : Nat) :
    (writeJSONCfgFile w buf fn useSD oldHash (some x)).2.2 = some (calcHash buf) := by
  unfold writeJSONCfgFile
  simp only [Option.isSome_some, Bool.or_true, if_true, Option.map_some']
  split <;> rfl

/-! ## C7: the change-hash cache and failed writes -/

/-- C7, as stated, fails: with flash mounted but not writable (the file cannot
be opened for writing), `saveSecSettings(true)` attempts the write, returns
`false`, and leaves `secSettingsHash` changed. -/
theorem C7_counterexample :
    (saveSecSettings { flashWorld with fs := { emptyMedium with openW := false } } true).2
      = false ∧
    physWrites
      (saveSecSettings { flashWorld with fs := { emptyMedium with openW := false } } true).1
      = 1 ∧
    (saveSecSettings { flashWorld with fs := { emptyMedium with openW := false } }
      true).1.secSettingsHash ≠ 0 ∧
    ({ flashWorld with fs := { emptyMedium with openW := false } } : World).secSettingsHash
      = 0 := by
  decide

/-- C7, amended: the cached hash is updated before the physical write and is
not restored when the write fails.  For each cached record, whenever a write
request reaches a medium (whether it then succeeds or fails), the cached hash
after the call is `calcHash` of the content that was to be written. -/
theorem C7_hash_set_before_write (ser : JsonDoc → List Byte) (w : World) (useCache : Bool) :
    (physWrites (saveSecSettings w useCache).1 ≠ physWrites w →
      (saveSecSettings w useCache).1.secSettingsHash = calcHash w.secSettings.bytes) ∧
    (physWrites (saveTerSettings w useCache).1 ≠ physWrites w →
      (saveTerSettings w useCache).1.terSettingsHash = calcHash w.terSettings.bytes) ∧
    (physWrites (writeIpSettings w) ≠ physWrites w →
      (writeIpSettings w).ipHash = calcHash w.ipsettings.bytes) ∧
    (physWrites (write_settings ser w) ≠ physWrites w →
      (write_settings ser w).mainConfigHash = calcHash (ser (settingsDoc w.settings))) := by
  refine ⟨?_, ?_, ?_, ?_⟩
  · intro _
    unfold saveSecSettings
    by_cases hc : (useCache && w.secSettingsHash == calcHash w.secSettings.bytes) = true
    · simp only [hc, if_true]
    · simp only [hc, Bool.false_eq_true, if_false]
      rw [saveConfigFile_frame]
  · intro h
    unfold saveTerSettings at h ⊢
    cases hsd : w.haveSD
    · simp [hsd] at h
    · simp only [Bool.not_true, Bool.false_eq_true, if_false]
      by_cases hc : (useCache && w.terSettingsHash == calcHash w.terSettings.bytes) = true
      · simp only [hc, if_true]
      · simp only [hc, Bool.false_eq_true, if_false]
        rw [saveConfigFile_frame]
  · intro h
    unfold writeIpSettings at h ⊢
    by_cases h1 : (!w.haveFS && !w.FlashROMode) = true
    · simp [h1] at h
    · by_cases h2 : ((cstr w.ipsettings.ip).length == 0) = true
      · simp [h1, h2] at h
      · by_cases h3 : (w.ipHash != 0 && calcHash w.ipsettings.bytes == w.ipHash) = true
        · simp [h1, h2, h3] at h
        · simp only [h1, h2, h3, Bool.false_eq_true, if_false]
          rw [saveConfigFile_frame]
  · intro h
    unfold write_settings at h ⊢
    by_cases h1 : (!w.haveFS && !w.FlashROMode) = true
    · simp [h1] at h
    · simp only [h1, Bool.false_eq_true, if_false]
      rw [writeJSONCfgFile_newHash]
      rfl

/-- C7 amended, at a concrete input: the failed write of the counterexample
state leaves `secSettingsHash` at the hash of the content. -/
theorem C7_hash_set_before_write_witness :
    physWrites
      (saveSecSettings { flashWorld with fs := { emptyMedium with openW := false } } true).1
      ≠ physWrites { flashWorld with fs := { emptyMedium with openW := false } } ∧
    (saveSecSettings { flashWorld with fs := { emptyMedium with openW := false } }
      true).1.secSettingsHash = calcHash flashWorld.secSettings.bytes :=
  ⟨by decide,
   (C7_hash_set_before_write (fun _ => [])
     { flashWorld with fs := { emptyMedium with openW := false } } true).1 (by decide)⟩

/-! ## C8: two cached saves in a row -/

theorem sdSelected_zero (w : World) : sdSelected w 0 = w.configOnSD := by
  simp [sdSelected]

/-- What one `saveSecSettings(true)` does: the hash is set, the content is
kept, and one write request is issued iff the old hash differs and the
selected medium is available. -/
theorem saveSecSettings_cached (w : World) :
    (saveSecSettings w true).1.secSettingsHash = calcHash w.secSettings.bytes ∧
    (saveSecSettings w true).1.secSettings = w.secSettings ∧
    physWrites (saveSecSettings w true).1 =
      physWrites w +
        (if w.secSettingsHash ≠ calcHash w.secSettings.bytes ∧
            (if w.configOnSD then w.haveSD else w.haveFS) = true then 1 else 0) := by
  unfold saveSecSettings
  by_cases hc : w.secSettingsHash = calcHash w.secSettings.bytes
  · simp [hc, physWrites]
  · have hc' : (true && w.secSettingsHash == calcHash w.secSettings.bytes) = false := by
      simpa using hc
    simp only [hc', Bool.false_eq_true, if_false]
    rw [saveConfigFile_physWrites, saveConfigFile_frame, sdSelected_zero]
    simp [hc, physWrites]

/-- C8, as stated, fails: when the cache already holds the hash of the content
(as after `settings_setup` loaded the record), two calls of
`saveSecSettings(true)` perform no physical write at all. -/
theorem C8_counterexample :
    physWrites
      (saveSecSettings
        (saveSecSettings
          { flashWorld with secSettingsHash := calcHash flashWorld.secSettings.bytes }
          true).1 true).1 = 0 := by
  decide

/-- C8, amended: two calls of `saveSecSettings(true)` with `secSettings`
untouched in between perform at most one physical write in total: exactly one
when the cached hash differs from `calcHash` of the content and the selected
medium is available (`haveSD` if `configOnSD`, else `haveFS`), none otherwise;
the second call never writes. -/
theorem C8_two_cached_saves (w : World) :
    (saveSecSettings w true).1.secSettings = w.secSettings ∧
    physWrites (saveSecSettings (saveSecSettings w true).1 true).1 =
      physWrites (saveSecSettings w true).1 ∧
    physWrites (saveSecSettings (saveSecSettings w true).1 true).1 =
      physWrites w +
        (if w.secSettingsHash ≠ calcHash w.secSettings.bytes ∧
            (if w.configOnSD then w.haveSD else w.haveFS) = true then 1 else 0) := by
  obtain ⟨h1, h2, h3⟩ := saveSecSettings_cached w
  obtain ⟨_, _, k3⟩ := saveSecSettings_cached (saveSecSettings w true).1
  have hk : physWrites (saveSecSettings (saveSecSettings w true).1 true).1 =
      physWrites (saveSecSettings w true).1 := by
    rw [k3, h1, h2]
    simp
  exact ⟨h2, hk, by rw [hk, h3]⟩

/-! ## C9: the hash test of `writeJSONCfgFile` -/

theorem writeFileToSD_physWrites (w : World) (fn : String) (buf : List Byte) :
    (w.haveSD = true → physWrites (writeFileToSD w fn buf).1 = physWrites w + 1) ∧
    (w.haveSD = false → (writeFileToSD w fn buf).1 = w) := by
  unfold writeFileToSD writeFile physWrites
  cases w.haveSD <;> cases w.sd.openW <;> simp <;> omega

theorem writeFileToFS_physWrites (w : World) (fn : String) (buf : List Byte) :
    (w.haveFS = true → physWrites (writeFileToFS w fn buf).1 = physWrites w + 1) ∧
    (w.haveFS = false → (writeFileToFS w fn buf).1 = w) := by
  unfold writeFileToFS writeFile physWrites
  cases w.haveFS <;> cases w.fs.openW <;> simp <;> omega

/-- C9, as stated, fails: with `useSD` set and no SD card, a prior hash of 0
does not lead to a physical write; the call returns `false` and no medium
receives a request. -/
theorem C9_counterexample :
    (writeJSONCfgFile sampleWorld [1, 2, 3] cfgName true 0 none).1 = sampleWorld ∧
    (writeJSONCfgFile sampleWorld [1, 2, 3] cfgName true 0 none).2.1 = false ∧
    physWrites (writeJSONCfgFile sampleWorld [1, 2, 3] cfgName true 0 none).1 =
      physWrites sampleWorld := by
  decide

/-- C9, amended: `writeJSONCfgFile` performs the physical write if and only if
the selected medium is available (`haveSD` for `useSD`, else `haveFS`) and the
prior hash is 0 or differs from `calcHash` of the serialized document; in
every other case the state, both file systems included, is unchanged.  When the
prior hash is non-zero and equal it returns `true`, and a non-null `newHash`
receives the computed hash in every case. -/
theorem C9_write_iff_hash_differs (w : World) (buf : List Byte) (fn : String) (useSD : Bool)
    (oldHash : Nat) (newHash : Option Nat) :
    (physWrites (writeJSONCfgFile w buf fn useSD oldHash newHash).1 = physWrites w + 1 ↔
      ((if useSD then w.haveSD else w.haveFS) = true ∧
        (oldHash = 0 ∨ oldHash ≠ calcHash buf))) ∧
    (¬ ((if useSD then w.haveSD else w.haveFS) = true ∧
        (oldHash = 0 ∨ oldHash ≠ calcHash buf)) →
      (writeJSONCfgFile w buf fn useSD oldHash newHash).1 = w) ∧
    (oldHash ≠ 0 → oldHash = calcHash buf →
      (writeJSONCfgFile w buf fn useSD oldHash newHash).2.1 = true ∧
      (writeJSONCfgFile w buf fn useSD oldHash newHash).1 = w) ∧
    (∀ x, newHash = some x →
      (writeJSONCfgFile w buf fn useSD oldHash newHash).2.2 = some (calcHash buf)) := by
  have hsd := writeFileToSD_physWrites w fn buf
  have hfs := writeFileToFS_physWrites w fn buf
  by_cases hskip : oldHash ≠ 0 ∧ oldHash = calcHash buf
  · -- hash identical: nothing is written
    obtain ⟨h0, he⟩ := hskip
    have hr : writeJSONCfgFile w buf fn useSD oldHash newHash =
        (w, true, newHash.map (fun _ => calcHash buf)) := by
      unfold writeJSONCfgFile
      simp [h0, ← he]
    rw [hr]
    refine ⟨?_, fun _ => rfl, fun _ _ => ⟨rfl, rfl⟩, ?_⟩
    · constructor
      · intro h; simp at h
      · rintro ⟨_, h | h⟩
        · exact absurd h h0
        · exact absurd he h
    · intro x hx
      simp [hx]
  · have hcond : oldHash = 0 ∨ oldHash ≠ calcHash buf := by
      by_cases h0 : oldHash = 0
      · exact Or.inl h0
      · exact Or.inr (fun he => hskip ⟨h0, he⟩)
    have hr : (writeJSONCfgFile w buf fn useSD oldHash newHash).1 =
        (if useSD then writeFileToSD w fn buf else writeFileToFS w fn buf).1 := by
      unfold writeJSONCfgFile
      have : ((oldHash != 0 || newHash.isSome) && oldHash != 0 &&
          oldHash == calcHash buf) = false := by
        rcases hcond with h | h
        · simp [h]
        · simp [h]
      simp only [this, Bool.false_eq_true, if_false]
    have hn : ∀ x, newHash = some x →
        (writeJSONCfgFile w buf fn useSD oldHash newHash).2.2 = some (calcHash buf) := by
      intro x hx
      rw [hx, writeJSONCfgFile_newHash]
    rw [hr]
    refine ⟨?_, ?_, fun h0 he => absurd ⟨h0, he⟩ hskip, hn⟩
    · cases useSD
      · simp only [Bool.false_eq_true, if_false]
        cases hav : w.haveFS
        · rw [hfs.2 hav]; simp
        · rw [hfs.1 hav]; simp [hcond]
      · simp only [if_true]
        cases hav : w.haveSD
        · rw [hsd.2 hav]; simp
        · rw [hsd.1 hav]; simp [hcond]
    · intro hn
      cases useSD
      · simp only [Bool.false_eq_true, if_false] at hn ⊢
        cases hav : w.haveFS
        · exact hfs.2 hav
        · exact absurd ⟨hav, hcond⟩ hn
      · simp only [if_true] at hn ⊢
        cases hav : w.haveSD
        · exact hsd.2 hav
        · exact absurd ⟨hav, hcond⟩ hn

/-- C9 amended, at a concrete input: an unchanged document is not written. -/
theorem C9_write_iff_hash_differs_witness :
    calcHash [1, 2, 3] ≠ 0 ∧
    (writeJSONCfgFile flashWorld [1, 2, 3] cfgName false (calcHash [1, 2, 3]) (some 0)).2.1
      = true ∧
    (writeJSONCfgFile flashWorld [1, 2, 3] cfgName false (calcHash [1, 2, 3]) (some 0)).1
      = flashWorld ∧
    (writeJSONCfgFile flashWorld [1, 2, 3] cfgName false (calcHash [1, 2, 3]) (some 0)).2.2
      = some (calcHash [1, 2, 3]) :=
  ⟨by decide,
   ((C9_write_iff_hash_differs flashWorld [1, 2, 3] cfgName false (calcHash [1, 2, 3])
      (some 0)).2.2.1 (by decide) rfl).1,
   ((C9_write_iff_hash_differs flashWorld [1, 2, 3] cfgName false (calcHash [1, 2, 3])
      (some 0)).2.2.1 (by decide) rfl).2,
   (C9_write_iff_hash_differs flashWorld [1, 2, 3] cfgName false (calcHash [1, 2, 3])
      (some 0)).2.2.2 0 rfl⟩

/-! ## C10: the integer field validator -/

theorem atoiAcc_digits (t : List Byte) (acc : Nat)
    (h : ∀ c ∈ t, 48 ≤ c.val ∧ c.val ≤ 57) :
    atoiAcc t acc = t.foldl (fun acc c => acc * 10 + (c.val - 48)) acc := by
  induction t generalizing acc with
  | nil => rfl
  | cons c cs ih =>
    have hc := h c (List.mem_cons_self _ _)
    simp only [atoiAcc, hc, and_self, if_true, List.foldl_cons]
    exact ih _ (fun d hd => h d (List.mem_cons_of_mem _ hd))

theorem digits_foldl_lt (t : List Byte) (acc : Nat)
    (h : ∀ c ∈ t, 48 ≤ c.val ∧ c.val ≤ 57) :
    t.foldl (fun acc c => acc * 10 + (c.val - 48)) acc < (acc + 1) * 10 ^ t.length := by
  induction t generalizing acc with
  | nil => simp
  | cons c cs ih =>
    have hc := h c (List.mem_cons_self _ _)
    have := ih (acc * 10 + (c.val - 48)) (fun d hd => h d (List.mem_cons_of_mem _ hd))
    simp only [List.foldl_cons, List.length_cons]
    calc _ < (acc * 10 + (c.val - 48) + 1) * 10 ^ cs.length := this
      _ ≤ ((acc + 1) * 10) * 10 ^ cs.length := by
        apply Nat.mul_le_mul_right
        omega
      _ = (acc + 1) * 10 ^ (cs.length + 1) := by ring

/-- On at most nine digits `atoi` is the decimal value. -/
theorem atoi_digits (t : List Byte) (h : ∀ c ∈ t, 48 ≤ c.val ∧ c.val ≤ 57)
    (hlen : t.length ≤ 9) : atoi t = (decVal t : Int) := by
  have h1 := atoiAcc_digits t 0 h
  have h2 := digits_foldl_lt t 0 h
  have h3 : 10 ^ t.length ≤ 10 ^ 9 := Nat.pow_le_pow_right (by decide) hlen
  have h4 : decVal t < 1000000000 := by
    unfold decVal
    have : (10 : Nat) ^ 9 = 1000000000 := by norm_num
    omega
  unfold atoi
  rw [h1]
  change min ((decVal t : Nat) : Int) 2147483647 = _
  omega

/-- C10: for `lo ≤ def ≤ hi` and a text of at most 9 characters,
`checkValidNumParm(text, lo, hi, def)` rewrites the text to the decimal
rendering of `def` and returns `true` if the text is empty or contains a
character other than `'0'..'9'`; otherwise, with `v` the decimal value of the
text, it rewrites the text to the decimal rendering of `clamp(v, lo, hi)` and
returns `true` iff `v < lo` or `v > hi`.  With range [0,15] and default 15:
`"abc"` gives `"15"` and `true`, `"999"` gives `"15"` and `true`, `"7"` gives
`"7"` and `false`. -/
theorem C10_checkValidNumParm (text : List Byte) (lo hi dflt : Int)
    (h1 : lo ≤ dflt) (h2 : dflt ≤ hi) (hlen : (cstr text).length ≤ 9) :
    ((cstr text = [] ∨ ∃ c ∈ cstr text, c.val < 48 ∨ 57 < c.val) →
      checkValidNumParm text lo hi dflt = (fmtInt dflt, true)) ∧
    (cstr text ≠ [] → (∀ c ∈ cstr text, 48 ≤ c.val ∧ c.val ≤ 57) →
      checkValidNumParm text lo hi dflt =
        (fmtInt (clamp (decVal (cstr text)) lo hi),
          decide ((decVal (cstr text) : Int) < lo ∨ (decVal (cstr text) : Int) > hi))) ∧
    checkValidNumParm (lit "abc") 0 15 15 = (lit "15", true) ∧
    checkValidNumParm (lit "999") 0 15 15 = (lit "15", true) ∧
    checkValidNumParm (lit "7") 0 15 15 = (lit "7", false) := by
  refine ⟨?_, ?_, by decide, by decide, by decide⟩
  · rintro (h | ⟨c, hc, hbad⟩)
    · simp [checkValidNumParm, h]
    · have hne : ¬ ((cstr text).length == 0) = true := by
        cases hcs : cstr text with
        | nil => rw [hcs] at hc; cases hc
        | cons _ _ => simp
      have hany : (cstr text).any (fun c => c.val < 48 || c.val > 57) = true := by
        rw [List.any_eq_true]
        exact ⟨c, hc, by simpa using hbad⟩
      simp [checkValidNumParm, hne, hany]
  · intro hne hdig
    have hne' : ¬ ((cstr text).length == 0) = true := by
      cases hcs : cstr text with
      | nil => exact absurd hcs hne
      | cons _ _ => simp
    have hany : ¬ (cstr text).any (fun c => c.val < 48 || c.val > 57) = true := by
      rw [List.any_eq_true]
      rintro ⟨c, hc, hbad⟩
      have := hdig c hc
      simp at hbad
      omega
    have hat := atoi_digits (cstr text) hdig hlen
    simp only [checkValidNumParm, hne', if_false, hany, hat]
    by_cases hlo : (decVal (cstr text) : Int) < lo
    · have : clamp (decVal (cstr text)) lo hi = lo := by
        unfold clamp; omega
      simp [hlo, this]
    · by_cases hhi : (decVal (cstr text) : Int) > hi
      · have : clamp (decVal (cstr text)) lo hi = hi := by
          unfold clamp; omega
        simp [hlo, hhi, this]
      · have : clamp (decVal (cstr text)) lo hi = (decVal (cstr text) : Int) := by
          unfold clamp; omega
        simp [hlo, hhi, this]

set_option maxRecDepth 4000 in
/-- C10 at a concrete input: `"42"` with range [0,15] and default 15 is
clamped to `"15"` and reported changed. -/
theorem C10_checkValidNumParm_witness :
    (0 : Int) ≤ 15 ∧ (cstr (lit "42")).length ≤ 9 ∧
    checkValidNumParm (lit "42") 0 15 15 =
      (fmtInt (clamp (decVal (cstr (lit "42"))) 0 15),
        decide ((decVal (cstr (lit "42")) : Int) < 0 ∨ (decVal (cstr (lit "42")) : Int) > 15)) :=
  ⟨by decide, by decide,
   (C10_checkValidNumParm (lit "42") 0 15 15 (by decide) (by decide)
      (by decide)).2.1 (by decide) (by decide)⟩

/-! ## C11: absent numeric input -/

/-- C11, as stated, fails: with an absent source the field is not rewritten
to the default; a field holding `"7"` still holds `"7"` (range [0,15],
default 15), and `true` is returned. -/
theorem C11_counterexample :
    CopyCheckValidNumParm none (lit "7" ++ [0]) 2 0 15 15 = (lit "7", true) ∧
    lit "7" ≠ fmtInt 15 := by
  decide

/-- C11, amended: for every field content and all bounds and defaults,
`CopyCheckValidNumParm` called with an absent (null) source returns `true`
(changed) and leaves the field as it was; the field holds the decimal
rendering of the default only if it held it before the call. -/
theorem C11_absent_keeps_field (text : List Byte) (psize : Nat) (lo hi dflt : Int) :
    CopyCheckValidNumParm none text psize lo hi dflt = (cstr text, true) ∧
    numField none text lo hi dflt = (text, true) := by
  exact ⟨rfl, rfl⟩

/-! ## C12: free-text field copy -/

theorem strncpyField_length (j : List Byte) (n : Nat) :
    (strncpyField j n).length = n := by
  simp [strncpyField]

/-- C12: for every source and every field of `setSize ≥ 1` bytes,
`CopyTextParm` returns `true` iff the source is absent (null), and then the
field is unchanged; otherwise it returns `false` (also for the empty string)
and the `setSize` bytes of the field become the first
`min(strlen(src), setSize-1)` bytes of the source, byte for byte, followed by
zero bytes up to `setSize`. -/
theorem C12_CopyTextParm (json : Option (List Byte)) (setting : List Byte) (setSize : Nat)
    (_hsize : 1 ≤ setSize) :
    ((CopyTextParm json setting setSize).2 = true ↔ json = none) ∧
    (json = none → (CopyTextParm json setting setSize).1 = setting) ∧
    (∀ src, json = some src →
      (CopyTextParm json setting setSize).2 = false ∧
      (CopyTextParm json setting setSize).1.length = setSize ∧
      (CopyTextParm json setting setSize).1 =
        (cstr src).take (min (cstr src).length (setSize - 1)) ++
          List.replicate (setSize - min (cstr src).length (setSize - 1)) 0) := by
  cases json with
  | none => simp [CopyTextParm]
  | some j =>
    refine ⟨by simp [CopyTextParm], by simp, ?_⟩
    intro src hsrc
    cases hsrc
    refine ⟨rfl, strncpyField_length j setSize, ?_⟩
    simp only [CopyTextParm, strncpyField, List.length_take]
    have h : List.take (cstr j).length (List.take (setSize - 1) (cstr j)) =
        List.take (setSize - 1) (cstr j) :=
      List.take_of_length_le (by simp)
    rw [Nat.min_comm, ← List.take_take, h, Nat.min_comm]

/-- C12 at concrete inputs: `"abcdef"` copied into a field of 4 bytes, and the
empty string. -/
theorem C12_CopyTextParm_witness :
    CopyTextParm (some (lit "abcdef")) [9, 9, 9, 9] 4 = (lit "abc" ++ [0], false) ∧
    CopyTextParm (some []) [9, 9, 9, 9] 4 = ([0, 0, 0, 0], false) ∧
    ((CopyTextParm none [9, 9, 9, 9] 4).2 = true ↔ (none : Option (List Byte)) = none) :=
  ⟨by decide, by decide, (C12_CopyTextParm none [9, 9, 9, 9] 4 (by decide)).1⟩

/-! ## The characters of a decimal rendering -/

theorem digitChar_ne_zero (d : Nat) (hd : d < 10) : (Nat.digitChar d).toNat % 256 ≠ 0 := by
  interval_cases d <;> decide

theorem toDigitsCore_ne_zero (fuel n : Nat) (ds : List Char)
    (hds : ∀ c ∈ ds, c.toNat % 256 ≠ 0) :
    ∀ c ∈ Nat.toDigitsCore 10 fuel n ds, c.toNat % 256 ≠ 0 := by
  induction fuel generalizing n ds with
  | zero => simpa [Nat.toDigitsCore] using hds
  | succ k ih =>
    have hd := digitChar_ne_zero (n % 10) (Nat.mod_lt _ (by decide))
    have hcons : ∀ c ∈ Nat.digitChar (n % 10) :: ds, c.toNat % 256 ≠ 0 := by
      intro c hc
      rcases List.mem_cons.mp hc with rfl | h
      · exact hd
      · exact hds c h
    unfold Nat.toDigitsCore
    simp only []
    split
    · exact hcons
    · exact ih (n / 10) _ hcons

/-- A decimal rendering contains no zero byte. -/
theorem fmtInt_ne_zero (i : Int) : ∀ c ∈ fmtInt i, c ≠ 0 := by
  have hdig : ∀ c ∈ (Nat.toDigits 10 i.natAbs).map
      (fun c => (⟨c.toNat % 256, Nat.mod_lt _ (by decide)⟩ : Byte)), c ≠ 0 := by
    intro c hc
    rcases List.mem_map.mp hc with ⟨x, hx, rfl⟩
    have := toDigitsCore_ne_zero (i.natAbs + 1) i.natAbs [] (by simp) x hx
    intro h
    exact this (congrArg Fin.val h)
  intro c hc
  unfold fmtInt at hc
  simp only [] at hc
  split at hc
  · rcases List.mem_cons.mp hc with rfl | h
    · decide
    · exact hdig c h
  · exact hdig c hc

theorem cstr_append_zero (s rest : List Byte) (hs : ∀ c ∈ s, c ≠ 0) :
    cstr (s ++ [0] ++ rest) = s := by
  induction s with
  | nil => simp [cstr]
  | cons a t ih =>
    have ha : a ≠ 0 := hs a (List.mem_cons_self _ _)
    have := ih (fun c hc => hs c (List.mem_cons_of_mem _ hc))
    simp only [cstr, List.cons_append, List.append_assoc] at this ⊢
    rw [List.takeWhile_cons_of_pos (by simpa using ha), this]

/-- The value `checkValidNumParm` leaves in the text lies in the declared
range when the default does. -/
theorem checkValidNumParm_range (text : List Byte) (lo hi dflt : Int)
    (h1 : lo ≤ dflt) (h2 : dflt ≤ hi) :
    ∃ v : Int, lo ≤ v ∧ v ≤ hi ∧ (checkValidNumParm text lo hi dflt).1 = fmtInt v := by
  unfold checkValidNumParm
  simp only []
  split
  · exact ⟨dflt, h1, h2, rfl⟩
  · split
    · exact ⟨dflt, h1, h2, rfl⟩
    · split
      · exact ⟨lo, le_refl _, le_trans h1 h2, rfl⟩
      · split
        · exact ⟨hi, le_trans h1 h2, le_refl _, rfl⟩
        · rename_i h3 h4
          exact ⟨atoi (cstr text), not_lt.mp h3, not_lt.mp h4, rfl⟩

theorem numField_range (s field : List Byte) (lo hi dflt : Int)
    (h1 : lo ≤ dflt) (h2 : dflt ≤ hi) :
    ∃ v : Int, lo ≤ v ∧ v ≤ hi ∧ cstr (numField (some s) field lo hi dflt).1 = fmtInt v := by
  obtain ⟨v, hlo, hhi, hv⟩ :=
    checkValidNumParm_range (strncpyField s field.length) lo hi dflt h1 h2
  refine ⟨v, hlo, hhi, ?_⟩
  simp only [numField, CopyCheckValidNumParm, storeCStr, hv]
  exact cstr_append_zero _ _ (fmtInt_ne_zero v)

/-! ## C13: declared ranges of the primary document -/

theorem read_settings_settings (J : JsonLib) (D : Defaults) (w : World) (file : List Byte)
    (cnt : Nat) (json : JsonObj) (hparse : J.parse file = some json)
    (w' : World) (wd : Bool) (hr : read_settings J D w file cnt = some (w', wd)) :
    ∃ s1, w'.settings = (readFields json D s1).1 := by
  unfold read_settings at hr
  simp only [hparse] at hr
  cases hw : readWifi json w.settings cnt with
  | none => simp [hw] at hr
  | some r =>
    obtain ⟨s1, wd1⟩ := r
    simp only [hw, Option.some.injEq, Prod.mk.injEq] at hr
    exact ⟨s1, by rw [← hr.1]⟩

/-- C13: after `read_settings` on a well-formed document, every numeric field
that is present in the document as a string holds the decimal rendering of an
integer inside its declared range (`wifiConRetries` in [1,10],
`wifiConTimeout` in [7,25], `apch` in [0,11], `wAOD` in [0,99], `ssTimer` in
[0,999], every toggle in {0,1}), provided each compiled default lies inside
its range; and `read_settings` returns whenever the members `ssid` and `pass`
are strings or absent. -/
theorem C13_declared_ranges (J : JsonLib) (D : Defaults) (w : World) (file : List Byte)
    (cnt : Nat) (json : JsonObj) (hparse : J.parse file = some json)
    (hD : ∀ f ∈ numericFields D, f.lo ≤ f.dflt ∧ f.dflt ≤ f.hi) :
    ((∀ k, k = "ssid" ∨ k = "pass" → json.get k = none ∨ ∃ s, json.get k = some (JVal.str s)) →
      ∃ r, read_settings J D w file cnt = some r) ∧
    ∀ w' wd, read_settings J D w file cnt = some (w', wd) →
      ∀ f ∈ numericFields D, ∀ s, asCStr (json.get f.key) = some s →
        ∃ v : Int, f.lo ≤ v ∧ v ≤ f.hi ∧ cstr (f.field w'.settings) = fmtInt v := by
  constructor
  · intro hstr
    have hw : ∃ r, readWifi json w.settings cnt = some r := by
      unfold readWifi
      rcases hstr "ssid" (Or.inl rfl) with h1 | ⟨s, h1⟩ <;>
        rcases hstr "pass" (Or.inr rfl) with h2 | ⟨p, h2⟩ <;>
        simp only [h1, h2, asBool, asCStr, Bool.false_eq_true, if_false, if_true] <;>
        split_ifs <;> exact ⟨_, rfl⟩
    obtain ⟨⟨s1, wd1⟩, hw⟩ := hw
    unfold read_settings
    simp only [hparse, hw]
    exact ⟨_, rfl⟩
  · intro w' wd hr f hf s hs
    obtain ⟨s1, hset⟩ := read_settings_settings J D w file cnt json hparse w' wd hr
    obtain ⟨h1, h2⟩ := hD f hf
    rw [hset]
    simp only [numericFields, List.mem_cons, List.mem_singleton, List.not_mem_nil,
      or_false] at hf
    rcases hf with rfl | rfl | rfl | rfl | rfl | rfl | rfl | rfl | rfl | rfl | rfl | rfl |
      rfl | rfl | rfl | rfl | rfl | rfl <;>
    · simp only [] at hs h1 h2 ⊢
      simp only [readFields, hs]
      exact numField_range s _ _ _ _ h1 h2

/-- C13 at a concrete document: `wifiConRetries` given as `"99"`. -/
theorem C13_declared_ranges_witness :
    ∃ r, read_settings (constJson rangeDoc) sampleDefaults
        { flashWorld with settings := zeroSettings } (lit "doc") 0 = some r ∧
      ∃ v : Int, 1 ≤ v ∧ v ≤ 10 ∧ cstr r.1.settings.wifiConRetries = fmtInt v := by
  have h := C13_declared_ranges (constJson rangeDoc) sampleDefaults
    { flashWorld with settings := zeroSettings } (lit "doc") 0 rangeDoc rfl (by decide)
  obtain ⟨r, hr⟩ := h.1 (by
    rintro k (rfl | rfl)
    · exact Or.inl (by decide)
    · exact Or.inl (by decide))
  exact ⟨r, hr, h.2 r.1 r.2 hr ⟨"wifiConRetries", Settings.wifiConRetries, 1, 10, 3⟩
    (by simp [numericFields, sampleDefaults]) (lit "99") (by decide)⟩

/-! ## C14: read-only-flash mode -/

/-- C14 fails on the code: in read-only-flash mode with both media mounted,
`moveSettings` (which prints "aborting" but does not return) writes the
secondary record to the flash file system. -/
theorem C14_moveSettings_writes_flash :
    roWorld.FlashROMode = true ∧
    fsExists roWorld secCfgName = false ∧
    (moveSettings id (fun _ => []) roWorld).fs.wlog =
      [(secCfgName, frameRecord roWorld.secSettings.bytes)] ∧
    fsExists (moveSettings id (fun _ => []) roWorld) secCfgName = true := by
  decide

/-! ## C15: no medium available -/

theorem saveConfigFile_no_medium (w : World) (fn : String) (P : List Byte) (forcefs : Int)
    (hfs : w.haveFS = false) (hsd : w.haveSD = false) :
    saveConfigFile w fn P forcefs = (w, false) := by
  unfold saveConfigFile writeFileToSD writeFileToFS
  simp [hfs, hsd]

theorem writeJSONCfgFile_no_medium (w : World) (buf : List Byte) (fn : String) (useSD : Bool)
    (oldHash : Nat) (newHash : Option Nat)
    (hfs : w.haveFS = false) (hsd : w.haveSD = false) :
    (writeJSONCfgFile w buf fn useSD oldHash newHash).1 = w := by
  unfold writeJSONCfgFile writeFileToSD writeFileToFS
  simp only [hfs, hsd]
  split
  · rfl
  · cases useSD <;> rfl

theorem deleteIRKeys_no_medium (w : World) (hfs : w.haveFS = false) (hsd : w.haveSD = false) :
    deleteIRKeys w = w := by
  unfold deleteIRKeys sdRemove fsRemove
  simp [hfs, hsd]

/-- C15: with no medium available (`haveFS = false` and `haveSD = false`),
each of `write_settings`, `saveSecSettings`, `saveTerSettings`,
`writeIpSettings`, `saveId` and `saveIRKeys` returns with both file systems
as they were, and `loadConfigFile` returns `false` leaving the caller's
structure and `validBytes` unchanged. -/
theorem C15_no_medium (ser : JsonDoc → List Byte) (w : World) (useCache : Bool)
    (hfs : w.haveFS = false) (hsd : w.haveSD = false) :
    ((write_settings ser w).fs = w.fs ∧ (write_settings ser w).sd = w.sd) ∧
    ((saveSecSettings w useCache).1.fs = w.fs ∧ (saveSecSettings w useCache).1.sd = w.sd) ∧
    ((saveTerSettings w useCache).1.fs = w.fs ∧ (saveTerSettings w useCache).1.sd = w.sd) ∧
    ((writeIpSettings w).fs = w.fs ∧ (writeIpSettings w).sd = w.sd) ∧
    ((saveId w).fs = w.fs ∧ (saveId w).sd = w.sd) ∧
    ((saveIRKeys ser w).fs = w.fs ∧ (saveIRKeys ser w).sd = w.sd) ∧
    ∀ (fn : String) (buf : List Byte) (validBytes : Nat) (forcefs : Int),
      loadConfigFile w fn buf validBytes forcefs =
        some { ret := false, buf := buf, validBytes := validBytes } := by
  refine ⟨?_, ?_, ?_, ?_, ?_, ?_, ?_⟩
  · unfold write_settings
    split
    · exact ⟨rfl, rfl⟩
    · simp only []
      rw [writeJSONCfgFile_no_medium _ _ _ _ _ _ hfs hsd]
      exact ⟨rfl, rfl⟩
  · unfold saveSecSettings
    simp only []
    split
    · exact ⟨rfl, rfl⟩
    · rw [saveConfigFile_no_medium { w with secSettingsHash := calcHash w.secSettings.bytes }
        _ _ _ hfs hsd]
      exact ⟨rfl, rfl⟩
  · unfold saveTerSettings
    simp [hsd]
  · unfold writeIpSettings
    split
    · exact ⟨rfl, rfl⟩
    · split
      · exact ⟨rfl, rfl⟩
      · simp only []
        split
        · exact ⟨rfl, rfl⟩
        · rw [saveConfigFile_no_medium { w with ipHash := calcHash w.ipsettings.bytes }
            _ _ _ hfs hsd]
          exact ⟨rfl, rfl⟩
  · unfold saveId
    split
    · exact ⟨rfl, rfl⟩
    · rw [saveConfigFile_no_medium _ _ _ _ hfs hsd]
      exact ⟨rfl, rfl⟩
  · unfold saveIRKeys
    split
    · exact ⟨rfl, rfl⟩
    · simp only []
      split
      · rw [deleteIRKeys_no_medium w hfs hsd]
        exact ⟨rfl, rfl⟩
      · rw [writeJSONCfgFile_no_medium _ _ _ _ _ _ hfs hsd]
        exact ⟨rfl, rfl⟩
  · intro fn buf validBytes forcefs
    simp [loadConfigFile, loadSource, hfs, hsd]

/-- C15 at a concrete state: the sample state has no medium, also with
`configOnSD` and `FlashROMode` still set. -/
theorem C15_no_medium_witness :
    (saveIRKeys (fun _ => [])
      { sampleWorld with configOnSD := true, FlashROMode := true }).sd = sampleWorld.sd ∧
    (write_settings (fun _ => [])
      { sampleWorld with configOnSD := true, FlashROMode := true }).fs = sampleWorld.fs :=
  ⟨(C15_no_medium (fun _ => [])
      { sampleWorld with configOnSD := true, FlashROMode := true } true rfl rfl).2.2.2.2.2.1.2,
   (C15_no_medium (fun _ => [])
      { sampleWorld with configOnSD := true, FlashROMode := true } true rfl rfl).1.1⟩

/-! ## C16: a freshly generated identity -/

/-- C16, as stated, fails: the random values 1, 2, 3 give the identity 0. -/
theorem C16_counterexample : createId 1 2 3 = 0 := by
  decide

theorem loadId_empty (J : JsonLib) (w : World)
    (hfs : w.fs.files = []) (hsd : w.sd.files = []) :
    loadId J w = some (w, false) := by
  have hsrc : loadSource w idName (-1) = none := by
    simp [loadSource, readFileFromSDU, readFileFromFSU, readFileU, Medium.fexists, hfs, hsd,
      lookupFile]
  have h1 : fsExists w idNameO = false := by
    simp [fsExists, Medium.fexists, hfs, lookupFile]
  have h2 : sdExists w idNameO = false := by
    simp [sdExists, Medium.fexists, hsd, lookupFile]
  simp [loadId, loadConfigFile, hsrc, h1, h2]

theorem saveId_myRemID (w : World) : (saveId w).myRemID = w.myRemID := by
  unfold saveId
  split
  · rfl
  · rw [saveConfigFile_frame]

/-- C16, amended: `createId` returns the exclusive-or of the three random
values, which is zero exactly when the third equals the exclusive-or of the
first two, so a fresh identity is not always non-zero; on storage without any
file, the Remote-ID step of `settings_setup` leaves `myRemID` equal to that
value. -/
theorem C16_createId (r1 r2 r3 : Nat)
    (h1 : r1 < 4294967296) (h2 : r2 < 4294967296) (h3 : r3 < 4294967296) :
    (createId r1 r2 r3 = 0 ↔ r3 = r1 ^^^ r2) ∧
    ∀ (J : JsonLib) (w : World), w.fs.files = [] → w.sd.files = [] →
      ∃ w', setupRemoteId J r1 r2 r3 w = some w' ∧ w'.myRemID = createId r1 r2 r3 := by
  constructor
  · have hlt : r1 ^^^ r2 ^^^ r3 < 2 ^ 32 :=
      Nat.xor_lt_two_pow (Nat.xor_lt_two_pow h1 h2) h3
    have hm : createId r1 r2 r3 = r1 ^^^ r2 ^^^ r3 := by
      unfold createId
      exact Nat.mod_eq_of_lt hlt
    rw [hm, Nat.xor_eq_zero]
    exact eq_comm
  · intro J w hfs hsd
    refine ⟨saveId { w with myRemID := createId r1 r2 r3 }, ?_, ?_⟩
    · simp [setupRemoteId, loadId_empty J w hfs hsd]
    · rw [saveId_myRemID]

/-- C16 amended, at concrete inputs: the values 1, 2, 4 give the identity 7. -/
theorem C16_createId_witness :
    (createId 1 2 4 = 0 ↔ 4 = 1 ^^^ 2) ∧
    ∃ w', setupRemoteId ⟨fun _ => none, fun _ => 0⟩ 1 2 4 flashWorld = some w' ∧
      w'.myRemID = createId 1 2 4 :=
  ⟨(C16_createId 1 2 4 (by decide) (by decide) (by decide)).1,
   (C16_createId 1 2 4 (by decide) (by decide) (by decide)).2 ⟨fun _ => none, fun _ => 0⟩
     flashWorld rfl rfl⟩

/-! ## C17: the identity is generated once -/

/-- The file `loadConfigFile` gets hold of depends on the medium flags and on
the two media only. -/
theorem loadSource_congr (w w2 : World) (fn : String) (forcefs : Int)
    (h1 : w2.haveFS = w.haveFS) (h2 : w2.haveSD = w.haveSD)
    (h3 : w2.configOnSD = w.configOnSD) (h4 : w2.FlashROMode = w.FlashROMode)
    (h5 : w2.fs = w.fs) (h6 : w2.sd = w.sd) :
    loadSource w2 fn forcefs = loadSource w fn forcefs := by
  simp only [loadSource, sdSelected, readFileFromSDU, readFileFromFSU, h1, h2, h3, h4, h5, h6]

theorem u32of_u32bytes (v : Nat) (hv : v < 4294967296) : u32of (u32bytes v) = v := by
  simp [u32of, u32bytes]
  omega

theorem saveId_of_ok (w : World)
    (hok : (saveConfigFile w idName (u32bytes w.myRemID) (-1)).2 = true) :
    saveId w = (saveConfigFile w idName (u32bytes w.myRemID) (-1)).1 := by
  unfold saveId
  split
  · rename_i hg
    exfalso
    simp only [Bool.and_eq_true, Bool.not_eq_true'] at hg
    simp [saveConfigFile, sdSelected, hg.1, hg.2] at hok
  · rfl

/-- C17: if a boot created the identity `v` (`myRemID = v`) and the write of
`saveId` succeeded, then at the next boot, with both media and the medium
flags as `saveId` left them, `loadId` returns `true` with `myRemID = v`, and
the Remote-ID step of `settings_setup` ends with that identity and both media
untouched: `createId` and `saveId` are not invoked. -/
theorem C17_identity_generated_once (J : JsonLib) (w : World)
    (hv : w.myRemID < 4294967296)
    (hok : (saveConfigFile w idName (u32bytes w.myRemID) (-1)).2 = true)
    (w2 : World)
    (h1 : w2.haveFS = w.haveFS) (h2 : w2.haveSD = w.haveSD)
    (h3 : w2.configOnSD = w.configOnSD) (h4 : w2.FlashROMode = w.FlashROMode)
    (h5 : w2.fs = (saveId w).fs) (h6 : w2.sd = (saveId w).sd) (r1 r2 r3 : Nat) :
    loadId J w2 = some ({ w2 with myRemID := w.myRemID }, true) ∧
    setupRemoteId J r1 r2 r3 w2 = some { w2 with myRemID := w.myRemID } := by
  have hsave := saveId_of_ok w hok
  have hsrc : loadSource w2 idName (-1) = some (frameRecord (u32bytes w.myRemID)) := by
    rw [← loadSource_after_save w idName (u32bytes w.myRemID) (-1) hok]
    apply loadSource_congr
    · rw [h1, saveConfigFile_frame]
    · rw [h2, saveConfigFile_frame]
    · rw [h3, saveConfigFile_frame]
    · rw [h4, saveConfigFile_frame]
    · rw [h5, hsave]
    · rw [h6, hsave]
  have hload : loadConfigFile w2 idName (u32bytes 0) 0 (-1) =
      some { ret := true, buf := u32bytes w.myRemID, validBytes := 4 } := by
    unfold loadConfigFile
    rw [hsrc]
    simp only []
    rw [decodeRecord_frame _ _ _ (by simp [u32bytes])]
    simp [u32bytes]
  have hid : loadId J w2 = some ({ w2 with myRemID := w.myRemID }, true) := by
    unfold loadId
    rw [hload]
    simp [u32of_u32bytes w.myRemID hv]
  refine ⟨hid, ?_⟩
  unfold setupRemoteId
  rw [hid]
  rfl

/-- C17 at a concrete state: identity 7 saved to flash, next boot with
`myRemID` reset to 0. -/
theorem C17_identity_generated_once_witness :
    loadId noJson { saveId { flashWorld with myRemID := 7 } with myRemID := 0 } =
      some ({ saveId { flashWorld with myRemID := 7 } with myRemID := 7 }, true) ∧
    setupRemoteId noJson 1 2 4 { saveId { flashWorld with myRemID := 7 } with myRemID := 0 } =
      some { saveId { flashWorld with myRemID := 7 } with myRemID := 7 } :=
  C17_identity_generated_once noJson { flashWorld with myRemID := 7 } (by decide) (by decide)
    { saveId { flashWorld with myRemID := 7 } with myRemID := 0 }
    (by decide) (by decide) (by decide) (by decide) rfl rfl 1 2 4

/-! ## Removing files -/

theorem lookupFile_eraseFile (fs : List (String × FileEnt)) (fn : String) :
    lookupFile (eraseFile fs fn) fn = none := by
  induction fs with
  | nil => rfl
  | cons e rest ih =>
    obtain ⟨n, d⟩ := e
    by_cases h : n = fn
    · simp [eraseFile, h, ih]
    · simp [eraseFile, lookupFile, h, ih]

theorem lookupFile_eraseFile_ne (fs : List (String × FileEnt)) (fn other : String)
    (hne : fn ≠ other) :
    lookupFile (eraseFile fs other) fn = lookupFile fs fn := by
  induction fs with
  | nil => rfl
  | cons e rest ih =>
    obtain ⟨n, d⟩ := e
    by_cases h : n = other
    · have hnf : ¬ n = fn := fun h2 => hne (h2.symm.trans h)
      simp only [eraseFile, lookupFile, h, if_true, ih]
      rw [if_neg (fun h3 => hne h3.symm)]
    · by_cases h2 : n = fn
      · subst h2
        simp only [eraseFile, lookupFile, h, if_false, if_true]
      · simp only [eraseFile, lookupFile, h, h2, if_false, ih]

theorem sdExists_sdRemove (w : World) (fn : String) : sdExists (sdRemove w fn) fn = false := by
  unfold sdRemove sdExists
  cases h : w.haveSD
  · simp [h]
  · simp [h, Medium.fexists, Medium.remove, lookupFile_eraseFile]

theorem fsExists_fsRemove (w : World) (fn : String) : fsExists (fsRemove w fn) fn = false := by
  unfold fsRemove fsExists
  cases h : w.haveFS
  · simp [h]
  · simp [h, Medium.fexists, Medium.remove, lookupFile_eraseFile]

theorem deleteIRKeys_effect (w : World) :
    physWrites (deleteIRKeys w) = physWrites w ∧
    (w.configOnSD = true → sdExists (deleteIRKeys w) irCfgName = false) ∧
    (w.configOnSD = false → fsExists (deleteIRKeys w) irCfgName = false) := by
  unfold deleteIRKeys
  cases hc : w.configOnSD
  · cases hf : w.haveFS
    · simp [fsExists, hf, physWrites]
    · simp only [Bool.false_eq_true, if_false, if_true]
      refine ⟨?_, by simp, fun _ => fsExists_fsRemove w irCfgName⟩
      simp [fsRemove, hf, physWrites, Medium.remove]
  · simp only [if_true]
    refine ⟨?_, fun _ => sdExists_sdRemove w irCfgName, by simp⟩
    unfold sdRemove
    cases hs : w.haveSD <;> simp [physWrites, Medium.remove]

/-! ## C18: migration of a legacy secondary setting -/

theorem readFileU_remove_ne (m : Medium) (fn other : String) (hne : fn ≠ other) :
    readFileU (m.remove other) fn = readFileU m fn := by
  simp only [readFileU, Medium.remove, lookupFile_eraseFile_ne _ _ _ hne]

theorem fexists_remove_ne (m : Medium) (fn other : String) (hne : fn ≠ other) :
    (m.remove other).fexists fn = m.fexists fn := by
  simp only [Medium.fexists, Medium.remove, lookupFile_eraseFile_ne _ _ _ hne]

/-- Removing a legacy file does not change what `loadConfigFile` finds under
another name. -/
theorem loadSource_removeOldFiles (w : World) (fn other : String) (forcefs : Int)
    (hne : fn ≠ other) :
    loadSource (removeOldFiles w other) fn forcefs = loadSource w fn forcefs := by
  unfold removeOldFiles sdRemove fsRemove
  cases hsd : w.haveSD <;> cases hfs : w.haveFS <;>
    simp [loadSource, sdSelected, readFileFromSDU, readFileFromFSU, hsd, hfs,
      readFileU_remove_ne _ _ _ hne, fexists_remove_ne _ _ _ hne]

theorem removeOldFiles_gone (w : World) (other : String) :
    sdExists (removeOldFiles w other) other = false ∧
    fsExists (removeOldFiles w other) other = false := by
  unfold removeOldFiles sdRemove fsRemove sdExists fsExists
  cases hsd : w.haveSD <;> cases hfs : w.haveFS <;>
    simp [hsd, hfs, Medium.fexists, Medium.remove, lookupFile_eraseFile]

theorem removeOldFiles_frame (w : World) (other : String) :
    removeOldFiles w other =
      { w with fs := (removeOldFiles w other).fs, sd := (removeOldFiles w other).sd } := by
  cases w
  unfold removeOldFiles sdRemove fsRemove
  simp only []
  split <;> split <;> rfl

/-- A cached save that misses the cache and succeeds, followed by the removal
of a legacy file: the secondary record decodes to the saved content and the
legacy file is gone from both media. -/
theorem saved_then_removed (w1 : World) (other : String) (hne : secCfgName ≠ other)
    (hmiss : w1.secSettingsHash ≠ calcHash w1.secSettings.bytes)
    (hok : (saveSecSettings w1 true).2 = true) :
    (∀ (buf : List Byte) (vb : Nat), buf.length = 8 →
      loadConfigFile (removeOldFiles (saveSecSettings w1 true).1 other) secCfgName buf vb 0 =
        some { ret := true, buf := w1.secSettings.bytes, validBytes := 8 }) ∧
    sdExists (removeOldFiles (saveSecSettings w1 true).1 other) other = false ∧
    fsExists (removeOldFiles (saveSecSettings w1 true).1 other) other = false ∧
    (removeOldFiles (saveSecSettings w1 true).1 other).secSettings = w1.secSettings ∧
    (removeOldFiles (saveSecSettings w1 true).1 other).irLocked = w1.irLocked ∧
    (removeOldFiles (saveSecSettings w1 true).1 other).sidBrightness = w1.sidBrightness := by
  have hc : (true && w1.secSettingsHash == calcHash w1.secSettings.bytes) = false := by
    simpa using hmiss
  have hs : saveSecSettings w1 true =
      saveConfigFile { w1 with secSettingsHash := calcHash w1.secSettings.bytes } secCfgName
        w1.secSettings.bytes 0 := by
    unfold saveSecSettings
    simp only [hc, Bool.false_eq_true, if_false]
  rw [hs] at hok ⊢
  have hsrc := loadSource_after_save _ secCfgName w1.secSettings.bytes 0 hok
  refine ⟨?_, (removeOldFiles_gone _ other).1, (removeOldFiles_gone _ other).2, ?_, ?_, ?_⟩
  · intro buf vb hbuf
    unfold loadConfigFile
    rw [loadSource_removeOldFiles _ _ _ _ hne, hsrc]
    simp only []
    rw [decodeRecord_frame _ _ _ (by simp [SecSettings.bytes])]
    simp [hbuf, SecSettings.bytes]
  · rw [removeOldFiles_frame, saveConfigFile_frame]
  · rw [removeOldFiles_frame, saveConfigFile_frame]
  · rw [removeOldFiles_frame, saveConfigFile_frame]

theorem lock_value_valid (v : Nat) (hv : v ≤ 1) :
    CopyCheckValidNumParm (some (fmtInt v)) [] 6 0 1 0 = (fmtInt v, false) ∧
    decide (atoi (fmtInt v) > 0) = decide (v = 1) := by
  interval_cases v <;> decide

set_option maxRecDepth 4000 in
theorem brightness_value_valid (v : Nat) (hv : v ≤ 15) :
    CopyCheckValidNumParm (some (fmtInt v)) [] 6 0 15 15 = (fmtInt v, false) ∧
    (atoi (fmtInt v)).toNat % 256 = v := by
  interval_cases v <;> decide

theorem openCfgFileRead_guard (w : World) (fn : String) (file : List Byte)
    (h : openCfgFileRead w fn false = some file) :
    (!w.haveFS && !w.configOnSD) = false := by
  cases hfs : w.haveFS <;> cases hc : w.configOnSD <;>
    simp [openCfgFileRead, hfs, hc] at h ⊢

/-- C18, as stated, fails: with secondary settings kept on flash
(`configOnSD` false) and the legacy IR-lock file present on the SD card only,
`loadIRLock` does not read it: `irLocked` stays `false` although the file
says `1`, no `/sid2cfg` is written, and the legacy file is removed. -/
theorem C18_counterexample :
    openCfgFileRead { flashWorld with haveSD := true, sd := mediumWith irlCfgName (lit "lock") }
      irlCfgName false = none ∧
    (loadIRLock (constJson [("lock", JVal.str (lit "1"))])
      { flashWorld with haveSD := true, sd := mediumWith irlCfgName (lit "lock") }).irLocked
      = false ∧
    fsExists (loadIRLock (constJson [("lock", JVal.str (lit "1"))])
      { flashWorld with haveSD := true, sd := mediumWith irlCfgName (lit "lock") })
      secCfgName = false ∧
    sdExists (loadIRLock (constJson [("lock", JVal.str (lit "1"))])
      { flashWorld with haveSD := true, sd := mediumWith irlCfgName (lit "lock") })
      secCfgName = false ∧
    sdExists (loadIRLock (constJson [("lock", JVal.str (lit "1"))])
      { flashWorld with haveSD := true, sd := mediumWith irlCfgName (lit "lock") })
      irlCfgName = false := by
  decide

/-- C18, amended: given no current secondary record (`haveSecSettings` false)
and a legacy IR-lock document `/sidirlcfg.json` on the medium
`openCfgFileRead` consults (the SD card if `configOnSD`, else, or if it is
not there, flash) with a valid `"lock"` value `v` in {0,1}, and given that the
cached hash differs from the hash of the new content and the write succeeds,
`loadIRLock` sets `irLocked` to `(v = 1)`, afterwards the record `/sid2cfg`
decodes to the secondary settings with `irLocked = v`, and the legacy file
exists on neither medium.  The same holds for `loadBrightness` with
`/sidbricfg.json` and a `"brightness"` value in 0..15. -/
theorem C18_legacy_migration (J : JsonLib) (w : World) (file : List Byte) (json : JsonObj)
    (v : Nat) (hsec : w.haveSecSettings = false) (hparse : J.parse file = some json) :
    (openCfgFileRead w irlCfgName false = some file → v ≤ 1 →
      asCStr (json.get "lock") = some (fmtInt v) →
      w.secSettingsHash ≠
        calcHash (storeIRLock { w with irLocked := decide (v = 1) }).secSettings.bytes →
      (saveSecSettings (storeIRLock { w with irLocked := decide (v = 1) }) true).2 = true →
      (loadIRLock J w).irLocked = decide (v = 1) ∧
      (loadIRLock J w).secSettings.irLocked.val = v ∧
      (∀ (buf : List Byte) (vb : Nat), buf.length = 8 →
        loadConfigFile (loadIRLock J w) secCfgName buf vb 0 =
          some { ret := true, buf := (loadIRLock J w).secSettings.bytes, validBytes := 8 }) ∧
      sdExists (loadIRLock J w) irlCfgName = false ∧
      fsExists (loadIRLock J w) irlCfgName = false) ∧
    (openCfgFileRead w briCfgName false = some file → v ≤ 15 →
      asCStr (json.get "brightness") = some (fmtInt v) →
      w.secSettingsHash ≠
        calcHash (storeBrightness (sidSetBrightness w v)).secSettings.bytes →
      (saveSecSettings (storeBrightness (sidSetBrightness w v)) true).2 = true →
      (loadBrightness J w).sidBrightness = v ∧
      (loadBrightness J w).secSettings.brightness.val = v ∧
      (∀ (buf : List Byte) (vb : Nat), buf.length = 8 →
        loadConfigFile (loadBrightness J w) secCfgName buf vb 0 =
          some { ret := true, buf := (loadBrightness J w).secSettings.bytes,
                 validBytes := 8 }) ∧
      sdExists (loadBrightness J w) briCfgName = false ∧
      fsExists (loadBrightness J w) briCfgName = false) := by
  constructor
  · intro hopen hv hlock hmiss hok
    obtain ⟨hval, hat⟩ := lock_value_valid v hv
    have hg := openCfgFileRead_guard w irlCfgName file hopen
    have hrun : loadIRLock J w =
        removeOldFiles
          (saveSecSettings (storeIRLock { w with irLocked := decide (v = 1) }) true).1
          irlCfgName := by
      unfold loadIRLock
      simp only [hsec, hg, hopen, hparse, hlock, hval, hat, saveIRLock, Bool.false_eq_true,
        if_false, Bool.not_false, if_true]
    obtain ⟨h1, h2, h3, h4, h5, _⟩ :=
      saved_then_removed (storeIRLock { w with irLocked := decide (v = 1) }) irlCfgName
        (by decide) hmiss hok
    rw [hrun]
    refine ⟨?_, ?_, ?_, h2, h3⟩
    · rw [h5]; rfl
    · rw [h4]
      simp only [storeIRLock]
      interval_cases v <;> rfl
    · intro buf vb hb
      rw [h4]
      exact h1 buf vb hb
  · intro hopen hv hbri hmiss hok
    obtain ⟨hval, hat⟩ := brightness_value_valid v hv
    have hg := openCfgFileRead_guard w briCfgName file hopen
    have hset : sidSetBrightness w (atoi (fmtInt v)).toNat = sidSetBrightness w v := by
      unfold sidSetBrightness
      rw [hat]
      have : v % 256 = v := by omega
      rw [this]
    have hrun : loadBrightness J w =
        removeOldFiles (saveSecSettings (storeBrightness (sidSetBrightness w v)) true).1
          briCfgName := by
      unfold loadBrightness
      simp only [hsec, hg, hopen, hparse, hbri, hval, hset, saveBrightness,
        Bool.false_eq_true, if_false, Bool.not_false, if_true]
    obtain ⟨h1, h2, h3, h4, _, h6⟩ :=
      saved_then_removed (storeBrightness (sidSetBrightness w v)) briCfgName
        (by decide) hmiss hok
    rw [hrun]
    refine ⟨?_, ?_, ?_, h2, h3⟩
    · rw [h6]
      simp only [storeBrightness, sidSetBrightness]
      omega
    · rw [h4]
      simp only [storeBrightness, sidSetBrightness]
      omega
    · intro buf vb hb
      rw [h4]
      exact h1 buf vb hb

/-- C18 amended, at a concrete state: the legacy file on flash says `"1"`. -/
theorem C18_legacy_migration_witness :
    (loadIRLock (constJson lockDoc) legacyLockWorld).irLocked = true ∧
    (loadIRLock (constJson lockDoc) legacyLockWorld).secSettings.irLocked.val = 1 ∧
    fsExists (loadIRLock (constJson lockDoc) legacyLockWorld) irlCfgName = false :=
  have h := (C18_legacy_migration (constJson lockDoc) legacyLockWorld (lit "lock") lockDoc 1
    rfl rfl).1 (by decide) (by decide) (by decide) (by decide) (by decide)
  ⟨h.1, h.2.1, h.2.2.2.2⟩

/-! ## C19: loading an incomplete key table -/

/-- C19 fails on the code: a well-formed key table without any of the
required keys is not loaded into the learned-key array, but the file stays on
the medium: `loadIRkeysFromFile` returns `true` and `deleteIRKeys` is not
called. -/
theorem C19_incomplete_table_kept :
    loadIRkeysFromFile (constJson []) irFileWorld (lit "keys") = some (irFileWorld, true) ∧
    loadIRKeys (constJson []) irFileWorld = some irFileWorld ∧
    fsExists irFileWorld irCfgName = true := by
  decide

/-! ## C20: saving an incomplete key table -/

/-- C20: for every learned-key array in which at least one of the 17 codes is
0, `saveIRKeys` issues no write request and afterwards no key-table file
exists on the selected medium (SD if `configOnSD`, else flash); a write
request is issued only when all 17 codes are non-zero. -/
theorem C20_incomplete_never_saved (ser : JsonDoc → List Byte) (w : World) :
    ((∃ i, i < 17 ∧ w.irKeysLearned.getD i 0 = 0) →
      physWrites (saveIRKeys ser w) = physWrites w ∧
      (w.configOnSD = true → sdExists (saveIRKeys ser w) irCfgName = false) ∧
      (w.configOnSD = false → fsExists (saveIRKeys ser w) irCfgName = false)) ∧
    (physWrites (saveIRKeys ser w) ≠ physWrites w →
      ∀ i, i < 17 → w.irKeysLearned.getD i 0 ≠ 0) := by
  have hmiss : ((List.range NUM_IR_KEYS).any (fun i => (copyIRarray w).getD i 0 == 0)) = true ↔
      ∃ i, i < 17 ∧ w.irKeysLearned.getD i 0 = 0 := by
    simp only [List.any_eq_true, List.mem_range, beq_iff_eq, NUM_IR_KEYS, copyIRarray]
    constructor
    · rintro ⟨i, hi, h⟩
      refine ⟨i, hi, ?_⟩
      simpa [List.getD_eq_getElem?_getD, hi] using h
    · rintro ⟨i, hi, h⟩
      refine ⟨i, hi, ?_⟩
      simpa [List.getD_eq_getElem?_getD, hi] using h
  have hincomplete : (∃ i, i < 17 ∧ w.irKeysLearned.getD i 0 = 0) →
      physWrites (saveIRKeys ser w) = physWrites w ∧
      (w.configOnSD = true → sdExists (saveIRKeys ser w) irCfgName = false) ∧
      (w.configOnSD = false → fsExists (saveIRKeys ser w) irCfgName = false) := by
    intro h
    unfold saveIRKeys
    by_cases hg : (!w.haveFS && !w.configOnSD) = true
    · simp only [hg, if_true]
      simp only [Bool.and_eq_true, Bool.not_eq_true'] at hg
      refine ⟨trivial, ?_, ?_⟩
      · intro hc; rw [hg.2] at hc; cases hc
      · intro _; simp [fsExists, hg.1]
    · simp only [hg, Bool.false_eq_true, if_false, hmiss.mpr h, if_true]
      exact deleteIRKeys_effect w
  refine ⟨hincomplete, ?_⟩
  intro hw i hi h0
  exact hw (hincomplete ⟨i, hi, h0⟩).1

/-- C20 at a concrete state: the sample state with flash mounted and an
all-zero key array. -/
theorem C20_incomplete_never_saved_witness :
    physWrites (saveIRKeys (fun _ => []) irFileWorld) = physWrites irFileWorld ∧
    fsExists (saveIRKeys (fun _ => []) irFileWorld) irCfgName = false ∧
    fsExists irFileWorld irCfgName = true :=
  ⟨((C20_incomplete_never_saved (fun _ => []) irFileWorld).1 ⟨0, by decide, by decide⟩).1,
   ((C20_incomplete_never_saved (fun _ => []) irFileWorld).1 ⟨0, by decide, by decide⟩).2.2
     (by decide),
   by decide⟩

/-! ## Hashes of the secondary record -/

theorem distinctKeys_nodup (ks : List Nat) (seen : Nat) (h : distinctKeys ks seen = true) :
    ks.Nodup ∧ ∀ k ∈ ks, seen.testBit k = false := by
  induction ks generalizing seen with
  | nil => simp
  | cons k ks ih =>
    simp only [distinctKeys, Bool.and_eq_true, Bool.not_eq_true'] at h
    obtain ⟨ih1, ih2⟩ := ih _ h.2
    have hk : k ∉ ks := by
      intro hm
      have := ih2 k hm
      simp [Nat.testBit_or, Nat.testBit_two_pow_self] at this
    refine ⟨List.nodup_cons.mpr ⟨hk, ih1⟩, ?_⟩
    intro j hj
    rcases List.mem_cons.mp hj with rfl | hj
    · exact h.1
    · have := ih2 j hj
      simp only [Nat.testBit_or, Bool.or_eq_false_iff] at this
      exact this.1

/-- The low 15 bits of the hash tell the 1024 normal contents apart. -/
theorem normalSecs_keys :
    distinctKeys (normalSecs.map (fun s => calcHash s.bytes % 32768)) 0 = true := by
  decide!

theorem mem_normalSecs (s : SecSettings) (h : s.normal) : s ∈ normalSecs := by
  obtain ⟨b, f1, f2, f3, f4, f5, f6⟩ := s
  obtain ⟨hb, h1, h2, h3, h4, h5, h6⟩ := h
  have two : ∀ f : Byte, f.val ≤ 1 → f = 0 ∨ f = 1 := by
    intro f hf
    rcases Nat.le_one_iff_eq_zero_or_eq_one.mp hf with h | h
    · exact Or.inl (Fin.ext h)
    · exact Or.inr (Fin.ext h)
  simp only [normalSecs, List.mem_flatMap, List.mem_map, List.mem_range, List.mem_cons,
    List.mem_singleton, List.not_mem_nil, or_false]
  refine ⟨b.val, by simpa using Nat.lt_succ_of_le hb, f1, two f1 h1, f2, two f2 h2, f3, two f3 h3,
    f4, two f4 h4, f5, two f5 h5, f6, two f6 h6, ?_⟩
  congr
  apply Fin.ext
  simp [Fin.ofNat]

/-- No two distinct normal contents of `secSettings` have the same hash. -/
theorem calcHash_normal_injective (a b : SecSettings) (ha : a.normal) (hb : b.normal)
    (h : calcHash a.bytes = calcHash b.bytes) : a = b := by
  have hn := (distinctKeys_nodup _ 0 normalSecs_keys).1
  exact List.inj_on_of_nodup_map hn (mem_normalSecs a ha) (mem_normalSecs b hb) (by simp [h])

/-! ## C21: round trip of the learned-key table -/

theorem hexDigit_digitChar (d : Nat) (hd : d < 16) :
    hexDigit (charByte (Nat.digitChar d)) = some d ∧ charByte (Nat.digitChar d) ≠ 0 := by
  interval_cases d <;> decide

theorem toDigitsCore_append (fuel n : Nat) (ds : List Char) :
    Nat.toDigitsCore 16 fuel n ds = Nat.toDigitsCore 16 fuel n [] ++ ds := by
  induction fuel generalizing n ds with
  | zero => simp [Nat.toDigitsCore]
  | succ fuel ih =>
    simp only [Nat.toDigitsCore]
    split
    · simp
    · rw [ih (n / 16) (Nat.digitChar (n % 16) :: ds), ih (n / 16) [Nat.digitChar (n % 16)]]
      simp

/-- What `strtoul` makes of the digits `sprintf` wrote: from accumulator 0
they give the number, and none of them is a zero byte. -/
theorem strtoulAcc_toDigits (fuel n : Nat) (hf : n < fuel) (rest : List Byte) :
    strtoulAcc ((Nat.toDigitsCore 16 fuel n []).map charByte ++ rest) 0 = strtoulAcc rest n ∧
    ∀ c ∈ (Nat.toDigitsCore 16 fuel n []).map charByte, c ≠ 0 := by
  induction fuel generalizing n rest with
  | zero => omega
  | succ fuel ih =>
    have hd := hexDigit_digitChar (n % 16) (Nat.mod_lt _ (by decide))
    simp only [Nat.toDigitsCore]
    by_cases h0 : n / 16 = 0
    · have hn : n % 16 = n := Nat.mod_eq_of_lt (by omega)
      simp only [h0, if_true, List.map_cons, List.map_nil, List.cons_append, List.nil_append]
      refine ⟨?_, ?_⟩
      · simp only [strtoulAcc, hd.1]
        rw [hn]
        simp
      · intro c hc
        simp only [List.mem_singleton] at hc
        rw [hc]
        exact hd.2
    · simp only [h0, if_false]
      rw [toDigitsCore_append]
      have hlt : n / 16 < fuel := by omega
      obtain ⟨ih1, ih2⟩ := ih (n / 16) hlt (charByte (Nat.digitChar (n % 16)) :: rest)
      refine ⟨?_, ?_⟩
      · simp only [List.map_append, List.map_cons, List.map_nil, List.append_assoc,
          List.cons_append, List.nil_append]
        rw [ih1]
        simp only [strtoulAcc, hd.1]
        congr 1
        omega
      · intro c hc
        simp only [List.map_append, List.map_cons, List.map_nil, List.mem_append,
          List.mem_singleton] at hc
        rcases hc with hc | hc
        · exact ih2 c hc
        · rw [hc]
          exact hd.2

theorem strtoulAcc_zeros (k : Nat) (rest : List Byte) :
    strtoulAcc (List.replicate k 48 ++ rest) 0 = strtoulAcc rest 0 := by
  induction k with
  | zero => rfl
  | succ k ih =>
    simp only [List.replicate_succ, List.cons_append, strtoulAcc]
    have : hexDigit (48 : Byte) = some 0 := by decide
    simp only [this]
    exact ih

theorem cstr_of_ne_zero (l : List Byte) (h : ∀ c ∈ l, c ≠ 0) : cstr l = l := by
  unfold cstr
  rw [List.takeWhile_eq_self_iff]
  intro c hc
  simpa using h c hc

/-- The number `strtoul(.., 16)` reads from the text `sprintf(.., "0x%08x", v)`
wrote is `v`, for every 32-bit `v`. -/
theorem strtoul16_fmtHex8 (v : Nat) (hv : v < 4294967296) : strtoul16 (fmtHex8 v) = v := by
  obtain ⟨hval, hnz⟩ := strtoulAcc_toDigits (v + 1) v (Nat.lt_succ_self v) []
  have hdig : (Nat.toDigits 16 v).map
      (fun c => (⟨c.toNat % 256, Nat.mod_lt _ (by decide)⟩ : Byte)) =
      (Nat.toDigitsCore 16 (v + 1) v []).map charByte := rfl
  have hfmt : fmtHex8 v = (48 : Byte) :: 120 ::
      (List.replicate (8 - ((Nat.toDigitsCore 16 (v + 1) v []).map charByte).length) 48 ++
        (Nat.toDigitsCore 16 (v + 1) v []).map charByte) := by
    unfold fmtHex8
    simp only [hdig]
    rfl
  have hall : ∀ c ∈ fmtHex8 v, c ≠ 0 := by
    rw [hfmt]
    intro c hc
    simp only [List.mem_cons, List.mem_append, List.mem_replicate] at hc
    rcases hc with rfl | rfl | ⟨_, rfl⟩ | hc
    · decide
    · decide
    · decide
    · exact hnz c hc
  unfold strtoul16
  rw [cstr_of_ne_zero _ hall, hfmt]
  simp only [List.dropWhile_cons]
  have e1 : (((48 : Byte).val == 32 || (9 ≤ (48 : Byte).val && (48 : Byte).val ≤ 13))) = false := by
    decide
  simp only [e1, Bool.false_eq_true, if_false, List.head?_cons, List.tail_cons]
  have e2 : (some (48 : Byte) == some 45) = false := by decide
  have e3 : (some (48 : Byte) == some 43) = false := by decide
  have e4 : (some (48 : Byte) == some 48) = true := by decide
  have e5 : (some (120 : Byte) == some 120) = true := by decide
  simp only [e2, e3, e4, e5, Bool.or_self, Bool.false_eq_true, if_false, Bool.and_self,
    Bool.true_or, if_true, List.tail_cons]
  simp only [List.head?_cons, e4, e5, Bool.true_or, Bool.and_self, if_true]
  rw [strtoulAcc_zeros]
  have := hval
  simp only [List.append_nil] at this
  rw [this]
  simp only [strtoulAcc]
  omega

theorem irKeysFrom_all (json : JsonObj) (names : List String) (vals : List Nat)
    (h : List.Forall₂ (fun n v => irKeyOf json n = some (some v) ∧ v ≠ 0) names vals) :
    irKeysFrom json names = some (vals, true) := by
  induction h with
  | nil => rfl
  | cons hd _ ih =>
    simp only [irKeysFrom, hd.1, ih]
    simp [hd.2]

theorem length_seventeen (keys : List Nat) (h : keys.length = 17) :
    ∃ k0 k1 k2 k3 k4 k5 k6 k7 k8 k9 k10 k11 k12 k13 k14 k15 k16,
      keys = [k0, k1, k2, k3, k4, k5, k6, k7, k8, k9, k10, k11, k12, k13, k14, k15, k16] := by
  match keys, h with
  | [k0, k1, k2, k3, k4, k5, k6, k7, k8, k9, k10, k11, k12, k13, k14, k15, k16], _ =>
    exact ⟨k0, k1, k2, k3, k4, k5, k6, k7, k8, k9, k10, k11, k12, k13, k14, k15, k16, rfl⟩

theorem irKeyOf_str (json : JsonObj) (name : String) (v : Nat) (hv : v < 4294967296)
    (h : json.get name = some (JVal.str (fmtHex8 v))) : irKeyOf json name = some (some v) := by
  unfold irKeyOf
  rw [h]
  simp only [asBool, asCStr, if_true]
  rw [strtoul16_fmtHex8 v hv]

/-- C21: for every table of 17 non-zero 32-bit codes, `saveIRKeys` writes the
document that holds each code as `0x%08x` text under its key name, and
`loadIRkeysFromFile` on that document (as the JSON library parses it back)
reads the same 17 codes with `strtoul` and passes them to `populateIRarray`. -/
theorem C21_ir_keys_round_trip (J : JsonLib) (ser : JsonDoc → List Byte) (w w2 : World)
    (keys : List Nat) (hlen : keys.length = NUM_IR_KEYS) (hnz : ∀ k ∈ keys, k ≠ 0)
    (h32 : ∀ k ∈ keys, k < 4294967296)
    (hJ : J.parse (ser (irKeysDoc keys)) = some (parsedDoc (irKeysDoc keys)))
    (hw : w.irKeysLearned = keys) (hmed : (!w.haveFS && !w.configOnSD) = false) :
    saveIRKeys ser w =
      (writeJSONCfgFile w (ser (irKeysDoc keys)) irCfgName w.configOnSD 0 none).1 ∧
    irKeysDoc keys = List.zip jsonNames (keys.map fmtHex8) ∧
    loadIRkeysFromFile J w2 (ser (irKeysDoc keys)) = some (populateIRarray w2 keys, true) := by
  obtain ⟨k0, k1, k2, k3, k4, k5, k6, k7, k8, k9, k10, k11, k12, k13, k14, k15, k16, rfl⟩ :=
    length_seventeen keys hlen
  have hr : List.range 17 = [0, 1, 2, 3, 4, 5, 6, 7, 8, 9, 10, 11, 12, 13, 14, 15, 16] := by
    decide
  have hcopy : copyIRarray w =
      [k0, k1, k2, k3, k4, k5, k6, k7, k8, k9, k10, k11, k12, k13, k14, k15, k16] := by
    unfold copyIRarray
    rw [hw]
    simp [NUM_IR_KEYS, hr]
  have hdoc : irKeysDoc [k0, k1, k2, k3, k4, k5, k6, k7, k8, k9, k10, k11, k12, k13, k14, k15, k16] =
      List.zip jsonNames
        ([k0, k1, k2, k3, k4, k5, k6, k7, k8, k9, k10, k11, k12, k13, k14, k15, k16].map
          fmtHex8) := by
    simp [irKeysDoc, NUM_IR_KEYS, hr, jsonNames]
  simp only [List.mem_cons, List.mem_singleton, List.not_mem_nil, or_false, forall_eq_or_imp,
    forall_eq] at hnz h32
  refine ⟨?_, hdoc, ?_⟩
  · unfold saveIRKeys
    simp only [hmed, Bool.false_eq_true, if_false, hcopy]
    have hmiss : ((List.range NUM_IR_KEYS).any (fun i =>
        ([k0, k1, k2, k3, k4, k5, k6, k7, k8, k9, k10, k11, k12, k13, k14, k15,
          k16].getD i 0 == 0)) = false) := by
      simp [NUM_IR_KEYS, hr, hnz]
    simp only [hmiss, Bool.false_eq_true, if_false]
  · unfold loadIRkeysFromFile
    rw [hJ]
    have hall : irKeysFrom
        (parsedDoc (irKeysDoc
          [k0, k1, k2, k3, k4, k5, k6, k7, k8, k9, k10, k11, k12, k13, k14, k15, k16]))
        jsonNames =
        some ([k0, k1, k2, k3, k4, k5, k6, k7, k8, k9, k10, k11, k12, k13, k14, k15, k16],
          true) := by
      apply irKeysFrom_all
      rw [hdoc]
      unfold jsonNames
      simp only [List.map_cons, List.map_nil, List.zip_cons_cons, List.zip_nil_right,
        parsedDoc]
      repeat' constructor
      all_goals first
        | (apply irKeyOf_str
           · simp only [h32]
           · simp [JsonObj.get])
        | simp only [hnz, ne_eq, not_false_eq_true]
    simp only [hall, if_true]

/-- C21 at a concrete input: seventeen codes, the last one `0xffffffff`. -/
theorem C21_ir_keys_round_trip_witness :
    saveIRKeys (fun _ => []) keysWorld =
      (writeJSONCfgFile keysWorld [] irCfgName keysWorld.configOnSD 0 none).1 ∧
    irKeysDoc sampleKeys = List.zip jsonNames (sampleKeys.map fmtHex8) ∧
    loadIRkeysFromFile (constJson (parsedDoc (irKeysDoc sampleKeys))) flashWorld [] =
      some (populateIRarray flashWorld sampleKeys, true) :=
  C21_ir_keys_round_trip (constJson (parsedDoc (irKeysDoc sampleKeys))) (fun _ => [])
    keysWorld flashWorld sampleKeys rfl (by decide) (by decide) rfl rfl (by decide)

/-! ## C22: the bulk save of the portal-controlled flags -/

theorem storeAllSecCP_frame (w : World) :
    physWrites (storeAllSecCP w) = physWrites w ∧
    (storeAllSecCP w).secSettingsHash = w.secSettingsHash ∧
    (storeAllSecCP w).configOnSD = w.configOnSD ∧
    (storeAllSecCP w).haveSD = w.haveSD ∧ (storeAllSecCP w).haveFS = w.haveFS :=
  ⟨rfl, rfl, rfl, rfl, rfl⟩

/-- C22, as stated, fails: the record on flash has strict mode off and is the
last one persisted; the user switches strict mode on, `saveStrict` attempts
the write while flash cannot be opened for writing, and flash recovers.  Now
the flag `strictMode` differs from the persisted record, and `saveAllSecCP`
issues no write. -/
theorem C22_counterexample :
    physWrites (saveStrict strictFailWorld) = physWrites strictFailWorld + 1 ∧
    loadConfigFile (flashWritable (saveStrict strictFailWorld)) secCfgName
        (List.replicate 8 0) 0 0 =
      some { ret := true, buf := (⟨15, 0, 0, 0, 0, 0, 1⟩ : SecSettings).bytes, validBytes := 8 } ∧
    (flashWritable (saveStrict strictFailWorld)).strictMode = true ∧
    (flashWritable (saveStrict strictFailWorld)).haveFS = true ∧
    (flashWritable (saveStrict strictFailWorld)).fs.openW = true ∧
    physWrites (saveAllSecCP (flashWritable (saveStrict strictFailWorld))) =
      physWrites (flashWritable (saveStrict strictFailWorld)) := by
  decide

/-- C22, amended: in every state `saveAllSecCP` issues at most one write
request for the secondary record, and exactly one iff the hash of the content
with the four flags stored differs from `secSettingsHash` and the selected
medium is mounted.  In particular it issues exactly one when the selected
medium is mounted, `secSettingsHash` is the hash of the persisted record `p`,
`p` and the content in memory are contents the firmware stores (brightness at
most 15, flag bytes 0 or 1), and at least one of the four flags differs from
`p`. -/
theorem C22_saveAllSecCP_one_write (w : World) :
    physWrites (saveAllSecCP w) ≤ physWrites w + 1 ∧
    (physWrites (saveAllSecCP w) = physWrites w + 1 ↔
      w.secSettingsHash ≠ calcHash (storeAllSecCP w).secSettings.bytes ∧
        (if w.configOnSD then w.haveSD else w.haveFS) = true) ∧
    (∀ p : SecSettings, w.secSettingsHash = calcHash p.bytes → p.normal →
      w.secSettings.brightness.val ≤ 15 → w.secSettings.irLocked.val ≤ 1 →
      w.secSettings.showUpdAvail.val ≤ 1 →
      (if w.configOnSD then w.haveSD else w.haveFS) = true →
      (p.strictMode ≠ (if w.strictMode then 1 else 0) ∨
        p.SApeaks ≠ (if w.doPeaks then 1 else 0) ∨
        p.irShowPosFBDisplay ≠ (if w.irShowPosFBDisplay then 1 else 0) ∨
        p.irShowCmdFBDisplay ≠ (if w.irShowCmdFBDisplay then 1 else 0)) →
      physWrites (saveAllSecCP w) = physWrites w + 1) := by
  have h := (saveSecSettings_cached (storeAllSecCP w)).2.2
  obtain ⟨f1, f2, f3, f4, f5⟩ := storeAllSecCP_frame w
  rw [f1, f2, f3, f4, f5] at h
  have hiff : physWrites (saveAllSecCP w) = physWrites w + 1 ↔
      w.secSettingsHash ≠ calcHash (storeAllSecCP w).secSettings.bytes ∧
        (if w.configOnSD then w.haveSD else w.haveFS) = true := by
    unfold saveAllSecCP
    rw [h]
    by_cases hP : w.secSettingsHash ≠ calcHash (storeAllSecCP w).secSettings.bytes ∧
        (if w.configOnSD then w.haveSD else w.haveFS) = true
    · rw [if_pos hP]
      exact ⟨fun _ => hP, fun _ => rfl⟩
    · rw [if_neg hP]
      exact ⟨fun e => absurd e (by omega), fun e => absurd e hP⟩
  refine ⟨?_, hiff, ?_⟩
  · unfold saveAllSecCP
    rw [h]
    by_cases hP : w.secSettingsHash ≠ calcHash (storeAllSecCP w).secSettings.bytes ∧
        (if w.configOnSD then w.haveSD else w.haveFS) = true
    · rw [if_pos hP]
    · rw [if_neg hP]
      omega
  · intro p hlast hp hb hl hu hmed hdiff
    refine hiff.mpr ⟨?_, hmed⟩
    rw [hlast]
    intro e
    have hn : (storeAllSecCP w).secSettings.normal := by
      unfold SecSettings.normal storeAllSecCP
      refine ⟨hb, hl, ?_, ?_, ?_, ?_, hu⟩ <;> simp only [] <;> split_ifs <;> decide
    have hpe := calcHash_normal_injective p _ hp hn e
    rw [hpe] at hdiff
    simp [storeAllSecCP] at hdiff

/-- C22 amended, at a concrete input: the record on flash has strict mode off
and is the last one persisted, strict mode was switched on: one write. -/
theorem C22_saveAllSecCP_one_write_witness :
    physWrites (saveAllSecCP strictWorld) = physWrites strictWorld + 1 :=
  (C22_saveAllSecCP_one_write strictWorld).2.2 ⟨15, 0, 0, 0, 0, 0, 1⟩ rfl
    (by unfold SecSettings.normal; decide) (by decide) (by decide) (by decide) (by decide)
    (Or.inl (by decide))

/-! ## C23: the host name -/

theorem cstr_ne_zero (j : List Byte) : ∀ c ∈ cstr j, c ≠ 0 := by
  intro c hc
  have := List.mem_takeWhile_imp hc
  simpa using this

theorem cstr_strncpyField (j : List Byte) (n : Nat) (hn : 1 ≤ n) :
    cstr (strncpyField j n) = (cstr j).take (n - 1) := by
  unfold strncpyField
  have hlen : ((cstr j).take (n - 1)).length ≤ n - 1 := by simp
  obtain ⟨k, hk⟩ : ∃ k, n - ((cstr j).take (n - 1)).length = k + 1 :=
    ⟨n - ((cstr j).take (n - 1)).length - 1, by omega⟩
  simp only [hk]
  have h := cstr_append_zero ((cstr j).take (n - 1)) (List.replicate k 0)
    (fun c hc => cstr_ne_zero j c (List.mem_of_mem_take hc))
  rw [List.replicate_succ]
  simpa using h

theorem readWifi_frame (json : JsonObj) (s : Settings) (cnt : Nat) (r : Settings × Bool)
    (h : readWifi json s cnt = some r) : r.1.hostName = s.hostName := by
  unfold readWifi at h
  simp only [] at h
  repeat' split at h
  all_goals try cases h
  all_goals rfl

set_option maxRecDepth 4000 in
theorem myisgoodchar_tolower (c : Byte) (h : myisgoodchar c = true) :
    (97 ≤ (tolower c).val ∧ (tolower c).val ≤ 122) ∨
    (48 ≤ (tolower c).val ∧ (tolower c).val ≤ 57) ∨ (tolower c).val = 45 := by
  revert h
  revert c
  decide

/-- C23, as stated, fails: `read_settings` on a document with
`"hostName": "SID"` leaves the upper-case letters in `settings.hostName`. -/
theorem C23_counterexample :
    (read_settings (constJson hostDoc) sampleDefaults smallWorld [] 0).map
      (fun r => cstr r.1.settings.hostName) = some (lit "SID") := by
  decide

/-- C23, amended: on the portal path the host name is the submitted value with
every character other than a-z, A-Z, 0-9 and `-` dropped and the rest in lower
case, so it consists of a-z, 0-9 and `-` only, and the default is taken when
nothing is left.  `read_settings` copies the member `hostName` as it is, upper
case letters included, cut to the size of the field less one. -/
theorem C23_hostName (value defHostName : List Byte) (J : JsonLib) (D : Defaults) (w : World)
    (file : List Byte) (cnt : Nat) (json : JsonObj) (t : List Byte) (w' : World) (wd : Bool)
    (hparse : J.parse file = some json) (hname : json.get "hostName" = some (JVal.str t))
    (hr : read_settings J D w file cnt = some (w', wd))
    (hsize : 1 ≤ w.settings.hostName.length) :
    (strcpytrim value true ≠ [] →
      portalHostName value defHostName = (strcpytrim value true).map tolower ∧
      ∀ c ∈ portalHostName value defHostName,
        (97 ≤ c.val ∧ c.val ≤ 122) ∨ (48 ≤ c.val ∧ c.val ≤ 57) ∨ c.val = 45) ∧
    (strcpytrim value true = [] → portalHostName value defHostName = cstr defHostName) ∧
    w'.settings.hostName = strncpyField t w.settings.hostName.length ∧
    cstr w'.settings.hostName = (cstr t).take (w.settings.hostName.length - 1) := by
  have hread : w'.settings.hostName = strncpyField t w.settings.hostName.length := by
    unfold read_settings at hr
    simp only [hparse] at hr
    cases hw : readWifi json w.settings cnt with
    | none => simp [hw] at hr
    | some r =>
      obtain ⟨s1, wd1⟩ := r
      simp only [hw, Option.some.injEq, Prod.mk.injEq] at hr
      have hf := readWifi_frame json w.settings cnt (s1, wd1) hw
      simp only [] at hf
      rw [← hr.1]
      show (CopyTextParm (asCStr (json.get "hostName")) s1.hostName s1.hostName.length).1 = _
      rw [hname, hf]
      rfl
  refine ⟨?_, ?_, hread, ?_⟩
  · intro hne
    have hp : portalHostName value defHostName = (strcpytrim value true).map tolower := by
      unfold portalHostName
      have : ((strcpytrim value true).length == 0) = false := by
        simpa using hne
      simp [this]
    refine ⟨hp, ?_⟩
    rw [hp]
    intro c hc
    obtain ⟨b, hb, rfl⟩ := List.mem_map.mp hc
    have hg : myisgoodchar b = true := by
      unfold strcpytrim at hb
      have := (List.mem_filter.mp hb).2
      simp only [Bool.not_true, Bool.false_or, Bool.and_eq_true] at this
      exact this.2
    exact myisgoodchar_tolower b hg
  · intro he
    simp [portalHostName, he]
  · rw [hread]
    exact cstr_strncpyField t _ hsize

/-- C23 amended, at a concrete input: the portal turns `My Host_1` into
`myhost1`, and `read_settings` keeps `SID` as it is. -/
theorem C23_hostName_witness :
    portalHostName (lit "My Host_1") (lit "sid") = lit "myhost1" ∧
    cstr ((read_settings (constJson hostDoc) sampleDefaults smallWorld [] 0).getD
      (smallWorld, false)).1.settings.hostName = (cstr (lit "SID")).take (4 - 1) :=
  ⟨by decide,
   (C23_hostName (lit "My Host_1") (lit "sid") (constJson hostDoc) sampleDefaults smallWorld []
      0 hostDoc (lit "SID")
      ((read_settings (constJson hostDoc) sampleDefaults smallWorld [] 0).getD
        (smallWorld, false)).1
      ((read_settings (constJson hostDoc) sampleDefaults smallWorld [] 0).getD
        (smallWorld, false)).2
      rfl rfl (by decide) (by decide)).2.2.2⟩

/-! ## C24: `isIp` -/

theorem splitDots_ne_nil (s : List Byte) : splitDots s ≠ [] := by
  cases s with
  | nil => simp [splitDots]
  | cons c cs =>
    unfold splitDots
    split
    · simp
    · split <;> simp

theorem foldl_digits_ge (g : List Byte) (acc : Nat) :
    acc ≤ g.foldl (fun acc c => acc * 10 + (c.val - 48)) acc := by
  induction g generalizing acc with
  | nil => exact Nat.le_refl _
  | cons c g ih =>
    simp only [List.foldl_cons]
    exact Nat.le_trans (by omega) (ih _)

/-- The loop of `isIp` and its reading on the pieces between the dots agree. -/
theorem isIpLoop_eq (cs : List Byte) (segs digcnt num : Nat) (hnum : num ≤ 255) :
    isIpLoop cs segs digcnt num = isIpGroups (splitDots cs) segs digcnt num := by
  induction cs generalizing segs digcnt num with
  | nil => simp [isIpLoop, splitDots, isIpGroups, hnum]
  | cons c cs ih =>
    obtain ⟨g, gs, hg⟩ : ∃ g gs, splitDots cs = g :: gs := by
      cases h : splitDots cs with
      | nil => exact absurd h (splitDots_ne_nil cs)
      | cons g gs => exact ⟨g, gs, rfl⟩
    unfold isIpLoop splitDots
    by_cases hdot : (c.val == 46) = true
    · simp only [hdot, if_true]
      by_cases hz : (digcnt == 0 || segs + 1 == 4) = true
      · simp only [hz, if_true, hg, isIpGroups]
        simp only [Bool.or_eq_true, beq_iff_eq] at hz
        rcases hz with hz | hz <;> simp [hz]
      · simp only [hz, Bool.false_eq_true, if_false]
        rw [ih (segs + 1) 0 0 (by omega), hg]
        simp only [Bool.or_eq_true, beq_iff_eq, not_or] at hz
        have h3 : ¬ segs = 3 := by omega
        simp [isIpGroups, hnum, hz.1, h3]
    · simp only [hdot, Bool.false_eq_true, if_false, hg]
      by_cases hnd : (decide (c.val < 48) || decide (c.val > 57)) = true
      · simp only [hnd, if_true]
        have hall : (decide (48 ≤ c.val) && decide (c.val ≤ 57)) = false := by
          simp only [Bool.or_eq_true, decide_eq_true_eq] at hnd
          rcases hnd with h | h
          · simp [Nat.not_le.mpr h]
          · have : ¬ c.val ≤ 57 := by omega
            simp [this]
        cases gs <;> simp [isIpGroups, hall]
      · simp only [hnd, Bool.false_eq_true, if_false]
        have hall : (decide (48 ≤ c.val) && decide (c.val ≤ 57)) = true := by
          simp only [Bool.or_eq_true, decide_eq_true_eq, not_or] at hnd
          simp only [Bool.and_eq_true, decide_eq_true_eq]
          omega
        by_cases hbig : num * 10 + (c.val - 48) > 255
        · simp only [hbig, decide_True, if_true]
          have hge := foldl_digits_ge g (num * 10 + (c.val - 48))
          have hf : ¬ g.foldl (fun acc c => acc * 10 + (c.val - 48))
              (num * 10 + (c.val - 48)) ≤ 255 := by omega
          cases gs <;> simp [isIpGroups, hf]
        · simp only [hbig, decide_False, Bool.false_eq_true, if_false]
          rw [ih segs (digcnt + 1) _ (by omega), hg]
          cases gs with
          | nil => simp [isIpGroups, hall]
          | cons g' rest =>
            simp only [isIpGroups, List.all_cons, hall, Bool.true_and, List.foldl_cons,
              List.length_cons]
            have : (digcnt + 1 + g.length == 0) = (digcnt + (g.length + 1) == 0) := by
              congr 1
              omega
            rw [this]

/-- What `isIp` accepts: the valid dotted quads and, in addition, the strings
of three groups each followed by a dot. -/
theorem isIp_accepts (str : List Byte) :
    isIp str = (validQuad (cstr str) || threeGroupsAndDot (cstr str)) := by
  unfold isIp
  rw [isIpLoop_eq _ 0 0 0 (by decide)]
  unfold validQuad threeGroupsAndDot
  generalize splitDots (cstr str) = gs
  have hgrp : ∀ g : List Byte,
      (g.all (fun c => decide (48 ≤ c.val) && decide (c.val ≤ 57)) &&
        decide (g.foldl (fun acc c => acc * 10 + (c.val - 48)) 0 ≤ 255) &&
        !(0 + g.length == 0)) = isGroup g := by
    intro g
    unfold isGroup decVal
    cases g <;> simp [Bool.and_comm, Bool.and_assoc]
  match gs with
  | [] => rfl
  | [a] => simp [isIpGroups]
  | [a, b] => simp [isIpGroups]
  | [a, b, c] => simp [isIpGroups]
  | [a, b, c, d] =>
    simp only [isIpGroups, hgrp]
    cases d with
    | nil => simp [isGroup, decVal, Bool.and_assoc]
    | cons x d => simp [isGroup, decVal, Bool.and_assoc]
  | a :: b :: c :: d :: e :: rest =>
    simp [isIpGroups]

/-- C24 fails for the code: `isIp` returns `true` for `1.2.3.`, which has three
groups of digits and an empty fourth one, so it is not a valid dotted quad.
The check for an empty group is made when a dot is read and is missing at the
end of the string; `1.2.3.4` is accepted and `1..3.4`, `1.2.3`, `1.2.3.4.` and
`1.2.3.256` are rejected as they should. -/
theorem C24_isIp_accepts_empty_last_group :
    isIp (lit "1.2.3.") = true ∧ validQuad (lit "1.2.3.") = false ∧
    isIp (lit "1.2.3.4") = true ∧
    isIp (lit "1..3.4") = false ∧ isIp (lit "1.2.3") = false ∧
    isIp (lit "1.2.3.4.") = false ∧ isIp (lit "1.2.3.256") = false := by
  decide

/-! ## C25: which medium the binary codec uses -/

theorem sdSelected_iff (w : World) (forcefs : Int) :
    sdSelected w forcefs = true ↔
      (forcefs = 0 ∧ w.configOnSD = true) ∨ forcefs > 0 ∨ (forcefs < 0 ∧ w.FlashROMode = true) := by
  simp [sdSelected, or_assoc]

theorem writeFileToSD_log (w : World) (fn : String) (buf : List Byte) :
    (writeFileToSD w fn buf).1.fs = w.fs ∧
    (writeFileToSD w fn buf).1.sd.wlog =
      w.sd.wlog ++ (if w.haveSD then [(fn, buf)] else []) := by
  unfold writeFileToSD writeFile
  cases w.haveSD <;> cases w.sd.openW <;> simp

theorem writeFileToFS_log (w : World) (fn : String) (buf : List Byte) :
    (writeFileToFS w fn buf).1.sd = w.sd ∧
    (writeFileToFS w fn buf).1.fs.wlog =
      w.fs.wlog ++ (if w.haveFS then [(fn, buf)] else []) := by
  unfold writeFileToFS writeFile
  cases w.haveFS <;> cases w.fs.openW <;> simp

/-- C25: `saveConfigFile` addresses the SD card exactly when
`(forcefs = 0 and configOnSD) or forcefs > 0 or (forcefs < 0 and FlashROMode)`
and flash otherwise.  The write request goes to the selected medium, the
other medium is left as it is, and when the selected medium is not mounted
nothing is written and the result is `false`.  The tertiary record
(`forcefs = 1`) is never written to flash, `saveTerSettings` returns `false`
and changes nothing when `haveSD` is false, and loading with `forcefs = 1`
does not depend on flash. -/
theorem C25_medium_selection (w : World) (fn : String) (buf : List Byte) (forcefs : Int)
    (useCache : Bool) :
    (((forcefs = 0 ∧ w.configOnSD = true) ∨ forcefs > 0 ∨
        (forcefs < 0 ∧ w.FlashROMode = true)) →
      saveConfigFile w fn buf forcefs = writeFileToSD w fn (frameRecord buf) ∧
      (saveConfigFile w fn buf forcefs).1.fs = w.fs ∧
      (saveConfigFile w fn buf forcefs).1.sd.wlog =
        w.sd.wlog ++ (if w.haveSD then [(fn, frameRecord buf)] else []) ∧
      (w.haveSD = false → saveConfigFile w fn buf forcefs = (w, false))) ∧
    (¬ ((forcefs = 0 ∧ w.configOnSD = true) ∨ forcefs > 0 ∨
        (forcefs < 0 ∧ w.FlashROMode = true)) →
      saveConfigFile w fn buf forcefs = writeFileToFS w fn (frameRecord buf) ∧
      (saveConfigFile w fn buf forcefs).1.sd = w.sd ∧
      (saveConfigFile w fn buf forcefs).1.fs.wlog =
        w.fs.wlog ++ (if w.haveFS then [(fn, frameRecord buf)] else []) ∧
      (w.haveFS = false → saveConfigFile w fn buf forcefs = (w, false))) ∧
    physWrites (saveConfigFile w fn buf forcefs).1 ≤ physWrites w + 1 ∧
    (saveTerSettings w useCache).1.fs = w.fs ∧
    (w.haveSD = false → saveTerSettings w useCache = (w, false)) ∧
    (∀ (m : Medium) (b : Bool) (vb : Nat),
      loadConfigFile { w with fs := m, haveFS := b } terCfgName buf vb 1 =
        loadConfigFile w terCfgName buf vb 1) := by
  refine ⟨?_, ?_, ?_, ?_, ?_, ?_⟩
  · intro hsel
    have hs := (sdSelected_iff w forcefs).mpr hsel
    have he : saveConfigFile w fn buf forcefs = writeFileToSD w fn (frameRecord buf) := by
      unfold saveConfigFile
      simp only [hs, if_true]
    rw [he]
    refine ⟨rfl, (writeFileToSD_log w fn _).1, (writeFileToSD_log w fn _).2, ?_⟩
    intro hsd
    simp [writeFileToSD, hsd]
  · intro hsel
    have hs : sdSelected w forcefs = false := by
      cases h : sdSelected w forcefs
      · rfl
      · exact absurd ((sdSelected_iff w forcefs).mp h) hsel
    have he : saveConfigFile w fn buf forcefs = writeFileToFS w fn (frameRecord buf) := by
      unfold saveConfigFile
      simp only [hs, Bool.false_eq_true, if_false]
      cases hfs : w.haveFS
      · simp [writeFileToFS, hfs]
      · simp
    rw [he]
    refine ⟨rfl, (writeFileToFS_log w fn _).1, (writeFileToFS_log w fn _).2, ?_⟩
    intro hfs
    simp [writeFileToFS, hfs]
  · rw [saveConfigFile_physWrites]
    split_ifs <;> omega
  · have hfs1 : ∀ (v : World) (P : List Byte), (saveConfigFile v terCfgName P 1).1.fs = v.fs := by
      intro v P
      unfold saveConfigFile
      simp only [show sdSelected v 1 = true by simp [sdSelected], if_true]
      exact (writeFileToSD_log _ _ _).1
    unfold saveTerSettings
    split
    · rfl
    · simp only []
      split
      · rfl
      · exact hfs1 _ _
  · intro hsd
    simp [saveTerSettings, hsd]
  · intro m b vb
    have hl : ∀ v : World, loadSource v terCfgName 1 =
        (if v.haveSD then readFileU v.sd terCfgName else none) := by
      intro v
      unfold loadSource readFileFromSDU
      cases hsd : v.haveSD <;> simp [sdSelected]
    unfold loadConfigFile
    rw [hl, hl]

/-- C25 at a concrete input: in read-only-flash mode with `forcefs = -1` the
record goes to the SD card and flash is left as it is. -/
theorem C25_medium_selection_witness :
    (saveConfigFile roWorld ipCfgName [1, 2] (-1)).1.fs = roWorld.fs ∧
    (saveConfigFile roWorld ipCfgName [1, 2] (-1)).1.sd.wlog =
      roWorld.sd.wlog ++ (if roWorld.haveSD then [(ipCfgName, frameRecord [1, 2])] else []) :=
  ⟨((C25_medium_selection roWorld ipCfgName [1, 2] (-1) true).1
      (Or.inr (Or.inr ⟨by decide, rfl⟩))).2.1,
   ((C25_medium_selection roWorld ipCfgName [1, 2] (-1) true).1
      (Or.inr (Or.inr ⟨by decide, rfl⟩))).2.2.1⟩

/-! ## C26: an invalid legacy static-IP file -/

theorem cstr_replicate_zero (n : Nat) : cstr (List.replicate n (0 : Byte)) = [] := by
  cases n <;> simp [cstr, List.replicate_succ]

theorem CopyIPParm_length (json : Option (List Byte)) (text : List Byte) :
    (CopyIPParm json text text.length).1.length = text.length := by
  unfold CopyIPParm
  split
  · rfl
  · split
    · rfl
    · exact strncpyField_length _ _

theorem CopyIPParm_invalid (json : Option (List Byte)) (text : List Byte) (n : Nat)
    (h : ∀ j, json = some j → (cstr j).length = 0) : (CopyIPParm json text n).2 = true := by
  unfold CopyIPParm
  cases json with
  | none => rfl
  | some j => simp [h j rfl]

theorem removeOldFiles_physWrites (w : World) (fn : String) :
    physWrites (removeOldFiles w fn) = physWrites w := by
  unfold removeOldFiles sdRemove fsRemove physWrites Medium.remove
  cases w.haveSD <;> cases w.haveFS <;> simp <;> split <;> rfl

theorem writeIpSettings_empty (w : World) (h : (cstr w.ipsettings.ip).length = 0) :
    writeIpSettings w = w := by
  unfold writeIpSettings
  split
  · rfl
  · simp [h]

/-- Reading a legacy file that does not yield four non-empty fields. -/
theorem readIpLegacy_invalid (J : JsonLib) (w0 : World)
    (hbad : ∀ file json,
      (if w0.FlashROMode then sdOpenRead w0 ipCfgNameO else fsOpenRead w0 ipCfgNameO) = some file →
      J.parse file = some json →
      ∃ k ∈ ["IpAddress", "Gateway", "Netmask", "DNS"],
        ∀ j, asCStr (json.get k) = some j → (cstr j).length = 0) :
    (readIpLegacy J w0).2.2 = false ∧
    ((readIpLegacy J w0).2.1 = false → (readIpLegacy J w0).1 = w0) ∧
    (readIpLegacy J w0).1 = { w0 with ipsettings := (readIpLegacy J w0).1.ipsettings } ∧
    zeroIP (readIpLegacy J w0).1.ipsettings = zeroIP w0.ipsettings := by
  unfold readIpLegacy
  split
  · rename_i file hopen
    split
    · rename_i json hparse
      obtain ⟨k, hk, hkbad⟩ := hbad file json hopen hparse
      have hinv :
          ((CopyIPParm (asCStr (json.get "IpAddress")) w0.ipsettings.ip
              w0.ipsettings.ip.length).2 ||
            (CopyIPParm (asCStr (json.get "Gateway")) w0.ipsettings.gateway
              w0.ipsettings.gateway.length).2 ||
            (CopyIPParm (asCStr (json.get "Netmask")) w0.ipsettings.netmask
              w0.ipsettings.netmask.length).2 ||
            (CopyIPParm (asCStr (json.get "DNS")) w0.ipsettings.dns
              w0.ipsettings.dns.length).2) = true := by
        simp only [List.mem_cons, List.mem_singleton, List.not_mem_nil, or_false] at hk
        rcases hk with rfl | rfl | rfl | rfl
        · rw [CopyIPParm_invalid _ _ _ hkbad]; simp
        · rw [CopyIPParm_invalid (asCStr (json.get "Gateway")) _ _ hkbad]; simp
        · rw [CopyIPParm_invalid (asCStr (json.get "Netmask")) _ _ hkbad]; simp
        · rw [CopyIPParm_invalid (asCStr (json.get "DNS")) _ _ hkbad]; simp
      refine ⟨?_, ?_, rfl, ?_⟩
      · show (!(_ : Bool)) = false
        rw [hinv]
        rfl
      · intro h
        exact absurd (hinv.symm.trans h) (by decide)
      · simp only [zeroIP, CopyIPParm_length]
    · exact ⟨rfl, fun _ => rfl, rfl, rfl⟩
  · exact ⟨rfl, fun _ => rfl, rfl, rfl⟩

/-- The legacy branch of `loadIpSettings` on a legacy file that does not
yield four non-empty fields. -/
theorem loadIpLegacy_invalid (J : JsonLib) (w0 : World)
    (hz : w0.ipsettings = zeroIP w0.ipsettings)
    (hex : ((!w0.FlashROMode && fsExists w0 ipCfgNameO) ||
      (w0.FlashROMode && sdExists w0 ipCfgNameO)) = true)
    (hbad : ∀ file json,
      (if w0.FlashROMode then sdOpenRead w0 ipCfgNameO else fsOpenRead w0 ipCfgNameO) = some file →
      J.parse file = some json →
      ∃ k ∈ ["IpAddress", "Gateway", "Netmask", "DNS"],
        ∀ j, asCStr (json.get k) = some j → (cstr j).length = 0) :
    loadIpLegacy J w0 = (removeOldFiles w0 ipCfgNameO, false) := by
  obtain ⟨h1, h2, h3, h4⟩ := readIpLegacy_invalid J w0 hbad
  have hrem : ∀ v : World, (removeOldFiles v ipCfgNameO).ipsettings = v.ipsettings := by
    intro v
    rw [removeOldFiles_frame]
  unfold loadIpLegacy
  simp only [hex, if_true, h1]
  generalize readIpLegacy J w0 = r at h1 h2 h3 h4
  congr 1
  cases hinv : r.2.1
  · have := h2 hinv
    simp only [Bool.false_eq_true, if_false]
    rw [this]
    apply writeIpSettings_empty
    rw [hrem, hz]
    simp [zeroIP, cstr_replicate_zero]
  · simp only [if_true]
    rw [hrem, h4, ← hz, h3]
    conv_lhs => rw [removeOldFiles_frame]
    conv_rhs => rw [removeOldFiles_frame]
    unfold removeOldFiles sdRemove fsRemove
    simp only []
    split <;> split <;> rfl

/-- C26: when the legacy file `/sidipcfg.json` is on the active medium, no
current `/sidipcfg` record loads, and the legacy file cannot be read, does
not parse, or has one of `IpAddress`, `Gateway`, `Netmask`, `DNS` missing or
empty, then `loadIpSettings` returns `false`, leaves `ipsettings` zeroed,
issues no write request, and the legacy file is gone from both media. -/
theorem C26_invalid_legacy_discarded (J : JsonLib) (checkIPConfig : IPSettings → Bool)
    (w : World)
    (hex : ((!w.FlashROMode && fsExists w ipCfgNameO) ||
      (w.FlashROMode && sdExists w ipCfgNameO)) = true)
    (hbin : ∃ r, loadConfigFile { w with ipsettings := zeroIP w.ipsettings } ipCfgName
      (zeroIP w.ipsettings).bytes 0 (-1) = some r ∧ r.ret = false)
    (hbad : ∀ file json,
      (if w.FlashROMode then sdOpenRead w ipCfgNameO else fsOpenRead w ipCfgNameO) = some file →
      J.parse file = some json →
      ∃ k ∈ ["IpAddress", "Gateway", "Netmask", "DNS"],
        ∀ j, asCStr (json.get k) = some j → (cstr j).length = 0) :
    ∃ w', loadIpSettings J checkIPConfig w = some (w', false) ∧
      w'.ipsettings = zeroIP w.ipsettings ∧
      (∀ c ∈ w'.ipsettings.bytes, c = 0) ∧
      physWrites w' = physWrites w ∧
      sdExists w' ipCfgNameO = false ∧ fsExists w' ipCfgNameO = false ∧
      w' = removeOldFiles { w with ipsettings := zeroIP w.ipsettings } ipCfgNameO := by
  obtain ⟨r, hr, hret⟩ := hbin
  have hguard : (!w.haveFS && !w.FlashROMode) = false := by
    cases hro : w.FlashROMode
    · cases hfs : w.haveFS
      · simp [hro, fsExists, hfs] at hex
      · rfl
    · simp
  have hleg := loadIpLegacy_invalid J { w with ipsettings := zeroIP w.ipsettings }
    (by simp [zeroIP]) hex hbad
  refine ⟨removeOldFiles { w with ipsettings := zeroIP w.ipsettings } ipCfgNameO, ?_, ?_, ?_, ?_,
    (removeOldFiles_gone _ _).1, (removeOldFiles_gone _ _).2, rfl⟩
  · unfold loadIpSettings
    simp only [hguard, Bool.false_eq_true, if_false, hr, hret, hleg]
  · rw [removeOldFiles_frame]
  · rw [removeOldFiles_frame]
    intro c hc
    simp only [IPSettings.bytes, zeroIP, List.mem_append, List.mem_replicate] at hc
    rcases hc with ((h | h) | h) | h <;> exact h.2
  · rw [removeOldFiles_physWrites]
    rfl

/-- C26 at a concrete input: flash mounted, a legacy file that does not parse
and no current record. -/
theorem C26_invalid_legacy_discarded_witness :
    ∃ w', loadIpSettings noJson (fun _ => true) legacyIpWorld = some (w', false) ∧
      w'.ipsettings = zeroIP legacyIpWorld.ipsettings ∧
      (∀ c ∈ w'.ipsettings.bytes, c = 0) ∧
      physWrites w' = physWrites legacyIpWorld ∧
      sdExists w' ipCfgNameO = false ∧ fsExists w' ipCfgNameO = false ∧
      w' = removeOldFiles { legacyIpWorld with ipsettings := zeroIP legacyIpWorld.ipsettings }
        ipCfgNameO :=
  C26_invalid_legacy_discarded noJson (fun _ => true) legacyIpWorld (by decide)
    ⟨_, rfl, rfl⟩ (fun _ _ _ h => by cases h)

/-! ## C27: the cache and mutations of the secondary record -/

/-- C27, as stated, fails: the two distinct contents `collisionA` and
`collisionB` of `secSettings` have the same hash, so with `collisionA` saved
last and flash mounted, `saveSecSettings(true)` with content `collisionB`
issues no write. -/
theorem C27_counterexample :
    collisionA ≠ collisionB ∧
    collisionWorld.secSettingsHash = calcHash collisionA.bytes ∧
    collisionWorld.secSettings = collisionB ∧
    collisionWorld.haveFS = true ∧ collisionWorld.configOnSD = false ∧
    physWrites (saveSecSettings collisionWorld true).1 = physWrites collisionWorld := by
  decide

/-- C27, amended: with content `a` saved last (`secSettingsHash` is the hash
of `a`) and the selected medium mounted, `saveSecSettings(true)` issues a
write request exactly when the hash of the present content differs from the
hash of `a`.  That is the case whenever `a` and the present content are
distinct and both are contents the firmware stores (brightness at most 15,
every flag byte 0 or 1). -/
theorem C27_mutation_written (w : World) (a : SecSettings)
    (hlast : w.secSettingsHash = calcHash a.bytes)
    (hmed : (if w.configOnSD then w.haveSD else w.haveFS) = true) :
    (physWrites (saveSecSettings w true).1 = physWrites w + 1 ↔
      calcHash w.secSettings.bytes ≠ calcHash a.bytes) ∧
    (physWrites (saveSecSettings w true).1 = physWrites w ↔
      calcHash w.secSettings.bytes = calcHash a.bytes) ∧
    (a.normal → w.secSettings.normal → a ≠ w.secSettings →
      physWrites (saveSecSettings w true).1 = physWrites w + 1) := by
  have h := (saveSecSettings_cached w).2.2
  rw [hlast] at h
  have key : ∀ P : Prop, [Decidable P] → 
      (physWrites (saveSecSettings w true).1 = physWrites w + (if P then 1 else 0)) →
      ((physWrites (saveSecSettings w true).1 = physWrites w + 1 ↔ P) ∧
       (physWrites (saveSecSettings w true).1 = physWrites w ↔ ¬ P)) := by
    intro P _ hP
    by_cases hp : P
    · simp only [hp, if_true] at hP
      simp [hP, hp]
    · simp only [hp, if_false] at hP
      simp [hP, hp]
  have h2 : physWrites (saveSecSettings w true).1 =
      physWrites w + (if calcHash w.secSettings.bytes ≠ calcHash a.bytes then 1 else 0) := by
    rw [h]
    by_cases hc : calcHash a.bytes = calcHash w.secSettings.bytes
    · simp [hc]
    · have hc' : ¬ calcHash w.secSettings.bytes = calcHash a.bytes := fun e => hc e.symm
      simp [hc, hc', hmed]
  obtain ⟨k1, k2⟩ := key _ h2
  refine ⟨k1, ?_, ?_⟩
  · rw [k2]; exact not_not
  · intro ha hb hne
    exact k1.mpr (fun e => hne (calcHash_normal_injective _ _ ha hb e.symm))

/-- C27 amended, at a concrete input: brightness 14 saved last, brightness 15
in memory, flash mounted: one write request. -/
theorem C27_mutation_written_witness :
    physWrites (saveSecSettings mutatedWorld true).1 = physWrites mutatedWorld + 1 :=
  (C27_mutation_written mutatedWorld ⟨14, 0, 0, 0, 0, 0, 1⟩ rfl (by decide)).2.2
    (by unfold SecSettings.normal; decide) (by unfold SecSettings.normal; decide) (by decide)

/-! ## C28: deleting the static IP record -/

theorem deleteIpSettings_frame (w : World) :
    (deleteIpSettings w).ipHash = 0 ∧
    physWrites (deleteIpSettings w) = physWrites w ∧
    (deleteIpSettings w).haveFS = w.haveFS ∧ (deleteIpSettings w).haveSD = w.haveSD ∧
    (deleteIpSettings w).FlashROMode = w.FlashROMode := by
  unfold deleteIpSettings sdRemove fsRemove physWrites Medium.remove
  cases w.FlashROMode <;> cases w.haveFS <;> cases w.haveSD <;> simp

/-- C28: `deleteIpSettings` sets `ipHash` to 0 and writes nothing.  A
`writeIpSettings` that follows, with any content `ip` whose `ip` field is
non-empty (also the content persisted before the deletion), issues one write
request of that content when the selected medium (the SD card in
read-only-flash mode, flash otherwise) is mounted, and leaves `ipHash` at the
hash of the content.  And in every state `v`, `writeIpSettings` changes
nothing when `ipsettings.ip` is empty. -/
theorem C28_delete_invalidates_cache (w v : World) (ip : IPSettings) :
    (deleteIpSettings w).ipHash = 0 ∧
    physWrites (deleteIpSettings w) = physWrites w ∧
    ((cstr ip.ip).length ≠ 0 → (if w.FlashROMode then w.haveSD else w.haveFS) = true →
      physWrites (writeIpSettings { deleteIpSettings w with ipsettings := ip }) =
        physWrites w + 1 ∧
      (writeIpSettings { deleteIpSettings w with ipsettings := ip }).ipHash =
        calcHash ip.bytes ∧
      writeIpSettings { deleteIpSettings w with ipsettings := ip } =
        (saveConfigFile { deleteIpSettings w with ipsettings := ip, ipHash := calcHash ip.bytes }
          ipCfgName ip.bytes (-1)).1) ∧
    ((cstr v.ipsettings.ip).length = 0 → writeIpSettings v = v) := by
  obtain ⟨h0, hp, hfs, hsd, hro⟩ := deleteIpSettings_frame w
  refine ⟨h0, hp, ?_, ?_⟩
  · intro hne hmed
    have hguard : (!(deleteIpSettings w).haveFS && !(deleteIpSettings w).FlashROMode) = false := by
      rw [hfs, hro]
      cases hr : w.FlashROMode
      · simp [hr] at hmed
        simp [hmed]
      · simp
    have he : writeIpSettings { deleteIpSettings w with ipsettings := ip } =
        (saveConfigFile
          { deleteIpSettings w with ipsettings := ip, ipHash := calcHash ip.bytes }
          ipCfgName ip.bytes (-1)).1 := by
      unfold writeIpSettings
      simp only [hguard, Bool.false_eq_true, if_false, h0]
      have h2 : ((cstr ip.ip).length == 0) = false := by simpa using hne
      simp only [h2, Bool.false_eq_true, if_false]
      simp
    refine ⟨?_, ?_, he⟩
    · rw [he, saveConfigFile_physWrites]
      have hs : sdSelected
          { deleteIpSettings w with ipsettings := ip, ipHash := calcHash ip.bytes } (-1) =
          w.FlashROMode := by
        simp [sdSelected, hro]
      rw [hs]
      simp only [hsd, hfs, hmed, if_true]
      show physWrites (deleteIpSettings w) + 1 = _
      rw [hp]
    · rw [he, saveConfigFile_frame]
  · intro hz
    unfold writeIpSettings
    split
    · rfl
    · simp [hz]

/-- C28 at a concrete input: flash mounted, a static IP configuration that was
saved before; after `deleteIpSettings` the same content is written again. -/
theorem C28_delete_invalidates_cache_witness :
    writeIpSettings ipWorld = ipWorld ∧
    physWrites (writeIpSettings { deleteIpSettings ipWorld with ipsettings := ipWorld.ipsettings })
      = physWrites ipWorld + 1 :=
  ⟨by decide,
   ((C28_delete_invalidates_cache ipWorld ipWorld ipWorld.ipsettings).2.2.1 (by decide)
      (by decide)).1⟩

/-! ## C29: absent WiFi credentials -/

/-- The keys `ssid` and `pass` are in the document iff the marker is not set. -/
theorem settingsDoc_keys (s : Settings) :
    ("ssid" ∈ (settingsDoc s).map Prod.fst ↔
      ¬ (s.ssid.getD 0 0 = 0 ∧ s.ssid.getD 1 0 = 88)) ∧
    ("pass" ∈ (settingsDoc s).map Prod.fst ↔
      ¬ (s.ssid.getD 0 0 = 0 ∧ s.ssid.getD 1 0 = 88)) := by
  unfold settingsDoc
  generalize s.ssid.getD 0 0 = a
  generalize s.ssid.getD 1 0 = b
  by_cases h : a = 0 ∧ b = 88
  · obtain ⟨rfl, rfl⟩ := h
    simp
  · have hc : (a != 0 || b != 88) = true := by
      simp only [Bool.or_eq_true, bne_iff_ne, ne_eq]
      by_cases h0 : a = 0
      · exact Or.inr (fun h1 => h ⟨h0, h1⟩)
      · exact Or.inl h0
    simp only [hc, if_true]
    simp [h]

theorem readFields_wifi (json : JsonObj) (D : Defaults) (s : Settings) :
    (readFields json D s).1.ssid = s.ssid ∧ (readFields json D s).1.pass = s.pass :=
  ⟨rfl, rfl⟩

theorem strncpyField_marker (v : List Byte) (n : Nat) :
    ¬ ((strncpyField v n).getD 0 0 = 0 ∧ (strncpyField v n).getD 1 0 = 88) := by
  rintro ⟨h0, h1⟩
  unfold strncpyField at h0 h1
  have hnz := cstr_ne_zero v
  generalize cstr v = t at h0 h1 hnz
  match t, n with
  | [], n => 
    simp only [List.take_nil, List.nil_append, List.length_nil] at h1
    rw [List.getD_eq_getElem?_getD] at h1
    by_cases hn : 1 < n - 0
    · rw [List.getElem?_replicate_of_lt hn] at h1
      simp at h1
    · rw [List.getElem?_eq_none (by simpa using hn)] at h1
      simp at h1
  | a :: t, 0 => simp at h1
  | a :: t, 1 => simp at h1
  | a :: t, n + 2 =>
    simp at h0
    exact hnz a (List.mem_cons_self _ _) h0

/-- C29: `write_settings` puts the keys `ssid` and `pass` in the document iff
not (`ssid[0] = 0` and `ssid[1] = 'X'`).  The first `read_settings` of a
well-formed document whose member `ssid` is absent (or null, false or zero)
returns and leaves that marker with an empty `pass`, so the document written
next has neither key.  A document whose member `ssid` is a string, also the
empty one, leaves no marker: the document written next has both keys, and
`read_settings` returns when `pass` is absent or a string. -/
theorem C29_wifi_absence_preserved (J : JsonLib) (D : Defaults) (w : World) (file : List Byte)
    (json : JsonObj) (hparse : J.parse file = some json)
    (hlen : 2 ≤ w.settings.ssid.length) :
    (∀ s : Settings,
      ("ssid" ∈ (settingsDoc s).map Prod.fst ↔
        ¬ (s.ssid.getD 0 0 = 0 ∧ s.ssid.getD 1 0 = 88)) ∧
      ("pass" ∈ (settingsDoc s).map Prod.fst ↔
        ¬ (s.ssid.getD 0 0 = 0 ∧ s.ssid.getD 1 0 = 88))) ∧
    (asBool (json.get "ssid") = false →
      ∃ w' wd, read_settings J D w file 0 = some (w', wd) ∧
        w'.settings.ssid.getD 0 0 = 0 ∧ w'.settings.ssid.getD 1 0 = 88 ∧
        cstr w'.settings.pass = [] ∧
        "ssid" ∉ (settingsDoc w'.settings).map Prod.fst ∧
        "pass" ∉ (settingsDoc w'.settings).map Prod.fst) ∧
    (∀ v cnt, json.get "ssid" = some (JVal.str v) →
      ((json.get "pass" = none ∨ ∃ p, json.get "pass" = some (JVal.str p)) →
        ∃ r, read_settings J D w file cnt = some r) ∧
      ∀ w' wd, read_settings J D w file cnt = some (w', wd) →
        w'.settings.ssid = strncpyField v w.settings.ssid.length ∧
        "ssid" ∈ (settingsDoc w'.settings).map Prod.fst ∧
        "pass" ∈ (settingsDoc w'.settings).map Prod.fst) := by
  refine ⟨settingsDoc_keys, ?_, ?_⟩
  · intro hb
    have hw : ∃ s0, readWifi json w.settings 0 = some (s0, false) ∧
        s0.ssid = (List.replicate w.settings.ssid.length 0).set 1 88 ∧
        s0.pass = List.replicate w.settings.pass.length 0 := by
      unfold readWifi
      simp only [hb, Bool.false_eq_true, if_false, beq_self_eq_true, if_true]
      exact ⟨_, rfl, rfl, rfl⟩
    obtain ⟨s0, hw, hs0, hp0⟩ := hw
    have hrs : ∃ w' wd, read_settings J D w file 0 = some (w', wd) ∧
        w'.settings = (readFields json D s0).1 := by
      unfold read_settings
      simp only [hparse, hw]
      exact ⟨_, _, rfl, rfl⟩
    obtain ⟨w', wd, hrs, hset⟩ := hrs
    refine ⟨w', wd, hrs, ?_⟩
    have h0 : w'.settings.ssid.getD 0 0 = 0 := by
      rw [hset, (readFields_wifi json D s0).1, hs0]
      rw [List.getD_eq_getElem?_getD, List.getElem?_set_ne (by decide),
        List.getElem?_replicate_of_lt (by omega)]
      rfl
    have h1 : w'.settings.ssid.getD 1 0 = 88 := by
      rw [hset, (readFields_wifi json D s0).1, hs0]
      rw [List.getD_eq_getElem?_getD, List.getElem?_set_self (by simpa using hlen)]
      rfl
    have hk := settingsDoc_keys w'.settings
    refine ⟨h0, h1, ?_, ?_, ?_⟩
    · rw [hset, (readFields_wifi json D s0).2, hp0]
      cases w.settings.pass.length <;> simp [cstr, List.replicate_succ]
    · rw [hk.1]
      exact not_not.mpr ⟨h0, h1⟩
    · rw [hk.2]
      exact not_not.mpr ⟨h0, h1⟩
  · intro v cnt hv
    have hb : asBool (json.get "ssid") = true := by rw [hv]; rfl
    have hc : asCStr (json.get "ssid") = some v := by rw [hv]; rfl
    have hssid : ∀ r, readWifi json w.settings cnt = some r →
        r.1.ssid = strncpyField v w.settings.ssid.length := by
      intro r hr
      unfold readWifi at hr
      simp only [hb, hc, if_true] at hr
      split at hr
      · split at hr
        · cases hr
        · cases hr; rfl
      · cases hr; rfl
    refine ⟨?_, ?_⟩
    · intro hp
      have : ∃ r, readWifi json w.settings cnt = some r := by
        unfold readWifi
        simp only [hb, hc, if_true]
        rcases hp with hp | ⟨p, hp⟩
        · rw [hp]; exact ⟨_, rfl⟩
        · rw [hp]; exact ⟨_, rfl⟩
      obtain ⟨r, hr⟩ := this
      obtain ⟨s1, wd1⟩ := r
      have : read_settings J D w file cnt =
          some ((read_settings J D w file cnt).getD (w, false)) := by
        unfold read_settings
        simp only [hparse, hr]
        rfl
      exact ⟨_, this⟩
    · intro w' wd hr
      unfold read_settings at hr
      simp only [hparse] at hr
      cases hw : readWifi json w.settings cnt with
      | none => simp [hw] at hr
      | some r =>
        obtain ⟨s1, wd1⟩ := r
        simp only [hw, Option.some.injEq, Prod.mk.injEq] at hr
        have hs := hssid _ hw
        simp only [] at hs
        have hs' : w'.settings.ssid = strncpyField v w.settings.ssid.length := by
          rw [← hr.1]
          exact hs
        have hk := settingsDoc_keys w'.settings
        rw [hs'] at hk
        exact ⟨hs', hk.1.mpr (strncpyField_marker _ _), hk.2.mpr (strncpyField_marker _ _)⟩

/-- C29 at a concrete input: a document without `ssid` read into four-byte
arrays leaves the marker, and a document with an empty `ssid` does not. -/
theorem C29_wifi_absence_preserved_witness :
    (∃ w' wd, read_settings (constJson []) sampleDefaults smallWorld [] 0 = some (w', wd) ∧
        w'.settings.ssid.getD 0 0 = 0 ∧ w'.settings.ssid.getD 1 0 = 88 ∧
        cstr w'.settings.pass = [] ∧
        "ssid" ∉ (settingsDoc w'.settings).map Prod.fst ∧
        "pass" ∉ (settingsDoc w'.settings).map Prod.fst) ∧
    (∃ r, read_settings (constJson emptySsidDoc) sampleDefaults smallWorld [] 0 = some r) :=
  ⟨(C29_wifi_absence_preserved (constJson []) sampleDefaults smallWorld [] [] rfl
      (by decide)).2.1 rfl,
   ((C29_wifi_absence_preserved (constJson emptySsidDoc) sampleDefaults smallWorld []
      emptySsidDoc rfl (by decide)).2.2 [] 0 rfl).1 (Or.inl rfl)⟩

/-! ## C30: the medium flags after `settings_setup` -/

theorem saveConfigFile_flags (w : World) (fn : String) (P : List Byte) (forcefs : Int) :
    mediumFlags (saveConfigFile w fn P forcefs).1 = mediumFlags w := by
  rw [saveConfigFile_frame]
  rfl

theorem writeJSONCfgFile_flags (w : World) (buf : List Byte) (fn : String) (useSD : Bool)
    (oldHash : Nat) (newHash : Option Nat) :
    mediumFlags (writeJSONCfgFile w buf fn useSD oldHash newHash).1 = mediumFlags w := by
  unfold writeJSONCfgFile
  simp only []
  split
  · rfl
  · split
    · rw [writeFileToSD_frame]; rfl
    · rw [writeFileToFS_frame]; rfl

theorem removeOldFiles_flags (w : World) (fn : String) :
    mediumFlags (removeOldFiles w fn) = mediumFlags w := by
  rw [removeOldFiles_frame]
  rfl

theorem deleteIRKeys_flags (w : World) : mediumFlags (deleteIRKeys w) = mediumFlags w := by
  unfold deleteIRKeys sdRemove fsRemove
  (repeat' split) <;> rfl

theorem write_settings_flags (ser : JsonDoc → List Byte) (w : World) :
    mediumFlags (write_settings ser w) = mediumFlags w := by
  unfold write_settings
  split
  · rfl
  · exact writeJSONCfgFile_flags _ _ _ _ _ _

theorem saveId_flags (w : World) : mediumFlags (saveId w) = mediumFlags w := by
  unfold saveId
  split
  · rfl
  · exact saveConfigFile_flags _ _ _ _

theorem read_settings_frame (J : JsonLib) (D : Defaults) (w : World) (file : List Byte)
    (cnt : Nat) (r : World × Bool) (h : read_settings J D w file cnt = some r) :
    mediumFlags r.1 = mediumFlags w ∧ r.1.sd = w.sd ∧ r.1.fs = w.fs := by
  unfold read_settings at h
  simp only [] at h
  split at h
  · cases h
    exact ⟨rfl, rfl, rfl⟩
  · split at h
    · cases h
    · cases h
      exact ⟨rfl, rfl, rfl⟩

theorem loadId_flags (J : JsonLib) (w : World) (r : World × Bool) (h : loadId J w = some r) :
    mediumFlags r.1 = mediumFlags w := by
  unfold loadId at h
  split at h
  · cases h
  · split at h
    · cases h; rfl
    · split at h
      · cases h; rfl
      · split at h
        · cases h
          rw [removeOldFiles_flags]
          repeat' split
          all_goals try simp only []
          all_goals repeat' split
          all_goals first | rfl | exact saveId_flags _
        · cases h; rfl

theorem setupRemoteId_flags (J : JsonLib) (r1 r2 r3 : Nat) (w w' : World)
    (h : setupRemoteId J r1 r2 r3 w = some w') : mediumFlags w' = mediumFlags w := by
  unfold setupRemoteId at h
  split at h
  · cases h
  · rename_i r hr
    have hl := loadId_flags J w r hr
    split at h
    · cases h
      rw [saveId_flags]
      exact hl
    · cases h
      exact hl

theorem loadIRKeys_flags (J : JsonLib) (w w' : World) (h : loadIRKeys J w = some w') :
    mediumFlags w' = mediumFlags w := by
  unfold loadIRKeys at h
  split at h
  · split at h
    · rename_i file _ r hr
      cases h
      have hf : mediumFlags r.1 = mediumFlags w := by
        unfold loadIRkeysFromFile at hr
        split at hr
        · cases hr; rfl
        · split at hr
          · cases hr
          · cases hr
            simp only []
            split <;> rfl
      split
      · rw [deleteIRKeys_flags]; exact hf
      · exact hf
    · cases h
  · cases h; rfl

theorem loadSecRecord_flags (w w' : World) (h : loadSecRecord w = some w') :
    mediumFlags w' = mediumFlags w := by
  unfold loadSecRecord at h
  split at h
  · cases h
  · split at h <;> cases h <;> rfl

theorem loadTerRecord_flags (w w' : World) (h : loadTerRecord w = some w') :
    mediumFlags w' = mediumFlags w := by
  unfold loadTerRecord at h
  split at h
  · split at h
    · cases h
    · split at h <;> cases h <;> rfl
  · cases h; rfl

theorem loadUpdAvail_flags (w : World) : mediumFlags (loadUpdAvail w) = mediumFlags w := by
  unfold loadUpdAvail
  split <;> rfl

theorem setupFlash_flags (J : JsonLib) (D : Defaults) (env : SetupEnv) (w : World)
    (r : World × Bool × Bool × Nat) (h : setupFlash J D env w = some r) :
    r.1.haveFS = (env.nvsBegin || env.nvsFormatBegin) ∧ r.1.FlashROMode = w.FlashROMode ∧
    r.1.sd = w.sd := by
  unfold setupFlash formatFlashFS at h
  cases hb : env.nvsBegin <;> cases hf : env.nvsFormatBegin <;>
    simp only [hb, hf, if_true, if_false, Bool.false_eq_true] at h
  all_goals first
    | (cases h; exact ⟨rfl, rfl, rfl⟩)
    | (split at h
       · split at h
         · split at h
           · cases h
             rename_i rs hrs
             obtain ⟨h1, h2, _⟩ := read_settings_frame _ _ _ _ _ _ hrs
             simp only [mediumFlags, Prod.mk.injEq] at h1
             exact ⟨h1.1, h1.2.2.1, h2⟩
           · cases h
         · cases h; exact ⟨rfl, rfl, rfl⟩
       · cases h; exact ⟨rfl, rfl, rfl⟩)

theorem setupSD_flags (J : JsonLib) (D : Defaults) (ser : JsonDoc → List Byte) (env : SetupEnv)
    (w w' : World) (cnt : Nat) (h : setupSD J D ser env w cnt = some w') :
    w'.haveFS = w.haveFS ∧
    w'.haveSD = ((env.sdBegin || env.sdBeginRetry) &&
      (env.cardType != CARD_NONE && env.cardType != CARD_UNKNOWN)) ∧
    w'.FlashROMode =
      (w.FlashROMode || (w'.haveSD && (w.sd.fexists flashROMarker || !w.haveFS))) := by
  unfold setupSD at h
  simp only [] at h
  generalize hsd : ((env.sdBegin || env.sdBeginRetry) &&
      (env.cardType != CARD_NONE && env.cardType != CARD_UNKNOWN)) = sdok at h ⊢
  cases sdok
  · simp only [Bool.false_eq_true, if_false, Option.some.injEq] at h
    subst h
    simp
  · simp only [if_true] at h
    have hfw : ∀ v v' : World, firmware_update env v = some v' → v' = v := by
      intro v v' hv
      unfold firmware_update at hv
      split at hv
      · cases hv; rfl
      · split at hv
        · cases hv; rfl
        · split at hv
          · cases hv; rfl
          · cases hv
    split at h
    · cases h
    · rename_i w2 hw2
      have := hfw _ _ hw2
      subst this
      by_cases hm : (sdExists { w with haveSD := true } flashROMarker ||
          !({ w with haveSD := true } : World).haveFS) = true
      · simp only [hm, if_true] at h
        have hm' : (w.sd.fexists flashROMarker || !w.haveFS) = true := by
          simpa [sdExists] using hm
        have key : ∀ w4 : World × Bool,
            mediumFlags w4.1 = mediumFlags { w with haveSD := true, FlashROMode := true } →
            (if w4.2 = true then some (write_settings ser { w4.1 with mainConfigHash := 0 })
              else some w4.1) = some w' →
            w'.haveFS = w.haveFS ∧ w'.haveSD = true ∧
              w'.FlashROMode = (w.FlashROMode || (w'.haveSD &&
                (w.sd.fexists flashROMarker || !w.haveFS))) := by
          intro w4 hfl hres
          have hw' : mediumFlags w' = mediumFlags w4.1 := by
            split at hres
            · cases hres
              rw [write_settings_flags]
              rfl
            · cases hres
              rfl
          rw [hfl] at hw'
          simp only [mediumFlags, Prod.mk.injEq] at hw'
          obtain ⟨a, b, c, _⟩ := hw'
          rw [a, b, c, hm']
          simp
        split at h
        · cases h
        · rename_i w4 wd2 hr
          refine key (w4, wd2) ?_ h
          split at hr
          · split at hr
            · exact (read_settings_frame _ _ _ _ _ _ hr).1
            · cases hr; rfl
          · cases hr; rfl
      · simp only [hm, Bool.false_eq_true, if_false, Option.some.injEq] at h
        subst h
        have hm' : (w.sd.fexists flashROMarker || !w.haveFS) = false := by
          simpa [sdExists] using hm
        simp [hm']

theorem setupDefaults_flags (ser : JsonDoc → List Byte) (env : SetupEnv) (w : World)
    (wd fresh : Bool) (cnt : Nat) :
    mediumFlags (setupDefaults ser env w wd fresh cnt) = mediumFlags w := by
  unfold setupDefaults formatFlashFS
  simp only []
  split
  · split
    · split
      · rw [write_settings_flags]; rfl
      · rfl
    · split
      · rw [write_settings_flags]; rfl
      · rfl
  · split
    · rw [write_settings_flags]; rfl
    · rfl

/-- C30: when `settings_setup` returns, started with `FlashROMode` false as at
boot, then `haveFS` and `haveSD` tell whether flash and a usable SD card were
mounted, `FlashROMode` implies `haveSD`, `configOnSD` implies `haveSD`,
`FlashROMode` implies `configOnSD`, and `FlashROMode` holds iff `haveSD` and
(the marker `/SID_FLASH_RO` is on the card or `haveFS` is false). -/
theorem C30_medium_flags (J : JsonLib) (D : Defaults) (ser : JsonDoc → List Byte)
    (env : SetupEnv) (w w' : World) (hboot : w.FlashROMode = false)
    (h : settings_setup J D ser env w = some w') :
    w'.haveFS = (env.nvsBegin || env.nvsFormatBegin) ∧
    w'.haveSD = ((env.sdBegin || env.sdBeginRetry) &&
      (env.cardType != CARD_NONE && env.cardType != CARD_UNKNOWN)) ∧
    (w'.FlashROMode = true → w'.haveSD = true) ∧
    (w'.configOnSD = true → w'.haveSD = true) ∧
    (w'.FlashROMode = true → w'.configOnSD = true) ∧
    (w'.FlashROMode = true ↔
      w'.haveSD = true ∧ (w.sd.fexists flashROMarker = true ∨ w'.haveFS = false)) := by
  unfold settings_setup at h
  split at h
  · cases h
  · rename_i w1 wd fresh cnt h1
    obtain ⟨f1, f2, f3⟩ := setupFlash_flags J D env w _ h1
    simp only [] at f1 f2 f3
    split at h
    · cases h
    · rename_i w2 h2
      obtain ⟨s1, s2, s3⟩ := setupSD_flags J D ser env w1 w2 cnt h2
      simp only [] at h
      split at h
      · cases h
      · rename_i w4 h4
        have g4 := setupRemoteId_flags J env.r1 env.r2 env.r3 _ w4 h4
        rw [setupDefaults_flags] at g4
        split at h
        · cases h
        · rename_i w6 h6
          have g6 := loadSecRecord_flags _ w6 h6
          split at h
          · cases h
          · rename_i w7 h7
            have g7 := loadTerRecord_flags w6 w7 h7
            split at h
            · cases h
            · rename_i w8 h8
              have g8 := loadIRKeys_flags J w7 w8 h8
              cases h
              have g := loadUpdAvail_flags w8
              rw [g8, g7, g6] at g
              simp only [mediumFlags, Prod.mk.injEq] at g g4
              obtain ⟨a, b, c, d⟩ := g
              obtain ⟨a4, b4, c4, _⟩ := g4
              rw [a4] at a
              rw [b4] at b d
              rw [c4] at c d
              rw [s1, f1] at a
              rw [f2, hboot, f3, f1] at s3
              rw [s3] at c d
              rw [a, b, c, d]
              rw [s2]
              generalize ((env.sdBegin || env.sdBeginRetry) &&
                (env.cardType != CARD_NONE && env.cardType != CARD_UNKNOWN)) = sdok
              generalize (env.nvsBegin || env.nvsFormatBegin) = fsok
              generalize w.sd.fexists flashROMarker = marker
              generalize (w4.settings.CfgOnSD.getD 0 0 != 48) = cfg
              cases sdok <;> cases fsok <;> cases marker <;> cases cfg <;> simp

/-- C30 at concrete inputs: when flash and an SD card with the marker file
mount, `settings_setup` returns with all four flags set; when only flash
mounts, it returns with `haveFS` alone. -/
theorem C30_medium_flags_witness :
    (settings_setup noJson sampleDefaults (fun _ => []) bootEnv bootWorld).map mediumFlags =
      some (true, true, true, true) ∧
    (settings_setup noJson sampleDefaults (fun _ => []) noCardEnv bootWorld).map mediumFlags =
      some (true, false, false, false) ∧
    (((settings_setup noJson sampleDefaults (fun _ => []) bootEnv bootWorld).getD
        bootWorld).FlashROMode = true ↔
      ((settings_setup noJson sampleDefaults (fun _ => []) bootEnv bootWorld).getD
        bootWorld).haveSD = true ∧
      (bootWorld.sd.fexists flashROMarker = true ∨
        ((settings_setup noJson sampleDefaults (fun _ => []) bootEnv bootWorld).getD
          bootWorld).haveFS = false)) :=
  ⟨by decide, by decide,
   (C30_medium_flags noJson sampleDefaults (fun _ => []) bootEnv bootWorld
      ((settings_setup noJson sampleDefaults (fun _ => []) bootEnv bootWorld).getD bootWorld)
      rfl (by decide)).2.2.2.2.2⟩

end SID
